import Mathlib

/-!
# WeaponSystem: the weapon state machine of `WSWeapon.cpp`

A shallow embedding of `AWSWeapon` (Source/WeaponSystem/Private/WSWeapon.cpp).

Modelling conventions.

* `int32` counters are integers (`Int`).  The product that seeds `CurrentAmmo`
  in `PostInitializeComponents` is reduced to the `int32` range by `wrapInt32`,
  as the compiled program does; the increments and decrements of the counters
  are exact, so the development describes executions in which they stay in the
  32-bit range.
* `float` times and durations are rationals (`ℚ`).  The sum and the differences
  in `OnBurstStarted` and `StartReload`, which decide a branch or the order of
  two timers, are rounded to the nearest `float` by `float32`; the literal
  `0.1f` is `FLOAT_0_1`, and `0.5f` is `1/2`.  The sums in the refire delay of
  `HandleFiring` and `HandleReFiring` are exact.
* The holder (`UWSWeaponComponent`), the world clock and the network role are
  not part of this file.  Their answers during one operation are collected in
  `Env`; they are arbitrary and may change from one operation to the next.
* `WeaponComponent` is a pointer.  The weapon records only whether it is
  non-null.  Dereferencing a null holder stops the operation: the outcome is
  `Outcome.nullHolder`, carrying the fields as they were at that point.
* Presentation calls (mesh, particles, sounds, animations, camera shake,
  delegates' subscribers, `FireWeapon`) have no effect on the fields modelled
  here and are left out, except for the null dereference they may perform.
* Remote procedure calls that execute on another process (`ServerStartFire`,
  `ServerStopFire`, `ServerStartReload`, `ServerHandleFiring` when called by a
  client) have no effect on the local fields.
* The engine's property replication, which overwrites `CurrentAmmo`,
  `CurrentAmmoInClip`, `BurstCounter` and `bPendingReload` on a replica without
  authority, is not an operation of the model; the reactions `OnRep_Reload`
  runs are `StartReload(true)` and `StopReload()`.
* `HandleFiring` and `StartReload` call each other through
  `DetermineWeaponState`, `SetWeaponState` and `OnBurstStarted`.  The cycle is
  cut by a fuel argument of `HandleFiring`; the functions on the cycle receive
  the already fuelled `HandleFiring` as their first argument `hf`.
-/

namespace WeaponSystem

/-- Weapon states, `EWeaponState` in the source. -/
inductive EWeaponState where
  | EWS_Idle
  | EWS_Firing
  | EWS_Reloading
  | EWS_Equipping
deriving DecidableEq, Repr

/-- Per weapon type tunables read through `WeaponConfig.` in the source. -/
structure FWeaponConfig where
  AmmoPerClip : Int
  MaxAmmo : Int
  InitialClips : Int
  TimeBetweenShots : ℚ
  NoAnimReloadDuration : ℚ
  bInfiniteAmmo : Bool
  bInfiniteClip : Bool
deriving DecidableEq, Repr

/-- The callback bound to `TimerHandle_HandleFiring`. -/
inductive FireCallback where
  | HandleFiring
  | HandleReFiring
deriving DecidableEq, Repr

/-- The fields of `AWSWeapon` that the state machine reads and writes.  A timer
handle is `none` when no callback is pending and `some d` when a one-shot
callback was scheduled with delay `d`. -/
structure AWSWeapon where
  WeaponConfig : FWeaponConfig
  bAllowAutomaticWeaponCatchup : Bool
  /-- Whether the pointer `WeaponComponent` is non-null. -/
  WeaponComponent : Bool
  bIsEquipped : Bool
  bWantsToFire : Bool
  bPendingReload : Bool
  bPendingEquip : Bool
  bRefiring : Bool
  CurrentState : EWeaponState
  CurrentAmmo : Int
  CurrentAmmoInClip : Int
  BurstCounter : Int
  LastFireTime : ℚ
  TimerIntervalAdjustment : ℚ
  EquipStartedTime : ℚ
  EquipDuration : ℚ
  TimerHandle_HandleFiring : Option (FireCallback × ℚ)
  TimerHandle_StopReload : Option ℚ
  TimerHandle_ReloadWeapon : Option ℚ
  TimerHandle_OnEquipFinished : Option ℚ
deriving DecidableEq, Repr

/-- What the holder, the engine and the network layer answer during one
operation. -/
structure Env where
  /-- Answer of `WeaponComponent->CanFire()`. -/
  Holder_CanFire : Bool
  /-- Answer of `WeaponComponent->CanReload()`. -/
  Holder_CanReload : Bool
  /-- Answer of `WeaponComponent->HasInfiniteAmmo()`. -/
  Holder_HasInfiniteAmmo : Bool
  /-- Answer of `WeaponComponent->HasInfiniteClip()`. -/
  Holder_HasInfiniteClip : Bool
  /-- Answer of `WeaponComponent->IsLocallyControlled()`. -/
  Holder_IsLocallyControlled : Bool
  /-- Whether `WeaponComponent->GetWeapon() == this`. -/
  Holder_WeaponIsThis : Bool
  /-- Whether `GetLocalRole() == ROLE_Authority` (otherwise the role is lower). -/
  bAuthority : Bool
  /-- Whether `GetNetMode() == NM_DedicatedServer`. -/
  bDedicatedServer : Bool
  /-- Whether a client remote call (`ClientStartReload`) issued here executes on
  this process. -/
  bClientCallIsLocal : Bool
  /-- Value of `GetWorld()->GetTimeSeconds()`. -/
  TimeSeconds : ℚ
  /-- Value returned by `PlayPawnAnimation(PawnReloadAnim)`. -/
  ReloadAnimDuration : ℚ
  /-- Value returned by `PlayPawnAnimation(PawnEquipAnim)`. -/
  EquipAnimDuration : ℚ
deriving DecidableEq, Repr

/-- How an operation ends: it returns (`ok`), it dereferences a null holder
(`nullHolder`), or the model runs out of fuel (`outOfFuel`).  Each case carries
the weapon fields at that point. -/
inductive Outcome where
  | ok (w : AWSWeapon)
  | nullHolder (w : AWSWeapon)
  | outOfFuel (w : AWSWeapon)
deriving DecidableEq, Repr

/-- The weapon fields at the end of an operation. -/
def Outcome.state : Outcome → AWSWeapon
  | .ok w => w
  | .nullHolder w => w
  | .outOfFuel w => w

/-- Sequencing: continue with `f` after a normal return, stop otherwise. -/
def Outcome.andThen : Outcome → (AWSWeapon → Outcome) → Outcome
  | .ok w, f => f w
  | .nullHolder w, _ => .nullHolder w
  | .outOfFuel w, _ => .outOfFuel w

/-- A use of `WeaponComponent->` that is not guarded by a null test. -/
def derefHolder (w : AWSWeapon) : Outcome :=
  if w.WeaponComponent then .ok w else .nullHolder w

/-- The engine constant `SMALL_NUMBER` (`1.e-8f`). -/
def SMALL_NUMBER : ℚ := 1 / 100000000

/-- Modelled from the spec: the Timer Service's `SetTimer(callback, delay,
repeating)` for a one-shot callback; the handle becomes pending with the given
delay, replacing whatever was pending on it. -/
def SetTimer {α : Type} (x : α) : Option α := some x

/-- Modelled from the spec: the Timer Service's `ClearTimer(handle)`. -/
def ClearTimer {α : Type} : Option α := none

/-- The constructor `AWSWeapon::AWSWeapon()`.  Fields it does not assign are
zero, as the engine zero-fills a new object; the configuration and
`bAllowAutomaticWeaponCatchup` come from the class defaults. -/
def AWSWeapon.ctor (cfg : FWeaponConfig) (bCatchup : Bool) : AWSWeapon where
  WeaponConfig := cfg
  bAllowAutomaticWeaponCatchup := bCatchup
  WeaponComponent := false
  bIsEquipped := false
  bWantsToFire := false
  bPendingReload := false
  bPendingEquip := false
  bRefiring := false
  CurrentState := .EWS_Idle
  CurrentAmmo := 0
  CurrentAmmoInClip := 0
  BurstCounter := 0
  LastFireTime := 0
  TimerIntervalAdjustment := 0
  EquipStartedTime := 0
  EquipDuration := 0
  TimerHandle_HandleFiring := none
  TimerHandle_StopReload := none
  TimerHandle_ReloadWeapon := none
  TimerHandle_OnEquipFinished := none

/-- The value an `int32` holds after an arithmetic result `x`: `x` reduced
modulo `2^32` into the range from `-2^31` to `2^31 - 1`. -/
def wrapInt32 (x : Int) : Int :=
  (x + 2147483648) % 4294967296 - 2147483648

/-- Rounding to the nearest integer, ties to the even one. -/
def roundHalfEven (q : ℚ) : ℤ :=
  if q - ⌊q⌋ < 1 / 2 then ⌊q⌋
  else if 1 / 2 < q - ⌊q⌋ then ⌊q⌋ + 1
  else if ⌊q⌋ % 2 = 0 then ⌊q⌋
  else ⌊q⌋ + 1

/-- The exponent of the unit in the last place of a `float` near `q`: the
significand has 24 bits, and the exponent is not below -149. -/
def float32Ulp (q : ℚ) : ℤ :=
  max (Int.log 2 |q| - 23) (-149)

/-- The `float` (IEEE 754 binary32) nearest to `q`, ties to the even
significand: the result of a `float` operation whose exact result is `q`.
Overflow to infinity is left out. -/
def float32 (q : ℚ) : ℚ :=
  roundHalfEven (q / 2 ^ float32Ulp q) * 2 ^ float32Ulp q

/-- The literal `0.1f`: the `float` nearest to `1/10`. -/
def FLOAT_0_1 : ℚ := 13421773 / 134217728

/-- Embeds `AWSWeapon::PostInitializeComponents`.  The product of the two `int32`
values is stored in an `int32`. -/
def PostInitializeComponents (w : AWSWeapon) : AWSWeapon :=
  if w.WeaponConfig.InitialClips > 0 then
    { w with
      CurrentAmmoInClip := w.WeaponConfig.AmmoPerClip
      CurrentAmmo := wrapInt32 (w.WeaponConfig.AmmoPerClip * w.WeaponConfig.InitialClips) }
  else w

/-- Embeds `AWSWeapon::SetOwningComponent`, with the new pointer reduced to whether
it is non-null. -/
def SetOwningComponent (NewComponent : Bool) (w : AWSWeapon) : AWSWeapon :=
  { w with WeaponComponent := NewComponent }

/-- Embeds `AWSWeapon::HasInfiniteAmmo`. -/
def HasInfiniteAmmo (e : Env) (w : AWSWeapon) : Bool :=
  w.WeaponConfig.bInfiniteAmmo || (w.WeaponComponent && e.Holder_HasInfiniteAmmo)

/-- Embeds `AWSWeapon::HasInfiniteClip`. -/
def HasInfiniteClip (e : Env) (w : AWSWeapon) : Bool :=
  w.WeaponConfig.bInfiniteClip || (w.WeaponComponent && e.Holder_HasInfiniteClip)

/-- Embeds `AWSWeapon::CanReload`. -/
def CanReload (e : Env) (w : AWSWeapon) : Bool :=
  let bCanReload := !w.WeaponComponent || e.Holder_CanReload
  let bGotAmmo := decide (w.CurrentAmmoInClip < w.WeaponConfig.AmmoPerClip) &&
    (decide (w.CurrentAmmo - w.CurrentAmmoInClip > 0) || HasInfiniteClip e w)
  let bStateOKToReload :=
    w.CurrentState == .EWS_Idle || w.CurrentState == .EWS_Firing
  bCanReload && bGotAmmo && bStateOKToReload

/-- Embeds `AWSWeapon::CanFire`. -/
def CanFire (e : Env) (w : AWSWeapon) : Bool :=
  let bCanFire := w.WeaponComponent && e.Holder_CanFire
  let bStateOKToFire :=
    w.CurrentState == .EWS_Idle || w.CurrentState == .EWS_Firing
  bCanFire && bStateOKToFire && (w.bPendingReload == false)

/-- Embeds `AWSWeapon::OnBurstFinished`. -/
def OnBurstFinished (w : AWSWeapon) : AWSWeapon :=
  { w with
    BurstCounter := 0
    TimerHandle_HandleFiring := ClearTimer
    bRefiring := false
    TimerIntervalAdjustment := 0 }

/-- Embeds `AWSWeapon::OnBurstStarted`; `hf` is `HandleFiring`.  The sum and
the difference are `float` operations. -/
def OnBurstStarted (hf : Env → AWSWeapon → Outcome) (e : Env) (w : AWSWeapon) : Outcome :=
  let GameTime := e.TimeSeconds
  if w.LastFireTime > 0 ∧ w.WeaponConfig.TimeBetweenShots > 0 ∧
      float32 (w.LastFireTime + w.WeaponConfig.TimeBetweenShots) > GameTime then
    .ok { w with
      TimerHandle_HandleFiring :=
        SetTimer (FireCallback.HandleFiring,
          float32 (float32 (w.LastFireTime + w.WeaponConfig.TimeBetweenShots) - GameTime)) }
  else
    hf e w

/-- Embeds `AWSWeapon::SetWeaponState`; `hf` is `HandleFiring`. -/
def SetWeaponState (hf : Env → AWSWeapon → Outcome) (e : Env) (NewState : EWeaponState)
    (w : AWSWeapon) : Outcome :=
  let PrevState := w.CurrentState
  let w1 :=
    if PrevState = .EWS_Firing ∧ NewState ≠ .EWS_Firing then OnBurstFinished w else w
  let w2 := { w1 with CurrentState := NewState }
  if PrevState ≠ .EWS_Firing ∧ NewState = .EWS_Firing then OnBurstStarted hf e w2
  else .ok w2

/-- The value of the local `NewState` of `AWSWeapon::DetermineWeaponState` when
it is passed to `SetWeaponState`. -/
def DetermineWeaponState.NewState (e : Env) (w : AWSWeapon) : EWeaponState :=
  if w.bIsEquipped then
    if w.bPendingReload then
      if CanReload e w = false then w.CurrentState else .EWS_Reloading
    else if w.bPendingReload = false ∧ w.bWantsToFire = true ∧ CanFire e w = true then
      .EWS_Firing
    else .EWS_Idle
  else if w.bPendingEquip then .EWS_Equipping
  else .EWS_Idle

/-- Embeds `AWSWeapon::DetermineWeaponState`; `hf` is `HandleFiring`. -/
def DetermineWeaponState (hf : Env → AWSWeapon → Outcome) (e : Env) (w : AWSWeapon) : Outcome :=
  SetWeaponState hf e (DetermineWeaponState.NewState e w) w

/-- Embeds `AWSWeapon::StartReload`; `hf` is `HandleFiring`.  The call of
`ServerStartReload` on a non-authoritative process is remote.  The difference
`PawnAnimDuration - 0.1f` is a `float` operation. -/
def StartReload (hf : Env → AWSWeapon → Outcome) (e : Env) (bFromReplication : Bool)
    (w : AWSWeapon) : Outcome :=
  if bFromReplication || CanReload e w then
    (DetermineWeaponState hf e { w with bPendingReload := true }).andThen fun w1 =>
    (derefHolder w1).andThen fun w2 =>
    let PawnAnimDuration :=
      if e.ReloadAnimDuration ≤ 0 then w2.WeaponConfig.NoAnimReloadDuration
      else e.ReloadAnimDuration
    let w3 := { w2 with TimerHandle_StopReload := SetTimer PawnAnimDuration }
    let w4 :=
      if e.bAuthority then
        { w3 with
          TimerHandle_ReloadWeapon :=
            SetTimer (max FLOAT_0_1 (float32 (PawnAnimDuration - FLOAT_0_1))) }
      else w3
    .ok w4
  else .ok w

/-- Embeds `AWSWeapon::StopReload`; `hf` is `HandleFiring`. -/
def StopReload (hf : Env → AWSWeapon → Outcome) (e : Env) (w : AWSWeapon) : Outcome :=
  if w.CurrentState = .EWS_Reloading then
    (DetermineWeaponState hf e { w with bPendingReload := false }).andThen fun w1 =>
    derefHolder w1
  else .ok w

/-- Embeds `AWSWeapon::ReloadWeapon`. -/
def ReloadWeapon (e : Env) (w : AWSWeapon) : Outcome :=
  let ClipDelta0 := min (w.WeaponConfig.AmmoPerClip - w.CurrentAmmoInClip)
    (w.CurrentAmmo - w.CurrentAmmoInClip)
  let ClipDelta :=
    if HasInfiniteClip e w then w.WeaponConfig.AmmoPerClip - w.CurrentAmmoInClip
    else ClipDelta0
  let w1 :=
    if ClipDelta > 0 then { w with CurrentAmmoInClip := w.CurrentAmmoInClip + ClipDelta }
    else w
  let w2 :=
    if HasInfiniteClip e w1 then
      { w1 with CurrentAmmo := max w1.CurrentAmmoInClip w1.CurrentAmmo }
    else w1
  derefHolder w2

/-- Embeds `AWSWeapon::ClientStartReload_Implementation`. -/
def ClientStartReload_Implementation (hf : Env → AWSWeapon → Outcome) (e : Env)
    (w : AWSWeapon) : Outcome :=
  StartReload hf e false w

/-- The client remote call `ClientStartReload()`: its implementation runs here
when the call is local, and has no local effect otherwise. -/
def ClientStartReload (hf : Env → AWSWeapon → Outcome) (e : Env) (w : AWSWeapon) : Outcome :=
  if e.bClientCallIsLocal then ClientStartReload_Implementation hf e w else .ok w

/-- Embeds `AWSWeapon::GiveAmmo`; `hf` is `HandleFiring`. -/
def GiveAmmo (hf : Env → AWSWeapon → Outcome) (e : Env) (AddAmount : Int)
    (w : AWSWeapon) : Outcome :=
  let MissingAmmo := max 0 (w.WeaponConfig.MaxAmmo - w.CurrentAmmo)
  let AddAmount1 := min AddAmount MissingAmmo
  let w1 := { w with CurrentAmmo := w.CurrentAmmo + AddAmount1 }
  let r :=
    if decide (w1.CurrentAmmoInClip ≤ 0) && CanReload e w1 && w1.WeaponComponent &&
        e.Holder_WeaponIsThis then
      ClientStartReload hf e w1
    else .ok w1
  r.andThen derefHolder

/-- Embeds `AWSWeapon::UseAmmo`. -/
def UseAmmo (e : Env) (w : AWSWeapon) : Outcome :=
  let w1 :=
    if !HasInfiniteAmmo e w then { w with CurrentAmmoInClip := w.CurrentAmmoInClip - 1 }
    else w
  let w2 :=
    if !HasInfiniteAmmo e w1 && !HasInfiniteClip e w1 then
      { w1 with CurrentAmmo := w1.CurrentAmmo - 1 }
    else w1
  derefHolder w2

/-- The body of `AWSWeapon::HandleFiring`; `hf` stands for `HandleFiring` in the
nested calls.  `SimulateWeaponFire` and `FireWeapon` are presentation and
collaborator calls; `ServerHandleFiring()` issued by a client is remote. -/
def HandleFiring.body (hf : Env → AWSWeapon → Outcome) (e : Env) (w : AWSWeapon) : Outcome :=
  let r1 : Outcome :=
    if (decide (w.CurrentAmmoInClip > 0) || HasInfiniteClip e w || HasInfiniteAmmo e w) &&
        CanFire e w then
      if w.WeaponComponent && e.Holder_IsLocallyControlled then
        (UseAmmo e w).andThen fun w1 =>
        .ok { w1 with BurstCounter := w1.BurstCounter + 1 }
      else .ok w
    else if CanReload e w then
      StartReload hf e false w
    else if w.WeaponComponent && e.Holder_IsLocallyControlled then
      if w.BurstCounter > 0 then .ok (OnBurstFinished w) else .ok w
    else
      .ok (OnBurstFinished w)
  r1.andThen fun w1 =>
  let r2 : Outcome :=
    if w1.WeaponComponent && e.Holder_IsLocallyControlled then
      let r3 : Outcome :=
        if decide (w1.CurrentAmmoInClip ≤ 0) && CanReload e w1 then StartReload hf e false w1
        else .ok w1
      r3.andThen fun w2 =>
      let w3 := { w2 with
        bRefiring :=
          decide (w2.CurrentState = EWeaponState.EWS_Firing ∧
            w2.WeaponConfig.TimeBetweenShots > 0) }
      if w3.bRefiring then
        .ok { w3 with
          TimerHandle_HandleFiring :=
            SetTimer (FireCallback.HandleReFiring,
              max (w3.WeaponConfig.TimeBetweenShots + w3.TimerIntervalAdjustment) SMALL_NUMBER)
          TimerIntervalAdjustment := 0 }
      else .ok w3
    else .ok w1
  r2.andThen fun w4 =>
  .ok { w4 with LastFireTime := e.TimeSeconds }

/-- Embeds `AWSWeapon::HandleFiring`, with fuel for the nested calls of itself. -/
def HandleFiring : Nat → Env → AWSWeapon → Outcome
  | 0, _, w => .outOfFuel w
  | n + 1, e, w => HandleFiring.body (HandleFiring n) e w

/-- Embeds `AWSWeapon::HandleReFiring`. -/
def HandleReFiring (n : Nat) (e : Env) (w : AWSWeapon) : Outcome :=
  let SlackTimeThisFrame :=
    max 0 ((e.TimeSeconds - w.LastFireTime) - w.WeaponConfig.TimeBetweenShots)
  let w1 :=
    if w.bAllowAutomaticWeaponCatchup then
      { w with TimerIntervalAdjustment := w.TimerIntervalAdjustment - SlackTimeThisFrame }
    else w
  HandleFiring n e w1

/-- Embeds `AWSWeapon::ServerHandleFiring_Implementation`. -/
def ServerHandleFiring_Implementation (n : Nat) (e : Env) (w : AWSWeapon) : Outcome :=
  let bShouldUpdateAmmo := decide (w.CurrentAmmoInClip > 0) && CanFire e w
  (HandleFiring n e w).andThen fun w1 =>
  if bShouldUpdateAmmo then
    (UseAmmo e w1).andThen fun w2 =>
    .ok { w2 with BurstCounter := w2.BurstCounter + 1 }
  else .ok w1

/-- Embeds `AWSWeapon::StartFire`.  The call of `ServerStartFire` is remote. -/
def StartFire (n : Nat) (e : Env) (w : AWSWeapon) : Outcome :=
  if !w.bWantsToFire then
    DetermineWeaponState (HandleFiring n) e { w with bWantsToFire := true }
  else .ok w

/-- Embeds `AWSWeapon::StopFire`.  The call of `ServerStopFire` is remote. -/
def StopFire (n : Nat) (e : Env) (w : AWSWeapon) : Outcome :=
  if w.bWantsToFire then
    DetermineWeaponState (HandleFiring n) e { w with bWantsToFire := false }
  else .ok w

/-- Embeds `AWSWeapon::OnEquipFinished`. -/
def OnEquipFinished (n : Nat) (e : Env) (w : AWSWeapon) : Outcome :=
  (DetermineWeaponState (HandleFiring n) e
    { w with bIsEquipped := true, bPendingEquip := false }).andThen fun w1 =>
  if w1.WeaponComponent then
    if e.Holder_IsLocallyControlled && decide (w1.CurrentAmmoInClip ≤ 0) && CanReload e w1 then
      StartReload (HandleFiring n) e false w1
    else .ok w1
  else .ok w1

/-- Embeds `AWSWeapon::OnEquip`; `LastWeapon` tells whether the pointer is non-null. -/
def OnEquip (n : Nat) (e : Env) (LastWeapon : Bool) (w : AWSWeapon) : Outcome :=
  if !w.WeaponComponent then .ok w
  else
    (DetermineWeaponState (HandleFiring n) e { w with bPendingEquip := true }).andThen fun w1 =>
    let r : Outcome :=
      if LastWeapon then
        let Duration := if e.EquipAnimDuration ≤ 0 then 1 / 2 else e.EquipAnimDuration
        .ok { w1 with
          EquipStartedTime := e.TimeSeconds
          EquipDuration := Duration
          TimerHandle_OnEquipFinished := SetTimer Duration }
      else OnEquipFinished n e w1
    r.andThen derefHolder

/-- Embeds `AWSWeapon::OnUnEquip`. -/
def OnUnEquip (n : Nat) (e : Env) (w : AWSWeapon) : Outcome :=
  (StopFire n e { w with bIsEquipped := false }).andThen fun w1 =>
  let r1 : Outcome :=
    if w1.bPendingReload then
      (derefHolder w1).andThen fun w2 =>
      .ok { w2 with
        bPendingReload := false
        TimerHandle_StopReload := ClearTimer
        TimerHandle_ReloadWeapon := ClearTimer }
    else .ok w1
  r1.andThen fun w3 =>
  let r2 : Outcome :=
    if w3.bPendingEquip then
      (derefHolder w3).andThen fun w4 =>
      .ok { w4 with bPendingEquip := false, TimerHandle_OnEquipFinished := ClearTimer }
    else .ok w3
  r2.andThen fun w5 =>
  (derefHolder w5).andThen fun w6 =>
  DetermineWeaponState (HandleFiring n) e w6

/-- Embeds `AWSWeapon::IsAttachedToPawn`. -/
def IsAttachedToPawn (w : AWSWeapon) : Bool :=
  w.bIsEquipped || w.bPendingEquip

/-- Embeds `AWSWeapon::OnEnterInventory` with a non-null holder. -/
def OnEnterInventory (w : AWSWeapon) : AWSWeapon :=
  SetOwningComponent true w

/-- Embeds `AWSWeapon::OnLeaveInventory`. -/
def OnLeaveInventory (n : Nat) (e : Env) (w : AWSWeapon) : Outcome :=
  let r : Outcome := if IsAttachedToPawn w then OnUnEquip n e w else .ok w
  r.andThen fun w1 =>
  if e.bAuthority then .ok (SetOwningComponent false w1) else .ok w1

/-- Expiry of the one-shot timer `TimerHandle_HandleFiring`: the handle stops
being pending and the bound callback runs.  Nothing happens when no callback
is pending. -/
def FireTimerExpired (n : Nat) (e : Env) (w : AWSWeapon) : Outcome :=
  match w.TimerHandle_HandleFiring with
  | none => .ok w
  | some (FireCallback.HandleFiring, _) =>
      HandleFiring n e { w with TimerHandle_HandleFiring := none }
  | some (FireCallback.HandleReFiring, _) =>
      HandleReFiring n e { w with TimerHandle_HandleFiring := none }

/-- Expiry of `TimerHandle_StopReload`, bound to `StopReload`. -/
def StopReloadTimerExpired (n : Nat) (e : Env) (w : AWSWeapon) : Outcome :=
  match w.TimerHandle_StopReload with
  | none => .ok w
  | some _ => StopReload (HandleFiring n) e { w with TimerHandle_StopReload := none }

/-- Expiry of `TimerHandle_ReloadWeapon`, bound to `ReloadWeapon`. -/
def ReloadWeaponTimerExpired (e : Env) (w : AWSWeapon) : Outcome :=
  match w.TimerHandle_ReloadWeapon with
  | none => .ok w
  | some _ => ReloadWeapon e { w with TimerHandle_ReloadWeapon := none }

/-- Expiry of `TimerHandle_OnEquipFinished`, bound to `OnEquipFinished`. -/
def EquipTimerExpired (n : Nat) (e : Env) (w : AWSWeapon) : Outcome :=
  match w.TimerHandle_OnEquipFinished with
  | none => .ok w
  | some _ => OnEquipFinished n e { w with TimerHandle_OnEquipFinished := none }

/-- The operations through which a weapon changes after it was spawned: the
public calls, the expiry of each timer, and the inbound
`ServerHandleFiring` message. -/
inductive Op where
  | StartFire
  | StopFire
  | StartReload (bFromReplication : Bool)
  | StopReload
  | ReloadWeapon
  | GiveAmmo (AddAmount : Int)
  | OnEquip (LastWeapon : Bool)
  | OnEquipFinished
  | OnUnEquip
  | OnEnterInventory
  | OnLeaveInventory
  | FireTimer
  | StopReloadTimer
  | ReloadWeaponTimer
  | EquipTimer
  | ServerHandleFiring
deriving DecidableEq, Repr

/-- Running one operation with fuel `n` under the answers `e`. -/
def Op.run (n : Nat) (e : Env) : Op → AWSWeapon → Outcome
  | .StartFire, w => WeaponSystem.StartFire n e w
  | .StopFire, w => WeaponSystem.StopFire n e w
  | .StartReload b, w => WeaponSystem.StartReload (HandleFiring n) e b w
  | .StopReload, w => WeaponSystem.StopReload (HandleFiring n) e w
  | .ReloadWeapon, w => WeaponSystem.ReloadWeapon e w
  | .GiveAmmo a, w => WeaponSystem.GiveAmmo (HandleFiring n) e a w
  | .OnEquip l, w => WeaponSystem.OnEquip n e l w
  | .OnEquipFinished, w => WeaponSystem.OnEquipFinished n e w
  | .OnUnEquip, w => WeaponSystem.OnUnEquip n e w
  | .OnEnterInventory, w => .ok (WeaponSystem.OnEnterInventory w)
  | .OnLeaveInventory, w => WeaponSystem.OnLeaveInventory n e w
  | .FireTimer, w => FireTimerExpired n e w
  | .StopReloadTimer, w => StopReloadTimerExpired n e w
  | .ReloadWeaponTimer, w => ReloadWeaponTimerExpired e w
  | .EquipTimer, w => EquipTimerExpired n e w
  | .ServerHandleFiring, w => ServerHandleFiring_Implementation n e w

/-- The states a weapon of configuration `cfg` can be in: the constructor's
state, the state after `PostInitializeComponents`, and every state in which an
admitted operation returns.  `adm op e w` tells which operations, under which
answers, are admitted in state `w`. -/
inductive Reach (adm : Op → Env → AWSWeapon → Prop) (cfg : FWeaponConfig) (bCatchup : Bool) :
    AWSWeapon → Prop where
  | ctor : Reach adm cfg bCatchup (AWSWeapon.ctor cfg bCatchup)
  | spawn : Reach adm cfg bCatchup (PostInitializeComponents (AWSWeapon.ctor cfg bCatchup))
  | step (w w1 : AWSWeapon) (op : Op) (e : Env) (n : Nat) :
      Reach adm cfg bCatchup w → adm op e w → Op.run (n + 1) e op w = .ok w1 →
      Reach adm cfg bCatchup w1

/-- The constraints the data model puts on a configuration: the three counts
are not negative, and `MaxAmmo` is an `int32` value. -/
def FWeaponConfig.WellFormed (cfg : FWeaponConfig) : Prop :=
  0 ≤ cfg.AmmoPerClip ∧ 0 ≤ cfg.MaxAmmo ∧ 0 ≤ cfg.InitialClips ∧
  cfg.MaxAmmo ≤ 2147483647

/-- The holder reports neither infinite ammo nor an infinite clip. -/
def Env.NoInfinite (e : Env) : Prop :=
  e.Holder_HasInfiniteAmmo = false ∧ e.Holder_HasInfiniteClip = false

/-- The inbound `ServerHandleFiring` message is executed by the authoritative
replica of a weapon whose holder is controlled from another process: the only
sender is `HandleFiring` on a locally controlled replica of lower role. -/
def Env.ServerDelivery (e : Env) : Prop :=
  e.bAuthority = true ∧ e.Holder_IsLocallyControlled = false

/-- Admission without infinite flags: the holder never reports one, and
`ServerHandleFiring` arrives where it is delivered. -/
def admNoInfinite : Op → Env → AWSWeapon → Prop
  | .ServerHandleFiring, e, _ => e.NoInfinite ∧ e.ServerDelivery
  | _, e, _ => e.NoInfinite

/-- Admission without infinite flags and with `GiveAmmo` called with amounts
that are not negative. -/
def admNoInfiniteGiveNonneg : Op → Env → AWSWeapon → Prop
  | .GiveAmmo a, e, _ => e.NoInfinite ∧ 0 ≤ a
  | .ServerHandleFiring, e, _ => e.NoInfinite ∧ e.ServerDelivery
  | _, e, _ => e.NoInfinite

/-- Every operation is admitted, under every answer. -/
def admAll : Op → Env → AWSWeapon → Prop :=
  fun _ _ _ => True

/-- Every operation is admitted, except that `ServerHandleFiring` is executed
only for a holder that is not locally controlled, and a message that consumes
ammo, one that finds `CurrentAmmoInClip > 0` and `CanFire()` true, only while
the replica is in `EWS_Firing`. -/
def admServerShotInFiring : Op → Env → AWSWeapon → Prop
  | .ServerHandleFiring, e, w =>
      e.Holder_IsLocallyControlled = false ∧
      ((0 < w.CurrentAmmoInClip ∧ CanFire e w = true) → w.CurrentState = .EWS_Firing)
  | _, _, _ => True

/-- The bounds of the ammo ledger for the configuration `cfg`. -/
def AmmoInBounds (cfg : FWeaponConfig) (w : AWSWeapon) : Prop :=
  0 ≤ w.CurrentAmmoInClip ∧ w.CurrentAmmoInClip ≤ cfg.AmmoPerClip ∧
  0 ≤ w.CurrentAmmo ∧ w.CurrentAmmo ≤ cfg.MaxAmmo

/-- What `SetWeaponState` leaves when no burst starts: the burst is finished if
the weapon leaves `EWS_Firing`, and the state is assigned. -/
def SetWeaponState.settled (NewState : EWeaponState) (w : AWSWeapon) : AWSWeapon :=
  { (if w.CurrentState = .EWS_Firing ∧ NewState ≠ .EWS_Firing then OnBurstFinished w else w) with
    CurrentState := NewState }

/-- What `StartReload` leaves once the holder's reload animation was started:
the `StopReload` timer is scheduled after the animation's duration (the
configured fallback when that is not positive) and, with authority, the
`ReloadWeapon` timer after `max 0.1f (duration - 0.1f)`, the difference being
rounded to a `float`. -/
def StartReload.scheduled (e : Env) (w : AWSWeapon) : AWSWeapon :=
  let PawnAnimDuration :=
    if e.ReloadAnimDuration ≤ 0 then w.WeaponConfig.NoAnimReloadDuration
    else e.ReloadAnimDuration
  let w3 := { w with TimerHandle_StopReload := SetTimer PawnAnimDuration }
  if e.bAuthority then
    { w3 with
      TimerHandle_ReloadWeapon :=
        SetTimer (max FLOAT_0_1 (float32 (PawnAnimDuration - FLOAT_0_1))) }
  else w3

/-- An operation does not run out of fuel, and if it returns, the returned
fields satisfy `P`. -/
def Outcome.Ensures (P : AWSWeapon → Prop) : Outcome → Prop
  | .ok w => P w
  | .nullHolder _ => True
  | .outOfFuel _ => False

/-- Two states with the same configuration and the same ammo counts. -/
def SameLedger (w w1 : AWSWeapon) : Prop :=
  w1.WeaponConfig = w.WeaponConfig ∧ w1.CurrentAmmo = w.CurrentAmmo ∧
  w1.CurrentAmmoInClip = w.CurrentAmmoInClip

/-- A property that depends on a state only through its configuration and
ammo counts. -/
def LedgerProperty (P : AWSWeapon → Prop) : Prop :=
  ∀ w w1, SameLedger w w1 → P w → P w1

/-- The condition under which `HandleFiring` fires a shot. -/
def HandleFiring.shoots (e : Env) (w : AWSWeapon) : Bool :=
  (decide (w.CurrentAmmoInClip > 0) || HasInfiniteClip e w || HasInfiniteAmmo e w) &&
    CanFire e w

/-- The burst invariant: outside `EWS_Firing` the burst counter is not positive
and no refire callback is pending. -/
def BurstInvariant (w : AWSWeapon) : Prop :=
  w.CurrentState ≠ .EWS_Firing →
    w.BurstCounter ≤ 0 ∧ w.TimerHandle_HandleFiring = none

/-- The configuration of the specification's scenarios: `AmmoPerClip = 30`,
`MaxAmmo = 90`, `InitialClips = 3`, `TimeBetweenShots = 0.1`, no infinite
flags. -/
def Scenario.config : FWeaponConfig :=
  { AmmoPerClip := 30, MaxAmmo := 90, InitialClips := 3, TimeBetweenShots := 1 / 10,
    NoAnimReloadDuration := 2, bInfiniteAmmo := false, bInfiniteClip := false }

/-- A configuration whose seed exceeds `MaxAmmo`: three clips of 30 rounds and
`MaxAmmo = 50`. -/
def Scenario.smallMaxConfig : FWeaponConfig :=
  { Scenario.config with MaxAmmo := 50 }

/-- The scenario weapon after the spawn sequence. -/
def Scenario.spawned : AWSWeapon :=
  PostInitializeComponents (AWSWeapon.ctor Scenario.config true)

/-- Answers on the authoritative replica of a weapon held by a remote player,
at time 0: the holder permits firing and reloading and reports no infinite
flag. -/
def Scenario.serverEnv : Env :=
  { Holder_CanFire := true, Holder_CanReload := true, Holder_HasInfiniteAmmo := false,
    Holder_HasInfiniteClip := false, Holder_IsLocallyControlled := false,
    Holder_WeaponIsThis := true, bAuthority := true, bDedicatedServer := true,
    bClientCallIsLocal := false, TimeSeconds := 0, ReloadAnimDuration := 0,
    EquipAnimDuration := 0 }

/-- Answers on a listen server for the weapon of its own player, at time 0:
authoritative and locally controlled; the holder permits firing and reloading
and reports no infinite flag. -/
def Scenario.hostEnv : Env :=
  { Scenario.serverEnv with
    Holder_IsLocallyControlled := true, bDedicatedServer := false, bClientCallIsLocal := true }

/-- The scenario weapon once its holder took it (`OnEnterInventory`) and it
was equipped with no previous weapon (`OnEquip`). -/
def Scenario.equipped : AWSWeapon :=
  { OnEnterInventory Scenario.spawned with bIsEquipped := true }

/-- The scenario weapon after `StartFire` on the listen server: one round is
gone, the burst counter is 1 and the refire callback is scheduled. -/
def Scenario.firing : AWSWeapon :=
  { Scenario.equipped with
    bWantsToFire := true
    CurrentState := .EWS_Firing
    CurrentAmmo := 89
    CurrentAmmoInClip := 29
    BurstCounter := 1
    bRefiring := true
    TimerHandle_HandleFiring :=
      some (FireCallback.HandleReFiring, max (1 / 10 + 0) SMALL_NUMBER) }

/-- The scenario weapon, equipped and idle, after one `ServerHandleFiring`
message was executed on the authoritative replica. -/
def Scenario.idleAfterServerShot : AWSWeapon :=
  { Scenario.equipped with CurrentAmmo := 89, CurrentAmmoInClip := 29, BurstCounter := 1 }

/-- The fields that no function on the call cycle writes: the configuration,
the catch-up switch, the holder pointer and the flags `bIsEquipped`,
`bWantsToFire` and `bPendingEquip` are the same in both states. -/
def Stable (w w1 : AWSWeapon) : Prop :=
  w1.WeaponConfig = w.WeaponConfig ∧
  w1.bAllowAutomaticWeaponCatchup = w.bAllowAutomaticWeaponCatchup ∧
  w1.WeaponComponent = w.WeaponComponent ∧
  w1.bIsEquipped = w.bIsEquipped ∧
  w1.bWantsToFire = w.bWantsToFire ∧
  w1.bPendingEquip = w.bPendingEquip

/-- An operation does not run out of fuel, it stops at a null holder only when
`holder` is false, and if it returns, the returned fields satisfy `P`. -/
def Outcome.Yields (holder : Bool) (P : AWSWeapon → Prop) : Outcome → Prop
  | .ok w => P w
  | .nullHolder _ => holder = false
  | .outOfFuel _ => False

/-- The duration `StartReload` uses: the holder animation's duration, or the
configured fallback when that is not positive. -/
def StartReload.duration (e : Env) (w : AWSWeapon) : ℚ :=
  if e.ReloadAnimDuration ≤ 0 then w.WeaponConfig.NoAnimReloadDuration
  else e.ReloadAnimDuration

/-- The slack `HandleReFiring` computes: the time by which the callback is late. -/
def HandleReFiring.slack (e : Env) (w : AWSWeapon) : ℚ :=
  max 0 ((e.TimeSeconds - w.LastFireTime) - w.WeaponConfig.TimeBetweenShots)

/-- Answers on the listen server for the weapon of its own player at the time
`t`. -/
def Scenario.hostEnvAt (t : ℚ) : Env :=
  { Scenario.hostEnv with TimeSeconds := t }

/-- Answers on a client that owns and predicts for the weapon, at time 0:
locally controlled, without authority. -/
def Scenario.clientEnv : Env :=
  { Scenario.hostEnv with bAuthority := false }

/-- The scenario weapon, equipped and idle, with an empty clip and 10 rounds. -/
def Scenario.emptyClip : AWSWeapon :=
  { Scenario.equipped with CurrentAmmoInClip := 0, CurrentAmmo := 10 }

/-- The scenario configuration with an infinite clip. -/
def Scenario.infiniteClipConfig : FWeaponConfig :=
  { Scenario.config with bInfiniteClip := true }

/-- A weapon with an infinite clip that fires with an empty clip: equipped, in
`EWS_Firing`, no round in the clip, 10 rounds in total. -/
def Scenario.infiniteClipEmpty : AWSWeapon :=
  { Scenario.equipped with
    WeaponConfig := Scenario.infiniteClipConfig
    bWantsToFire := true
    CurrentState := .EWS_Firing
    CurrentAmmoInClip := 0
    CurrentAmmo := 10 }

/-- The scenario weapon with an empty clip and 10 rounds while it is being
equipped: the holder took it, `bPendingEquip` is set. -/
def Scenario.emptyClipEquipping : AWSWeapon :=
  { Scenario.emptyClip with
    bIsEquipped := false, bPendingEquip := true, CurrentState := .EWS_Equipping }

/-- A configuration whose `TimeBetweenShots` is positive and below
`SMALL_NUMBER`. -/
def Scenario.tinyIntervalConfig : FWeaponConfig :=
  { Scenario.config with TimeBetweenShots := 1 / 1000000000 }

/-- Answers on the authoritative replica of a weapon held by a remote player
who may not fire at the moment. -/
def Scenario.serverNoFireEnv : Env :=
  { Scenario.serverEnv with Holder_CanFire := false }

/-- The scenario weapon on the authoritative replica of a remote player's
weapon, after `StartFire` and one `ServerHandleFiring` message executed in
`EWS_Firing`: one round is gone and the burst counter is 1. -/
def Scenario.serverFiring : AWSWeapon :=
  { Scenario.equipped with
    bWantsToFire := true
    CurrentState := .EWS_Firing
    CurrentAmmo := 89
    CurrentAmmoInClip := 29
    BurstCounter := 1 }

/-- The scenario configuration with clips of two rounds. -/
def Scenario.twoRoundConfig : FWeaponConfig :=
  { Scenario.config with AmmoPerClip := 2 }

/-- The weapon with clips of two rounds once its holder took it and it was
equipped: 2 rounds in the clip, 6 in total. -/
def Scenario.twoRoundEquipped : AWSWeapon :=
  { OnEnterInventory
      (PostInitializeComponents (AWSWeapon.ctor Scenario.twoRoundConfig true)) with
    bIsEquipped := true }

/-- That weapon after `StartFire` on the listen server: one round is left in
the clip. -/
def Scenario.twoRoundFiring : AWSWeapon :=
  { Scenario.twoRoundEquipped with
    bWantsToFire := true
    CurrentState := .EWS_Firing
    CurrentAmmo := 5
    CurrentAmmoInClip := 1
    BurstCounter := 1
    bRefiring := true
    TimerHandle_HandleFiring :=
      some (FireCallback.HandleReFiring, max (1 / 10 + 0) SMALL_NUMBER) }

/-- That weapon after a `ServerHandleFiring` message was executed for its
locally controlled holder: `HandleFiring` fired the last round and started the
reload, then the message consumed another round and counted a shot. -/
def Scenario.twoRoundReloading : AWSWeapon :=
  { Scenario.twoRoundEquipped with
    bWantsToFire := true
    bPendingReload := true
    CurrentState := .EWS_Reloading
    CurrentAmmo := 3
    CurrentAmmoInClip := -1
    BurstCounter := 1
    TimerHandle_StopReload := some 2
    TimerHandle_ReloadWeapon := some (max FLOAT_0_1 (float32 (2 - FLOAT_0_1))) }

/-- A configuration whose seed does not fit in an `int32`: 65536 clips of 65536
rounds. -/
def Scenario.overflowConfig : FWeaponConfig :=
  { Scenario.config with AmmoPerClip := 65536, MaxAmmo := 2147483647, InitialClips := 65536 }

/-- A configuration with a negative `InitialClips`. -/
def Scenario.negativeClipsConfig : FWeaponConfig :=
  { Scenario.config with InitialClips := -2 }

/-- The scenario configuration with `TimeBetweenShots = 0.125`, a `float`. -/
def Scenario.eighthConfig : FWeaponConfig :=
  { Scenario.config with TimeBetweenShots := 1 / 8 }

/-- The scenario configuration with `TimeBetweenShots = 1/64`, a `float`. -/
def Scenario.sixtyFourthConfig : FWeaponConfig :=
  { Scenario.config with TimeBetweenShots := 1 / 64 }

/-- The equipped scenario weapon with `TimeBetweenShots = 0.125` and a shot
recorded at `t = 1`. -/
def Scenario.shotAtOne : AWSWeapon :=
  { Scenario.equipped with WeaponConfig := Scenario.eighthConfig, LastFireTime := 1 }

/-- The equipped scenario weapon with `TimeBetweenShots = 1/64` and a shot
recorded at `t = 262144`. -/
def Scenario.shotLate : AWSWeapon :=
  { Scenario.equipped with WeaponConfig := Scenario.sixtyFourthConfig, LastFireTime := 262144 }

/-- What the locally controlled part of `HandleFiring` leaves when it sets up
the refire timer: `bRefiring` tells whether the weapon is in `EWS_Firing` with a
positive `TimeBetweenShots`; if so the `HandleReFiring` callback is scheduled
after `max (TimeBetweenShots + TimerIntervalAdjustment) SMALL_NUMBER` and the
adjustment is reset. -/
def HandleFiring.refire (w : AWSWeapon) : AWSWeapon :=
  if w.CurrentState = EWeaponState.EWS_Firing ∧ w.WeaponConfig.TimeBetweenShots > 0 then
    { w with
      bRefiring := true
      TimerHandle_HandleFiring :=
        SetTimer (FireCallback.HandleReFiring,
          max (w.WeaponConfig.TimeBetweenShots + w.TimerIntervalAdjustment) SMALL_NUMBER)
      TimerIntervalAdjustment := 0 }
  else { w with bRefiring := false }

/-! ## Machine arithmetic -/

/-- A result in the `int32` range is stored as it is. -/
theorem wrapInt32_of_range (x : Int) (h1 : -2147483648 ≤ x) (h2 : x ≤ 2147483647) :
    wrapInt32 x = x := by
  unfold wrapInt32
  omega

theorem roundHalfEven_intCast (n : ℤ) : roundHalfEven (n : ℚ) = n := by
  unfold roundHalfEven
  simp

/-- Away from a tie, `roundHalfEven` gives the nearest integer. -/
theorem roundHalfEven_eq (q : ℚ) (n : ℤ) (h1 : (n : ℚ) - 1 / 2 < q) (h2 : q < n + 1 / 2) :
    roundHalfEven q = n := by
  unfold roundHalfEven
  by_cases hq : (n : ℚ) ≤ q
  · have hf : ⌊q⌋ = n := Int.floor_eq_iff.2 ⟨hq, by linarith⟩
    rw [hf, if_pos (by linarith)]
  · have hf : ⌊q⌋ = n - 1 :=
      Int.floor_eq_iff.2 ⟨by push_cast; linarith, by push_cast; linarith⟩
    rw [hf]
    push_cast
    rw [if_neg (by linarith), if_pos (by linarith)]
    ring

/-- At a tie, `roundHalfEven` gives the even neighbour. -/
theorem roundHalfEven_tie (q : ℚ) (n : ℤ) (h : q = n + 1 / 2) :
    roundHalfEven q = if n % 2 = 0 then n else n + 1 := by
  have hf : ⌊q⌋ = n := Int.floor_eq_iff.2 ⟨by linarith, by linarith⟩
  unfold roundHalfEven
  rw [hf, if_neg (by linarith), if_neg (by linarith)]

/-- The unit in the last place of `q` with `2^(k+23) ≤ |q| < 2^(k+24)` is `2^k`. -/
theorem float32Ulp_eq (q : ℚ) (k : ℤ) (hk : -149 ≤ k) (h1 : (2 : ℚ) ^ (k + 23) ≤ |q|)
    (h2 : |q| < (2 : ℚ) ^ (k + 24)) : float32Ulp q = k := by
  have hpos : 0 < |q| := lt_of_lt_of_le (by positivity) h1
  have ha : k + 23 ≤ Int.log 2 |q| :=
    (Int.zpow_le_iff_le_log (by norm_num) hpos).1 (by exact_mod_cast h1)
  have hb : Int.log 2 |q| < k + 24 :=
    (Int.lt_zpow_iff_log_lt (by norm_num) hpos).1 (by exact_mod_cast h2)
  unfold float32Ulp
  omega

/-- Evaluation of `float32` from the binade of `q` and the rounded significand. -/
theorem float32_eq (q : ℚ) (k n : ℤ) (hk : -149 ≤ k) (h1 : (2 : ℚ) ^ (k + 23) ≤ |q|)
    (h2 : |q| < (2 : ℚ) ^ (k + 24)) (hn : roundHalfEven (q / 2 ^ k) = n) :
    float32 q = n * 2 ^ k := by
  unfold float32
  rw [float32Ulp_eq q k hk h1 h2, hn]

/-- The literal `0.1f` is the `float` nearest to `1/10`. -/
theorem float32_tenth : float32 (1 / 10) = FLOAT_0_1 := by
  rw [float32_eq (1 / 10) (-27) 13421773 (by norm_num) (by norm_num [abs_of_pos])
    (by norm_num [abs_of_pos]) (roundHalfEven_eq _ _ (by norm_num) (by norm_num))]
  norm_num [FLOAT_0_1]

/-- A number with a 24-bit significand is a `float`: it is rounded to itself. -/
theorem float32_exact (q : ℚ) (k n : ℤ) (hk : -149 ≤ k) (h1 : (2 : ℚ) ^ (k + 23) ≤ |q|)
    (h2 : |q| < (2 : ℚ) ^ (k + 24)) (hq : q = n * 2 ^ k) : float32 q = q := by
  have hz : ((2 : ℚ) ^ k) ≠ 0 := zpow_ne_zero k (by norm_num)
  have hn : roundHalfEven (q / 2 ^ k) = n := by
    rw [hq, mul_div_assoc, div_self hz, mul_one]
    exact roundHalfEven_intCast n
  rw [float32_eq q k n hk h1 h2 hn, ← hq]

/-- Rounding to the nearest integer moves up by at most one half. -/
theorem roundHalfEven_le (q : ℚ) : (roundHalfEven q : ℚ) ≤ q + 1 / 2 := by
  have h1 := Int.floor_le q
  unfold roundHalfEven
  split_ifs with ha hb hc
  · linarith
  · push_cast; linarith
  · linarith
  · push_cast; linarith

/-- The `float` nearest to `q` exceeds `q` by at most half a unit in the last
place. -/
theorem float32_le_add (q : ℚ) : float32 q ≤ q + 2 ^ float32Ulp q / 2 := by
  have hu : (0 : ℚ) < 2 ^ float32Ulp q := zpow_pos (by norm_num) _
  have h := mul_le_mul_of_nonneg_right (roundHalfEven_le (q / 2 ^ float32Ulp q)) hu.le
  unfold float32
  calc (roundHalfEven (q / 2 ^ float32Ulp q) : ℚ) * 2 ^ float32Ulp q
      ≤ (q / 2 ^ float32Ulp q + 1 / 2) * 2 ^ float32Ulp q := h
    _ = q + 2 ^ float32Ulp q / 2 := by
      field_simp
      ring

/-- The unit in the last place of a `q` below `2^(k+24)` is at most `2^k`. -/
theorem float32Ulp_le (q : ℚ) (k : ℤ) (hk : -149 ≤ k) (hpos : 0 < |q|)
    (h2 : |q| < (2 : ℚ) ^ (k + 24)) : float32Ulp q ≤ k := by
  have hb : Int.log 2 |q| < k + 24 :=
    (Int.lt_zpow_iff_log_lt (by norm_num) hpos).1 (by exact_mod_cast h2)
  unfold float32Ulp
  omega

/-- A result that is not positive is rounded to a `float` that is not positive. -/
theorem float32_nonpos (q : ℚ) (h : q ≤ 0) : float32 q ≤ 0 := by
  have hu : (0 : ℚ) < 2 ^ float32Ulp q := zpow_pos (by norm_num) _
  have h1 : q / 2 ^ float32Ulp q ≤ 0 := div_nonpos_of_nonpos_of_nonneg h hu.le
  have h2 := roundHalfEven_le (q / 2 ^ float32Ulp q)
  have h3 : (roundHalfEven (q / 2 ^ float32Ulp q) : ℚ) < 1 := by linarith
  have h4 : roundHalfEven (q / 2 ^ float32Ulp q) < 1 := by exact_mod_cast h3
  have h5 : (roundHalfEven (q / 2 ^ float32Ulp q) : ℚ) ≤ 0 := by
    exact_mod_cast (by omega : roundHalfEven (q / 2 ^ float32Ulp q) ≤ 0)
  unfold float32
  exact mul_nonpos_of_nonpos_of_nonneg h5 hu.le

/-- Below `2^21`, subtracting `0.1f` from a larger number gives a `float` below
that number. -/
theorem float32_sub_tenth_lt (d : ℚ) (h1 : FLOAT_0_1 < d) (h2 : d < 2097152) :
    float32 (d - FLOAT_0_1) < d := by
  have hx : 0 < d - FLOAT_0_1 := by linarith
  have hc : (0 : ℚ) < FLOAT_0_1 := by norm_num [FLOAT_0_1]
  have habs : |d - FLOAT_0_1| = d - FLOAT_0_1 := abs_of_pos hx
  have hk : float32Ulp (d - FLOAT_0_1) ≤ -3 := by
    apply float32Ulp_le _ _ (by norm_num) (by rw [habs]; exact hx)
    rw [habs]
    norm_num
    linarith
  have hu : (2 : ℚ) ^ float32Ulp (d - FLOAT_0_1) ≤ 2 ^ (-3 : ℤ) :=
    zpow_le_zpow_right₀ (by norm_num) hk
  have h := float32_le_add (d - FLOAT_0_1)
  have h8 : (2 : ℚ) ^ (-3 : ℤ) = 1 / 8 := by norm_num
  rw [h8] at hu
  have hc2 : (1 : ℚ) / 16 < FLOAT_0_1 := by norm_num [FLOAT_0_1]
  linarith

/-- The `float` sum `1 + 0.125` is exact. -/
theorem float32_nine_eighths : float32 (1 + 1 / 8) = 9 / 8 := by
  rw [float32_exact (1 + 1 / 8) (-23) 9437184 (by norm_num) (by norm_num [abs_of_pos])
    (by norm_num [abs_of_pos]) (by norm_num)]
  norm_num

/-- The `float` difference `1.125 - 1.0625` is exact. -/
theorem float32_sixteenth : float32 (9 / 8 - 17 / 16) = 1 / 16 := by
  rw [float32_exact (9 / 8 - 17 / 16) (-27) 8388608 (by norm_num) (by norm_num [abs_of_pos])
    (by norm_num [abs_of_pos]) (by norm_num)]
  norm_num

/-- The `float` sum `262144 + 1/64` is a tie between 262144 and the next `float`,
`262144 + 1/32`; it is rounded to 262144. -/
theorem float32_late_sum : float32 (262144 + 1 / 64) = 262144 := by
  rw [float32_eq (262144 + 1 / 64) (-5) 8388608 (by norm_num) (by norm_num [abs_of_pos])
    (by norm_num [abs_of_pos])
    ((roundHalfEven_tie _ 8388608 (by norm_num)).trans (by decide))]
  norm_num

/-- The `float` difference `2097152.25 - 0.1f` is rounded back to 2097152.25. -/
theorem float32_long_reload : float32 (8388609 / 4 - FLOAT_0_1) = 8388609 / 4 := by
  rw [float32_eq (8388609 / 4 - FLOAT_0_1) (-2) 8388609 (by norm_num)
    (by norm_num [abs_of_pos, FLOAT_0_1]) (by norm_num [abs_of_pos, FLOAT_0_1])
    (roundHalfEven_eq _ _ (by norm_num [FLOAT_0_1]) (by norm_num [FLOAT_0_1]))]
  norm_num

/-! ## Single operations -/

/-- C1: the state that `DetermineWeaponState` selects and passes to
`SetWeaponState` is `EWS_Equipping` when the weapon is not equipped and an equip
is pending; when it is equipped and a reload is pending, `EWS_Reloading` if
`CanReload()` holds and the unchanged current state if it does not;
`EWS_Firing` when it is equipped, no reload is pending, `bWantsToFire` is set and
`CanFire()` holds; and `EWS_Idle` in every other case. -/
theorem C1_DetermineWeaponState_selects (hf : Env → AWSWeapon → Outcome) (e : Env)
    (w : AWSWeapon) :
    DetermineWeaponState hf e w = SetWeaponState hf e (DetermineWeaponState.NewState e w) w ∧
    DetermineWeaponState.NewState e w =
      if w.bIsEquipped = false ∧ w.bPendingEquip = true then EWeaponState.EWS_Equipping
      else if w.bIsEquipped = true ∧ w.bPendingReload = true then
        (if CanReload e w = true then EWeaponState.EWS_Reloading else w.CurrentState)
      else if w.bIsEquipped = true ∧ w.bPendingReload = false ∧ w.bWantsToFire = true ∧
          CanFire e w = true then EWeaponState.EWS_Firing
      else EWeaponState.EWS_Idle := by
  refine ⟨rfl, ?_⟩
  unfold DetermineWeaponState.NewState
  cases w.bIsEquipped <;> cases w.bPendingEquip <;> cases w.bPendingReload <;>
    cases w.bWantsToFire <;> cases CanReload e w <;> cases CanFire e w <;> simp

/-- The function `ReloadWeapon` in closed form. -/
theorem ReloadWeapon_eq (e : Env) (w : AWSWeapon) :
    ReloadWeapon e w = derefHolder
      { w with
        CurrentAmmoInClip :=
          if HasInfiniteClip e w = true then max w.CurrentAmmoInClip w.WeaponConfig.AmmoPerClip
          else max w.CurrentAmmoInClip (min w.WeaponConfig.AmmoPerClip w.CurrentAmmo)
        CurrentAmmo :=
          if HasInfiniteClip e w = true then
            max (max w.CurrentAmmoInClip w.WeaponConfig.AmmoPerClip) w.CurrentAmmo
          else w.CurrentAmmo } := by
  rcases w with ⟨⟨apc, ma, ic, tbs, nard, ia, icl⟩, ca, wc, eq, wf, pr, pe, rf, st, am, cl, bc,
    lf, ti, es, ed, t1, t2, t3, t4⟩
  simp only [ReloadWeapon, HasInfiniteClip]
  congr 1
  by_cases hc : (icl || wc && e.Holder_HasInfiniteClip) = true
  · by_cases hd : apc - cl > 0 <;> simp [hc, hd] <;> omega
  · by_cases hd : min (apc - cl) (am - cl) > 0 <;> simp [hc, hd] <;> omega

/-- C5: `ReloadWeapon` computes the clip delta `AmmoPerClip - CurrentAmmoInClip`
under an infinite clip and `min (AmmoPerClip - CurrentAmmoInClip)
(CurrentAmmo - CurrentAmmoInClip)` otherwise, and adds it to the clip when it is
positive; `CurrentAmmo` is unchanged without an infinite clip and becomes the
maximum of the new clip and the old `CurrentAmmo` with one.  With a holder the
call returns.  Hence, without an infinite clip and with
`0 ≤ CurrentAmmoInClip ≤ CurrentAmmo`, `CurrentAmmoInClip ≤ AmmoPerClip`, the new
clip is `min AmmoPerClip CurrentAmmo` (clip 0 and ammo 10 give
`min AmmoPerClip 10`); with an infinite clip, clip 5 and `AmmoPerClip = 30`, the
new clip is 30 and `CurrentAmmo` is at least 30 and not lower than before. -/
theorem C5_ReloadWeapon_effect (e : Env) (w : AWSWeapon) :
    (ReloadWeapon e w).state.CurrentAmmoInClip =
      (if (if HasInfiniteClip e w = true then w.WeaponConfig.AmmoPerClip - w.CurrentAmmoInClip
            else min (w.WeaponConfig.AmmoPerClip - w.CurrentAmmoInClip)
              (w.CurrentAmmo - w.CurrentAmmoInClip)) > 0
        then w.CurrentAmmoInClip +
          (if HasInfiniteClip e w = true then w.WeaponConfig.AmmoPerClip - w.CurrentAmmoInClip
            else min (w.WeaponConfig.AmmoPerClip - w.CurrentAmmoInClip)
              (w.CurrentAmmo - w.CurrentAmmoInClip))
        else w.CurrentAmmoInClip) ∧
    (ReloadWeapon e w).state.CurrentAmmo =
      (if HasInfiniteClip e w = true then
        max (ReloadWeapon e w).state.CurrentAmmoInClip w.CurrentAmmo
       else w.CurrentAmmo) ∧
    (w.WeaponComponent = true → ReloadWeapon e w = .ok (ReloadWeapon e w).state) ∧
    (HasInfiniteClip e w = false → 0 ≤ w.CurrentAmmoInClip →
      w.CurrentAmmoInClip ≤ w.CurrentAmmo →
      w.CurrentAmmoInClip ≤ w.WeaponConfig.AmmoPerClip →
      (ReloadWeapon e w).state.CurrentAmmoInClip =
        min w.WeaponConfig.AmmoPerClip w.CurrentAmmo) ∧
    (HasInfiniteClip e w = false → w.CurrentAmmoInClip = 0 → w.CurrentAmmo = 10 →
      0 ≤ w.WeaponConfig.AmmoPerClip →
      (ReloadWeapon e w).state.CurrentAmmoInClip = min w.WeaponConfig.AmmoPerClip 10) ∧
    (HasInfiniteClip e w = true → w.CurrentAmmoInClip = 5 → w.WeaponConfig.AmmoPerClip = 30 →
      (ReloadWeapon e w).state.CurrentAmmoInClip = 30 ∧
      30 ≤ (ReloadWeapon e w).state.CurrentAmmo ∧
      w.CurrentAmmo ≤ (ReloadWeapon e w).state.CurrentAmmo) := by
  rcases w with ⟨cfg, ca, wc, eq, wf, pr, pe, rf, st, am, cl, bc, lf, ti, es, ed, t1, t2, t3, t4⟩
  simp only [ReloadWeapon, derefHolder, HasInfiniteClip]
  refine ⟨?_, ?_, ?_, ?_, ?_, ?_⟩
  · split_ifs <;> simp_all [Outcome.state]
  · split_ifs <;> simp_all [Outcome.state]
  · intro h; split_ifs <;> simp_all [Outcome.state]
  · intro h h1 h2 h3
    split_ifs <;> simp_all [Outcome.state] <;> try omega
  · intro h h1 h2 h3
    split_ifs <;> simp_all [Outcome.state] <;> try omega
  · intro h h1 h2
    split_ifs <;> simp_all [Outcome.state]

/-- The function `UseAmmo` in closed form. -/
theorem UseAmmo_eq (e : Env) (w : AWSWeapon) :
    UseAmmo e w = derefHolder
      { w with
        CurrentAmmoInClip :=
          if HasInfiniteAmmo e w = true then w.CurrentAmmoInClip else w.CurrentAmmoInClip - 1
        CurrentAmmo :=
          if HasInfiniteAmmo e w = true ∨ HasInfiniteClip e w = true then w.CurrentAmmo
          else w.CurrentAmmo - 1 } := by
  rcases w with ⟨⟨apc, ma, ic, tbs, nard, ia, icl⟩, ca, wc, eq, wf, pr, pe, rf, st, am, cl, bc,
    lf, ti, es, ed, t1, t2, t3, t4⟩
  simp only [UseAmmo, HasInfiniteClip, HasInfiniteAmmo]
  cases ia <;> cases icl <;> cases wc <;>
    cases e.Holder_HasInfiniteAmmo <;> cases e.Holder_HasInfiniteClip <;> simp

/-- The fields after a dereference of the holder are the fields before it. -/
theorem derefHolder_state (w : AWSWeapon) : (derefHolder w).state = w := by
  unfold derefHolder; split_ifs <;> rfl

/-- With a holder, the dereference returns. -/
theorem derefHolder_ok (w : AWSWeapon) (h : w.WeaponComponent = true) :
    derefHolder w = .ok w := by
  simp [derefHolder, h]

/-- A weapon that may fire has a holder. -/
theorem CanFire_holder (e : Env) (w : AWSWeapon) (h : CanFire e w = true) :
    w.WeaponComponent = true := by
  unfold CanFire at h
  simp only [Bool.and_eq_true] at h
  exact h.1.1.1

/-- With a holder, `UseAmmo` returns, and it leaves the holder, the
configuration, the state, the burst counter and the timer adjustment alone. -/
theorem UseAmmo_returns (e : Env) (w : AWSWeapon) (hh : w.WeaponComponent = true) :
    ∃ u, UseAmmo e w = .ok u ∧ u.WeaponComponent = true ∧
      u.WeaponConfig = w.WeaponConfig ∧ u.CurrentState = w.CurrentState ∧
      u.BurstCounter = w.BurstCounter ∧
      u.TimerIntervalAdjustment = w.TimerIntervalAdjustment := by
  rw [UseAmmo_eq]
  exact ⟨_, derefHolder_ok _ hh, hh, rfl, rfl, rfl, rfl⟩

/-- C7: `UseAmmo` lowers `CurrentAmmoInClip` by exactly 1 if and only if
infinite ammo is not in effect, lowers `CurrentAmmo` by exactly 1 if and only if
neither infinite ammo nor an infinite clip is in effect, each flag coming from
the configuration or from the holder, and changes no other field.  With a
holder the call returns. -/
theorem C7_UseAmmo_effect (e : Env) (w : AWSWeapon) :
    (UseAmmo e w).state =
      { w with
        CurrentAmmoInClip := (UseAmmo e w).state.CurrentAmmoInClip
        CurrentAmmo := (UseAmmo e w).state.CurrentAmmo } ∧
    ((UseAmmo e w).state.CurrentAmmoInClip = w.CurrentAmmoInClip - 1 ↔
      HasInfiniteAmmo e w = false) ∧
    ((UseAmmo e w).state.CurrentAmmoInClip = w.CurrentAmmoInClip ↔
      HasInfiniteAmmo e w = true) ∧
    ((UseAmmo e w).state.CurrentAmmo = w.CurrentAmmo - 1 ↔
      (HasInfiniteAmmo e w = false ∧ HasInfiniteClip e w = false)) ∧
    ((UseAmmo e w).state.CurrentAmmo = w.CurrentAmmo ↔
      ¬ (HasInfiniteAmmo e w = false ∧ HasInfiniteClip e w = false)) ∧
    HasInfiniteAmmo e w =
      (w.WeaponConfig.bInfiniteAmmo || (w.WeaponComponent && e.Holder_HasInfiniteAmmo)) ∧
    HasInfiniteClip e w =
      (w.WeaponConfig.bInfiniteClip || (w.WeaponComponent && e.Holder_HasInfiniteClip)) ∧
    (w.WeaponComponent = true → UseAmmo e w = .ok (UseAmmo e w).state) := by
  rw [UseAmmo_eq, derefHolder_state]
  refine ⟨rfl, ?_, ?_, ?_, ?_, rfl, rfl, ?_⟩
  · cases HasInfiniteAmmo e w
    · simp
    · simp; omega
  · cases HasInfiniteAmmo e w <;> simp
  · cases HasInfiniteAmmo e w <;> cases HasInfiniteClip e w <;> simp <;> omega
  · cases HasInfiniteAmmo e w <;> cases HasInfiniteClip e w <;> simp
  · intro h
    exact derefHolder_ok _ h

/-- C8: `CanReload()` is true if and only if the holder, when there is one,
permits the reload, `CurrentAmmoInClip < AmmoPerClip`, there is spare ammo
(`CurrentAmmo - CurrentAmmoInClip > 0`) or an infinite clip is in effect, and
`CurrentState` is `EWS_Idle` or `EWS_Firing`. -/
theorem C8_CanReload_iff (e : Env) (w : AWSWeapon) :
    CanReload e w = true ↔
      ((w.WeaponComponent = true → e.Holder_CanReload = true) ∧
       w.CurrentAmmoInClip < w.WeaponConfig.AmmoPerClip ∧
       (w.CurrentAmmo - w.CurrentAmmoInClip > 0 ∨ HasInfiniteClip e w = true) ∧
       (w.CurrentState = .EWS_Idle ∨ w.CurrentState = .EWS_Firing)) := by
  unfold CanReload
  cases w.WeaponComponent <;> cases e.Holder_CanReload <;> cases HasInfiniteClip e w <;>
    cases w.CurrentState <;> simp

/-- C9, amended: after the spawn sequence (the constructor followed by
`PostInitializeComponents`), for every configuration: when `InitialClips > 0`,
`CurrentAmmoInClip` is `AmmoPerClip` and `CurrentAmmo` is the `int32` product
`AmmoPerClip * InitialClips`, the exact product reduced modulo `2^32` into the
`int32` range; when `InitialClips ≤ 0`, both are 0; hence `CurrentAmmo` is
`InitialClips * AmmoPerClip` whenever `InitialClips ≥ 0` and the product lies
in the `int32` range. -/
theorem C9_spawn_seeds_ammo_amended (cfg : FWeaponConfig) (bCatchup : Bool) :
    (0 < cfg.InitialClips →
      (PostInitializeComponents (AWSWeapon.ctor cfg bCatchup)).CurrentAmmoInClip =
        cfg.AmmoPerClip ∧
      (PostInitializeComponents (AWSWeapon.ctor cfg bCatchup)).CurrentAmmo =
        wrapInt32 (cfg.AmmoPerClip * cfg.InitialClips)) ∧
    (cfg.InitialClips ≤ 0 →
      (PostInitializeComponents (AWSWeapon.ctor cfg bCatchup)).CurrentAmmoInClip = 0 ∧
      (PostInitializeComponents (AWSWeapon.ctor cfg bCatchup)).CurrentAmmo = 0) ∧
    (0 ≤ cfg.InitialClips → -2147483648 ≤ cfg.InitialClips * cfg.AmmoPerClip →
      cfg.InitialClips * cfg.AmmoPerClip ≤ 2147483647 →
      (PostInitializeComponents (AWSWeapon.ctor cfg bCatchup)).CurrentAmmo =
        cfg.InitialClips * cfg.AmmoPerClip) := by
  simp only [PostInitializeComponents, AWSWeapon.ctor]
  refine ⟨?_, ?_, ?_⟩
  · intro h
    simp [h]
  · intro h
    simp [not_lt.2 h]
  · intro h0 h1 h2
    split_ifs with h
    · show wrapInt32 (cfg.AmmoPerClip * cfg.InitialClips) = _
      rw [mul_comm, wrapInt32_of_range _ h1 h2]
    · have h3 : cfg.InitialClips = 0 := le_antisymm (not_lt.1 h) h0
      simp [h3]

/-- C9 as stated fails in two ways.  With 65536 clips of 65536 rounds the
product `2^32` does not fit in an `int32`: the stored `CurrentAmmo` is 0.  With
`InitialClips = -2` and 30 rounds per clip the seeding is skipped:
`CurrentAmmo` is 0, not -60. -/
theorem C9_spawn_seeds_ammo_counterexample :
    ((PostInitializeComponents (AWSWeapon.ctor Scenario.overflowConfig true)).CurrentAmmo = 0 ∧
      Scenario.overflowConfig.InitialClips * Scenario.overflowConfig.AmmoPerClip =
        4294967296 ∧
      (PostInitializeComponents (AWSWeapon.ctor Scenario.overflowConfig true)).CurrentAmmo ≠
        Scenario.overflowConfig.InitialClips * Scenario.overflowConfig.AmmoPerClip) ∧
    ((PostInitializeComponents
        (AWSWeapon.ctor Scenario.negativeClipsConfig true)).CurrentAmmo = 0 ∧
      Scenario.negativeClipsConfig.InitialClips * Scenario.negativeClipsConfig.AmmoPerClip =
        -60 ∧
      (PostInitializeComponents
        (AWSWeapon.ctor Scenario.negativeClipsConfig true)).CurrentAmmo ≠
        Scenario.negativeClipsConfig.InitialClips *
          Scenario.negativeClipsConfig.AmmoPerClip) := by
  refine ⟨⟨by decide, by decide, by decide⟩, ⟨by decide, by decide, by decide⟩⟩

/-- C9, the scenario of the specification: `AmmoPerClip = 30`, `MaxAmmo = 90`,
`InitialClips = 3` give `CurrentAmmoInClip = 30` and `CurrentAmmo = 90`. -/
theorem C9_spawn_seeds_ammo_amended_witness :
    (PostInitializeComponents
      (AWSWeapon.ctor ⟨30, 90, 3, 1 / 10, 2, false, false⟩ true)).CurrentAmmo = 3 * 30 ∧
    (PostInitializeComponents
      (AWSWeapon.ctor ⟨30, 90, 3, 1 / 10, 2, false, false⟩ true)).CurrentAmmoInClip = 30 :=
  have h := C9_spawn_seeds_ammo_amended ⟨30, 90, 3, 1 / 10, 2, false, false⟩ true
  ⟨h.2.2 (by decide) (by decide) (by decide), (h.1 (by decide)).1⟩

/-- C10: in a state whose `CurrentState` is not `EWS_Reloading`, `StopReload`
returns and leaves every field as it was. -/
theorem C10_StopReload_noop (hf : Env → AWSWeapon → Outcome) (e : Env) (w : AWSWeapon)
    (h : w.CurrentState ≠ .EWS_Reloading) :
    StopReload hf e w = .ok w := by
  simp [StopReload, h]

/-- C10 at the spawned weapon of the specification's scenario, with the
fuelled `HandleFiring`. -/
theorem C10_StopReload_noop_witness :
    StopReload (HandleFiring 1) ⟨true, true, false, false, true, true, true, false, true, 0, 0, 0⟩
      (PostInitializeComponents (AWSWeapon.ctor ⟨30, 90, 3, 1 / 10, 2, false, false⟩ true)) =
    .ok (PostInitializeComponents (AWSWeapon.ctor ⟨30, 90, 3, 1 / 10, 2, false, false⟩ true)) :=
  C10_StopReload_noop _ _ _ (by decide)

/-! ## Sequencing and the call cycle -/

theorem Ensures_ok {P : AWSWeapon → Prop} {w : AWSWeapon} (h : P w) :
    (Outcome.ok w).Ensures P := h

theorem Ensures_andThen {P Q : AWSWeapon → Prop} {o : Outcome} {f : AWSWeapon → Outcome}
    (ho : o.Ensures P) (hf : ∀ w, P w → (f w).Ensures Q) : (o.andThen f).Ensures Q := by
  cases o with
  | ok w => exact hf w ho
  | nullHolder w => trivial
  | outOfFuel w => exact ho

theorem Ensures_of_eq_ok {P : AWSWeapon → Prop} {o : Outcome} {w : AWSWeapon}
    (ho : o.Ensures P) (h : o = .ok w) : P w := by
  subst h; exact ho

theorem Ensures_derefHolder {P : AWSWeapon → Prop} {w : AWSWeapon} (h : P w) :
    (derefHolder w).Ensures P := by
  unfold derefHolder; split_ifs
  · exact h
  · trivial

theorem Ensures_ite {P : AWSWeapon → Prop} {c : Prop} [Decidable c] {a b : Outcome}
    (ha : c → a.Ensures P) (hb : ¬ c → b.Ensures P) : (if c then a else b).Ensures P := by
  split_ifs with h
  · exact ha h
  · exact hb h

theorem SetWeaponState_eq (hf : Env → AWSWeapon → Outcome) (e : Env) (s : EWeaponState)
    (w : AWSWeapon) :
    SetWeaponState hf e s w =
      if w.CurrentState ≠ .EWS_Firing ∧ s = .EWS_Firing then
        OnBurstStarted hf e (SetWeaponState.settled s w)
      else .ok (SetWeaponState.settled s w) := rfl

/-- With a reload pending, `DetermineWeaponState` selects `EWS_Firing` only for
a weapon that is already firing. -/
theorem NewState_pendingReload (e : Env) (w : AWSWeapon) (h : w.bPendingReload = true)
    (hs : DetermineWeaponState.NewState e w = .EWS_Firing) : w.CurrentState = .EWS_Firing := by
  unfold DetermineWeaponState.NewState at hs
  rw [h] at hs
  cases h1 : w.bIsEquipped <;> cases h2 : w.bPendingEquip <;> cases h3 : CanReload e w <;>
    simp [h1, h2, h3] at hs <;> exact hs

/-- With a reload pending, `DetermineWeaponState` starts no burst: it returns
the settled state, whatever `hf` is. -/
theorem DetermineWeaponState_pendingReload (hf : Env → AWSWeapon → Outcome) (e : Env)
    (w : AWSWeapon) (h : w.bPendingReload = true) :
    DetermineWeaponState hf e w =
      .ok (SetWeaponState.settled (DetermineWeaponState.NewState e w) w) := by
  unfold DetermineWeaponState
  rw [SetWeaponState_eq]
  have : ¬ (w.CurrentState ≠ .EWS_Firing ∧
      DetermineWeaponState.NewState e w = .EWS_Firing) := by
    rintro ⟨h1, h2⟩
    exact h1 (NewState_pendingReload e w h h2)
  rw [if_neg this]

/-- The function `StartReload` does not depend on `hf`. -/
theorem StartReload_indep (hf hf1 : Env → AWSWeapon → Outcome) (e : Env) (b : Bool)
    (w : AWSWeapon) : StartReload hf e b w = StartReload hf1 e b w := by
  unfold StartReload
  rw [DetermineWeaponState_pendingReload hf e _ rfl, DetermineWeaponState_pendingReload hf1 e _ rfl]

/-- The body of `HandleFiring` does not depend on `hf`: the nested calls never
reach `HandleFiring` again. -/
theorem HandleFiring_body_indep (hf hf1 : Env → AWSWeapon → Outcome) (e : Env)
    (w : AWSWeapon) : HandleFiring.body hf e w = HandleFiring.body hf1 e w := by
  unfold HandleFiring.body
  simp only [StartReload_indep hf hf1]

/-- One unit of fuel is enough for `HandleFiring`. -/
theorem HandleFiring_succ (n : Nat) :
    HandleFiring (n + 1) = HandleFiring.body (fun _ w => .ok w) := by
  funext e w
  exact HandleFiring_body_indep _ _ e w

/-! ## Properties of the ammo ledger along the call cycle -/

theorem SameLedger_refl (w : AWSWeapon) : SameLedger w w := ⟨rfl, rfl, rfl⟩

theorem SameLedger_trans {a b c : AWSWeapon} (h1 : SameLedger a b) (h2 : SameLedger b c) :
    SameLedger a c :=
  ⟨h2.1.trans h1.1, h2.2.1.trans h1.2.1, h2.2.2.trans h1.2.2⟩

theorem SameLedger_OnBurstFinished (w : AWSWeapon) : SameLedger w (OnBurstFinished w) :=
  ⟨rfl, rfl, rfl⟩

theorem SameLedger_settled (s : EWeaponState) (w : AWSWeapon) :
    SameLedger w (SetWeaponState.settled s w) := by
  unfold SetWeaponState.settled
  split_ifs <;> exact ⟨rfl, rfl, rfl⟩

theorem Ledger_OnBurstStarted {P : AWSWeapon → Prop} (hP : LedgerProperty P)
    (hf : Env → AWSWeapon → Outcome) (e : Env) (hhf : ∀ w, P w → (hf e w).Ensures P)
    (w : AWSWeapon) (h : P w) : (OnBurstStarted hf e w).Ensures P := by
  unfold OnBurstStarted
  dsimp only
  split_ifs
  · exact hP w _ ⟨rfl, rfl, rfl⟩ h
  · exact hhf w h

theorem Ledger_SetWeaponState {P : AWSWeapon → Prop} (hP : LedgerProperty P)
    (hf : Env → AWSWeapon → Outcome) (e : Env) (hhf : ∀ w, P w → (hf e w).Ensures P)
    (s : EWeaponState) (w : AWSWeapon) (h : P w) : (SetWeaponState hf e s w).Ensures P := by
  rw [SetWeaponState_eq]
  have h1 : P (SetWeaponState.settled s w) := hP w _ (SameLedger_settled s w) h
  split_ifs
  · exact Ledger_OnBurstStarted hP hf e hhf _ h1
  · exact h1

theorem Ledger_DetermineWeaponState {P : AWSWeapon → Prop} (hP : LedgerProperty P)
    (hf : Env → AWSWeapon → Outcome) (e : Env) (hhf : ∀ w, P w → (hf e w).Ensures P)
    (w : AWSWeapon) (h : P w) : (DetermineWeaponState hf e w).Ensures P :=
  Ledger_SetWeaponState hP hf e hhf _ w h

theorem Ledger_StartReload {P : AWSWeapon → Prop} (hP : LedgerProperty P)
    (hf : Env → AWSWeapon → Outcome) (e : Env) (b : Bool) (w : AWSWeapon) (h : P w) :
    (StartReload hf e b w).Ensures P := by
  rw [StartReload_indep hf (fun _ w => .ok w)]
  unfold StartReload
  refine Ensures_ite (fun _ => ?_) (fun _ => h)
  refine Ensures_andThen (P := P) ?_ ?_
  · exact Ledger_DetermineWeaponState hP (fun _ w => .ok w) e (fun _ h => h) _
      (hP w _ ⟨rfl, rfl, rfl⟩ h)
  · intro w1 h1
    refine Ensures_andThen (Ensures_derefHolder h1) ?_
    intro w2 h2
    dsimp only
    split_ifs <;> exact hP w2 _ ⟨rfl, rfl, rfl⟩ h2

theorem Ledger_StopReload {P : AWSWeapon → Prop} (hP : LedgerProperty P)
    (hf : Env → AWSWeapon → Outcome) (e : Env) (hhf : ∀ w, P w → (hf e w).Ensures P)
    (w : AWSWeapon) (h : P w) : (StopReload hf e w).Ensures P := by
  unfold StopReload
  refine Ensures_ite (fun _ => ?_) (fun _ => h)
  refine Ensures_andThen (P := P) ?_ ?_
  · exact Ledger_DetermineWeaponState hP _ e hhf _ (hP w _ ⟨rfl, rfl, rfl⟩ h)
  · intro w1 h1
    exact Ensures_derefHolder h1

/-- The body of `HandleFiring` keeps a ledger property that a shot keeps. -/
theorem Ledger_HandleFiring_body {P : AWSWeapon → Prop} (hP : LedgerProperty P)
    (hf : Env → AWSWeapon → Outcome) (e : Env)
    (hU : e.Holder_IsLocallyControlled = true →
      ∀ w, P w → HandleFiring.shoots e w = true → (UseAmmo e w).Ensures P)
    (w : AWSWeapon) (h : P w) : (HandleFiring.body hf e w).Ensures P := by
  unfold HandleFiring.body
  refine Ensures_andThen (P := P) ?_ ?_
  · refine Ensures_ite (fun h1 => ?_) (fun _ => ?_)
    · refine Ensures_ite (fun h2 => ?_) (fun _ => h)
      have hl : e.Holder_IsLocallyControlled = true := by
        simp only [Bool.and_eq_true] at h2; exact h2.2
      refine Ensures_andThen (hU hl w h h1) ?_
      intro w1 hw1
      exact hP w1 _ ⟨rfl, rfl, rfl⟩ hw1
    · refine Ensures_ite (fun _ => ?_) (fun _ => ?_)
      · exact Ledger_StartReload hP hf e false w h
      · refine Ensures_ite (fun _ => ?_) (fun _ => ?_)
        · refine Ensures_ite (fun _ => ?_) (fun _ => h)
          exact hP w _ (SameLedger_OnBurstFinished w) h
        · exact hP w _ (SameLedger_OnBurstFinished w) h
  · intro w1 hw1
    refine Ensures_andThen (P := P) ?_ ?_
    · refine Ensures_ite (fun _ => ?_) (fun _ => hw1)
      refine Ensures_andThen (P := P) ?_ ?_
      · exact Ensures_ite (fun _ => Ledger_StartReload hP hf e false w1 hw1) (fun _ => hw1)
      · intro w2 hw2
        dsimp only
        refine Ensures_ite (fun _ => ?_) (fun _ => ?_)
        · exact hP w2 _ ⟨rfl, rfl, rfl⟩ hw2
        · exact hP w2 _ ⟨rfl, rfl, rfl⟩ hw2
    · intro w4 hw4
      exact hP w4 _ ⟨rfl, rfl, rfl⟩ hw4

theorem Ledger_HandleFiring {P : AWSWeapon → Prop} (hP : LedgerProperty P) (n : Nat) (e : Env)
    (hU : e.Holder_IsLocallyControlled = true →
      ∀ w, P w → HandleFiring.shoots e w = true → (UseAmmo e w).Ensures P)
    (w : AWSWeapon) (h : P w) : (HandleFiring (n + 1) e w).Ensures P :=
  Ledger_HandleFiring_body hP _ e hU w h

theorem Ledger_HandleReFiring {P : AWSWeapon → Prop} (hP : LedgerProperty P) (n : Nat) (e : Env)
    (hU : e.Holder_IsLocallyControlled = true →
      ∀ w, P w → HandleFiring.shoots e w = true → (UseAmmo e w).Ensures P)
    (w : AWSWeapon) (h : P w) : (HandleReFiring (n + 1) e w).Ensures P := by
  unfold HandleReFiring
  refine Ledger_HandleFiring hP n e hU _ ?_
  dsimp only
  split_ifs
  · exact hP w _ ⟨rfl, rfl, rfl⟩ h
  · exact h

/-! ## Properties of the ammo ledger along the operations -/

theorem Ledger_StartFire {P : AWSWeapon → Prop} (hP : LedgerProperty P) (n : Nat) (e : Env)
    (hhf : ∀ w, P w → (HandleFiring n e w).Ensures P) (w : AWSWeapon) (h : P w) :
    (StartFire n e w).Ensures P := by
  unfold StartFire
  refine Ensures_ite (fun _ => ?_) (fun _ => h)
  exact Ledger_DetermineWeaponState hP _ e hhf _ (hP w _ ⟨rfl, rfl, rfl⟩ h)

theorem Ledger_StopFire {P : AWSWeapon → Prop} (hP : LedgerProperty P) (n : Nat) (e : Env)
    (hhf : ∀ w, P w → (HandleFiring n e w).Ensures P) (w : AWSWeapon) (h : P w) :
    (StopFire n e w).Ensures P := by
  unfold StopFire
  refine Ensures_ite (fun _ => ?_) (fun _ => h)
  exact Ledger_DetermineWeaponState hP _ e hhf _ (hP w _ ⟨rfl, rfl, rfl⟩ h)

theorem Ledger_OnEquipFinished {P : AWSWeapon → Prop} (hP : LedgerProperty P) (n : Nat)
    (e : Env) (hhf : ∀ w, P w → (HandleFiring n e w).Ensures P) (w : AWSWeapon) (h : P w) :
    (OnEquipFinished n e w).Ensures P := by
  unfold OnEquipFinished
  refine Ensures_andThen (P := P) ?_ ?_
  · exact Ledger_DetermineWeaponState hP _ e hhf _ (hP w _ ⟨rfl, rfl, rfl⟩ h)
  · intro w1 h1
    refine Ensures_ite (fun _ => ?_) (fun _ => h1)
    exact Ensures_ite (fun _ => Ledger_StartReload hP _ e false w1 h1) (fun _ => h1)

theorem Ledger_OnEquip {P : AWSWeapon → Prop} (hP : LedgerProperty P) (n : Nat) (e : Env)
    (hhf : ∀ w, P w → (HandleFiring n e w).Ensures P) (l : Bool) (w : AWSWeapon) (h : P w) :
    (OnEquip n e l w).Ensures P := by
  unfold OnEquip
  refine Ensures_ite (fun _ => h) (fun _ => ?_)
  refine Ensures_andThen (P := P) ?_ ?_
  · exact Ledger_DetermineWeaponState hP _ e hhf _ (hP w _ ⟨rfl, rfl, rfl⟩ h)
  · intro w1 h1
    refine Ensures_andThen (P := P) ?_ (fun w2 h2 => Ensures_derefHolder h2)
    refine Ensures_ite (fun _ => ?_) (fun _ => ?_)
    · exact hP w1 _ ⟨rfl, rfl, rfl⟩ h1
    · exact Ledger_OnEquipFinished hP n e hhf w1 h1

theorem Ledger_OnUnEquip {P : AWSWeapon → Prop} (hP : LedgerProperty P) (n : Nat) (e : Env)
    (hhf : ∀ w, P w → (HandleFiring n e w).Ensures P) (w : AWSWeapon) (h : P w) :
    (OnUnEquip n e w).Ensures P := by
  unfold OnUnEquip
  refine Ensures_andThen (P := P) ?_ ?_
  · exact Ledger_StopFire hP n e hhf _ (hP w _ ⟨rfl, rfl, rfl⟩ h)
  · intro w1 h1
    refine Ensures_andThen (P := P) ?_ ?_
    · refine Ensures_ite (fun _ => ?_) (fun _ => h1)
      refine Ensures_andThen (Ensures_derefHolder h1) ?_
      intro w2 h2
      exact hP w2 _ ⟨rfl, rfl, rfl⟩ h2
    · intro w3 h3
      refine Ensures_andThen (P := P) ?_ ?_
      · refine Ensures_ite (fun _ => ?_) (fun _ => h3)
        refine Ensures_andThen (Ensures_derefHolder h3) ?_
        intro w4 h4
        exact hP w4 _ ⟨rfl, rfl, rfl⟩ h4
      · intro w5 h5
        refine Ensures_andThen (Ensures_derefHolder h5) ?_
        intro w6 h6
        exact Ledger_DetermineWeaponState hP _ e hhf _ h6

theorem Ledger_OnLeaveInventory {P : AWSWeapon → Prop} (hP : LedgerProperty P) (n : Nat)
    (e : Env) (hhf : ∀ w, P w → (HandleFiring n e w).Ensures P) (w : AWSWeapon) (h : P w) :
    (OnLeaveInventory n e w).Ensures P := by
  unfold OnLeaveInventory
  refine Ensures_andThen (P := P) ?_ ?_
  · exact Ensures_ite (fun _ => Ledger_OnUnEquip hP n e hhf w h) (fun _ => h)
  · intro w1 h1
    refine Ensures_ite (fun _ => ?_) (fun _ => h1)
    exact hP w1 _ ⟨rfl, rfl, rfl⟩ h1

theorem Ledger_FireTimerExpired {P : AWSWeapon → Prop} (hP : LedgerProperty P) (n : Nat)
    (e : Env)
    (hU : e.Holder_IsLocallyControlled = true →
      ∀ w, P w → HandleFiring.shoots e w = true → (UseAmmo e w).Ensures P)
    (w : AWSWeapon) (h : P w) : (FireTimerExpired (n + 1) e w).Ensures P := by
  unfold FireTimerExpired
  split
  · exact h
  · exact Ledger_HandleFiring hP n e hU _ (hP w _ ⟨rfl, rfl, rfl⟩ h)
  · exact Ledger_HandleReFiring hP n e hU _ (hP w _ ⟨rfl, rfl, rfl⟩ h)

theorem Ledger_StopReloadTimerExpired {P : AWSWeapon → Prop} (hP : LedgerProperty P) (n : Nat)
    (e : Env) (hhf : ∀ w, P w → (HandleFiring n e w).Ensures P) (w : AWSWeapon) (h : P w) :
    (StopReloadTimerExpired n e w).Ensures P := by
  unfold StopReloadTimerExpired
  split
  · exact h
  · exact Ledger_StopReload hP _ e hhf _ (hP w _ ⟨rfl, rfl, rfl⟩ h)

theorem Ledger_ReloadWeaponTimerExpired {P : AWSWeapon → Prop} (hP : LedgerProperty P)
    (e : Env) (hR : ∀ w, P w → (ReloadWeapon e w).Ensures P) (w : AWSWeapon) (h : P w) :
    (ReloadWeaponTimerExpired e w).Ensures P := by
  unfold ReloadWeaponTimerExpired
  split
  · exact h
  · exact hR _ (hP w _ ⟨rfl, rfl, rfl⟩ h)

theorem Ledger_EquipTimerExpired {P : AWSWeapon → Prop} (hP : LedgerProperty P) (n : Nat)
    (e : Env) (hhf : ∀ w, P w → (HandleFiring n e w).Ensures P) (w : AWSWeapon) (h : P w) :
    (EquipTimerExpired n e w).Ensures P := by
  unfold EquipTimerExpired
  split
  · exact h
  · exact Ledger_OnEquipFinished hP n e hhf _ (hP w _ ⟨rfl, rfl, rfl⟩ h)

theorem Ledger_GiveAmmo {P : AWSWeapon → Prop} (hP : LedgerProperty P)
    (hf : Env → AWSWeapon → Outcome) (e : Env) (a : Int) (w : AWSWeapon)
    (h : P { w with
      CurrentAmmo := w.CurrentAmmo + min a (max 0 (w.WeaponConfig.MaxAmmo - w.CurrentAmmo)) }) :
    (GiveAmmo hf e a w).Ensures P := by
  unfold GiveAmmo
  refine Ensures_andThen (P := P) ?_ (fun w2 h2 => Ensures_derefHolder h2)
  refine Ensures_ite (fun _ => ?_) (fun _ => h)
  unfold ClientStartReload ClientStartReload_Implementation
  exact Ensures_ite (fun _ => Ledger_StartReload hP hf e false _ h) (fun _ => h)

/-- Every operation keeps a ledger property that a shot, `ReloadWeapon`, the
addition of `GiveAmmo` and `ServerHandleFiring` keep. -/
theorem Ledger_Op_run {P : AWSWeapon → Prop} (hP : LedgerProperty P) (n : Nat) (e : Env)
    (op : Op) (w : AWSWeapon) (h : P w)
    (hU : e.Holder_IsLocallyControlled = true →
      ∀ w, P w → HandleFiring.shoots e w = true → (UseAmmo e w).Ensures P)
    (hR : ∀ w, P w → (ReloadWeapon e w).Ensures P)
    (hG : ∀ a, op = .GiveAmmo a → P { w with
      CurrentAmmo := w.CurrentAmmo + min a (max 0 (w.WeaponConfig.MaxAmmo - w.CurrentAmmo)) })
    (hS : op = .ServerHandleFiring → (ServerHandleFiring_Implementation (n + 1) e w).Ensures P) :
    (Op.run (n + 1) e op w).Ensures P := by
  have hhf : ∀ w, P w → (HandleFiring (n + 1) e w).Ensures P :=
    fun w h => Ledger_HandleFiring hP n e hU w h
  cases op with
  | StartFire => exact Ledger_StartFire hP _ e hhf w h
  | StopFire => exact Ledger_StopFire hP _ e hhf w h
  | StartReload b => exact Ledger_StartReload hP _ e b w h
  | StopReload => exact Ledger_StopReload hP _ e hhf w h
  | ReloadWeapon => exact hR w h
  | GiveAmmo a => exact Ledger_GiveAmmo hP _ e a w (hG a rfl)
  | OnEquip l => exact Ledger_OnEquip hP _ e hhf l w h
  | OnEquipFinished => exact Ledger_OnEquipFinished hP _ e hhf w h
  | OnUnEquip => exact Ledger_OnUnEquip hP _ e hhf w h
  | OnEnterInventory => exact hP w _ ⟨rfl, rfl, rfl⟩ h
  | OnLeaveInventory => exact Ledger_OnLeaveInventory hP _ e hhf w h
  | FireTimer => exact Ledger_FireTimerExpired hP n e hU w h
  | StopReloadTimer => exact Ledger_StopReloadTimerExpired hP _ e hhf w h
  | ReloadWeaponTimer => exact Ledger_ReloadWeaponTimerExpired hP e hR w h
  | EquipTimer => exact Ledger_EquipTimerExpired hP _ e hhf w h
  | ServerHandleFiring => exact hS rfl

/-! ## The ammo invariants -/

theorem settled_WeaponComponent (s : EWeaponState) (w : AWSWeapon) :
    (SetWeaponState.settled s w).WeaponComponent = w.WeaponComponent := by
  unfold SetWeaponState.settled
  split_ifs <;> rfl

/-- The function `StartReload` in closed form: the state is settled without starting a
burst, the holder is dereferenced and the timers are scheduled. -/
theorem StartReload_eq (hf : Env → AWSWeapon → Outcome) (e : Env) (b : Bool) (w : AWSWeapon) :
    StartReload hf e b w =
      if (b || CanReload e w) = true then
        (derefHolder (SetWeaponState.settled
          (DetermineWeaponState.NewState e { w with bPendingReload := true })
          { w with bPendingReload := true })).andThen
          fun w2 => .ok (StartReload.scheduled e w2)
      else .ok w := by
  unfold StartReload
  rw [DetermineWeaponState_pendingReload hf e _ rfl]
  rfl

theorem SameLedger_scheduled (e : Env) (w : AWSWeapon) :
    SameLedger w (StartReload.scheduled e w) := by
  unfold StartReload.scheduled
  dsimp only
  split_ifs <;> exact ⟨rfl, rfl, rfl⟩

theorem AmmoBounds_ledger (cfg : FWeaponConfig) :
    LedgerProperty (fun w => w.WeaponConfig = cfg ∧ 0 ≤ w.CurrentAmmoInClip ∧
      w.CurrentAmmoInClip ≤ cfg.AmmoPerClip ∧ w.CurrentAmmoInClip ≤ w.CurrentAmmo ∧
      w.CurrentAmmo ≤ cfg.MaxAmmo) := by
  rintro w w1 ⟨h1, h2, h3⟩ ⟨h4, h5⟩
  exact ⟨h1.trans h4, by omega⟩

theorem SameLedger_ledger (w : AWSWeapon) : LedgerProperty (SameLedger w) :=
  fun _ _ h1 h2 => SameLedger_trans h2 h1

/-- Where the holder is not locally controlled, `HandleFiring` leaves the
configuration and the ammo counts as they were. -/
theorem HandleFiring_notLocal_ledger (n : Nat) (e : Env)
    (hl : e.Holder_IsLocallyControlled = false) (w : AWSWeapon) :
    (HandleFiring (n + 1) e w).Ensures (SameLedger w) :=
  Ledger_HandleFiring (SameLedger_ledger w) n e
    (fun h => absurd h (by simp [hl])) w (SameLedger_refl w)

theorem shoots_noInfinite (e : Env) (he : e.NoInfinite) (w : AWSWeapon)
    (hia : w.WeaponConfig.bInfiniteAmmo = false) (hic : w.WeaponConfig.bInfiniteClip = false)
    (h : HandleFiring.shoots e w = true) : 0 < w.CurrentAmmoInClip := by
  simp only [HandleFiring.shoots, HasInfiniteClip, HasInfiniteAmmo, hia, hic, he.1, he.2,
    Bool.and_false, Bool.or_false, Bool.and_eq_true, decide_eq_true_eq] at h
  exact h.1

theorem AmmoBounds_UseAmmo (cfg : FWeaponConfig) (hia : cfg.bInfiniteAmmo = false)
    (hic : cfg.bInfiniteClip = false) (e : Env) (he : e.NoInfinite) (w : AWSWeapon)
    (h : w.WeaponConfig = cfg ∧ 0 ≤ w.CurrentAmmoInClip ∧
      w.CurrentAmmoInClip ≤ cfg.AmmoPerClip ∧ w.CurrentAmmoInClip ≤ w.CurrentAmmo ∧
      w.CurrentAmmo ≤ cfg.MaxAmmo)
    (hpos : 0 < w.CurrentAmmoInClip) :
    (UseAmmo e w).Ensures (fun w => w.WeaponConfig = cfg ∧ 0 ≤ w.CurrentAmmoInClip ∧
      w.CurrentAmmoInClip ≤ cfg.AmmoPerClip ∧ w.CurrentAmmoInClip ≤ w.CurrentAmmo ∧
      w.CurrentAmmo ≤ cfg.MaxAmmo) := by
  rw [UseAmmo_eq]
  refine Ensures_derefHolder ⟨h.1, ?_⟩
  have hc : HasInfiniteClip e w = false := by simp [HasInfiniteClip, h.1, hic, he.2]
  have ha : HasInfiniteAmmo e w = false := by simp [HasInfiniteAmmo, h.1, hia, he.1]
  obtain ⟨_, h1, h2, h3, h4⟩ := h
  simp [hc, ha]
  omega

theorem AmmoBounds_ReloadWeapon (cfg : FWeaponConfig)
    (hic : cfg.bInfiniteClip = false) (e : Env) (he : e.NoInfinite) (w : AWSWeapon)
    (h : w.WeaponConfig = cfg ∧ 0 ≤ w.CurrentAmmoInClip ∧
      w.CurrentAmmoInClip ≤ cfg.AmmoPerClip ∧ w.CurrentAmmoInClip ≤ w.CurrentAmmo ∧
      w.CurrentAmmo ≤ cfg.MaxAmmo) :
    (ReloadWeapon e w).Ensures (fun w => w.WeaponConfig = cfg ∧ 0 ≤ w.CurrentAmmoInClip ∧
      w.CurrentAmmoInClip ≤ cfg.AmmoPerClip ∧ w.CurrentAmmoInClip ≤ w.CurrentAmmo ∧
      w.CurrentAmmo ≤ cfg.MaxAmmo) := by
  rw [ReloadWeapon_eq]
  refine Ensures_derefHolder ⟨h.1, ?_⟩
  have hc : HasInfiniteClip e w = false := by simp [HasInfiniteClip, h.1, hic, he.2]
  obtain ⟨h0, h1, h2, h3, h4⟩ := h
  simp [hc, h0]
  omega

theorem AmmoBounds_ServerHandleFiring (cfg : FWeaponConfig) (hia : cfg.bInfiniteAmmo = false)
    (hic : cfg.bInfiniteClip = false) (n : Nat) (e : Env) (he : e.NoInfinite)
    (hs : e.ServerDelivery) (w : AWSWeapon)
    (h : w.WeaponConfig = cfg ∧ 0 ≤ w.CurrentAmmoInClip ∧
      w.CurrentAmmoInClip ≤ cfg.AmmoPerClip ∧ w.CurrentAmmoInClip ≤ w.CurrentAmmo ∧
      w.CurrentAmmo ≤ cfg.MaxAmmo) :
    (ServerHandleFiring_Implementation (n + 1) e w).Ensures
      (fun w => w.WeaponConfig = cfg ∧ 0 ≤ w.CurrentAmmoInClip ∧
        w.CurrentAmmoInClip ≤ cfg.AmmoPerClip ∧ w.CurrentAmmoInClip ≤ w.CurrentAmmo ∧
        w.CurrentAmmo ≤ cfg.MaxAmmo) := by
  unfold ServerHandleFiring_Implementation
  refine Ensures_andThen (HandleFiring_notLocal_ledger n e hs.2 w) ?_
  intro w1 h1
  have hw1 := AmmoBounds_ledger cfg w w1 h1 h
  refine Ensures_ite (fun hb => ?_) (fun _ => hw1)
  have hpos : 0 < w1.CurrentAmmoInClip := by
    simp only [Bool.and_eq_true, decide_eq_true_eq] at hb
    rw [h1.2.2]; exact hb.1
  refine Ensures_andThen (AmmoBounds_UseAmmo cfg hia hic e he w1 hw1 hpos) ?_
  intro w2 h2
  exact h2

theorem AmmoBounds_reach (cfg : FWeaponConfig) (bCatchup : Bool) (hwf : cfg.WellFormed)
    (hfit : cfg.InitialClips * cfg.AmmoPerClip ≤ cfg.MaxAmmo)
    (hia : cfg.bInfiniteAmmo = false) (hic : cfg.bInfiniteClip = false) (w : AWSWeapon)
    (hr : Reach admNoInfiniteGiveNonneg cfg bCatchup w) :
    w.WeaponConfig = cfg ∧ 0 ≤ w.CurrentAmmoInClip ∧
      w.CurrentAmmoInClip ≤ cfg.AmmoPerClip ∧ w.CurrentAmmoInClip ≤ w.CurrentAmmo ∧
      w.CurrentAmmo ≤ cfg.MaxAmmo := by
  obtain ⟨hA, hM, hI, h32⟩ := hwf
  induction hr with
  | ctor => exact ⟨rfl, le_refl _, hA, le_refl _, hM⟩
  | spawn =>
    have hfit1 : cfg.AmmoPerClip * cfg.InitialClips ≤ cfg.MaxAmmo := by
      rw [mul_comm]; exact hfit
    have h0 : 0 ≤ cfg.AmmoPerClip * cfg.InitialClips := mul_nonneg hA hI
    have hw : wrapInt32 (cfg.AmmoPerClip * cfg.InitialClips) =
        cfg.AmmoPerClip * cfg.InitialClips :=
      wrapInt32_of_range _ (by omega) (by omega)
    simp only [PostInitializeComponents, AWSWeapon.ctor]
    split_ifs with h
    · refine ⟨rfl, hA, le_refl _, ?_, ?_⟩
      · show cfg.AmmoPerClip ≤ wrapInt32 (cfg.AmmoPerClip * cfg.InitialClips)
        rw [hw]
        nlinarith
      · show wrapInt32 (cfg.AmmoPerClip * cfg.InitialClips) ≤ cfg.MaxAmmo
        rw [hw]; exact hfit1
    · exact ⟨rfl, le_refl _, hA, le_refl _, hM⟩
  | step w w1 op e n _ hadm hrun ih =>
    have he : e.NoInfinite := by
      cases op <;> first | exact hadm | exact hadm.1
    refine Ensures_of_eq_ok (Ledger_Op_run (AmmoBounds_ledger cfg) n e op w ih
      (fun _ w hw hsh => AmmoBounds_UseAmmo cfg hia hic e he w hw
        (shoots_noInfinite e he w (hw.1 ▸ hia) (hw.1 ▸ hic) hsh))
      (fun w hw => AmmoBounds_ReloadWeapon cfg hic e he w hw) ?_ ?_) hrun
    · intro a ha
      subst ha
      have h0 : 0 ≤ a := hadm.2
      obtain ⟨h1, h2, h3, h4, h5⟩ := ih
      refine ⟨h1, h2, h3, ?_, ?_⟩
      · show w.CurrentAmmoInClip ≤
          w.CurrentAmmo + min a (max 0 (w.WeaponConfig.MaxAmmo - w.CurrentAmmo))
        omega
      · show w.CurrentAmmo + min a (max 0 (w.WeaponConfig.MaxAmmo - w.CurrentAmmo)) ≤
          cfg.MaxAmmo
        rw [h1]; omega
    · intro hop
      subst hop
      exact AmmoBounds_ServerHandleFiring cfg hia hic n e he hadm.2 w ih

/-! ## The burst invariant -/

theorem Burst_OnBurstFinished (w : AWSWeapon) : BurstInvariant (OnBurstFinished w) :=
  fun _ => ⟨le_refl _, rfl⟩

theorem Burst_settled (s : EWeaponState) (w : AWSWeapon) (h : BurstInvariant w) :
    BurstInvariant (SetWeaponState.settled s w) := by
  unfold SetWeaponState.settled
  split_ifs with hc
  · intro _; exact ⟨le_refl _, rfl⟩
  · intro hs
    have hs1 : s ≠ .EWS_Firing := hs
    have hw : w.CurrentState ≠ .EWS_Firing := fun hf => hc ⟨hf, hs1⟩
    exact h hw

theorem settled_CurrentState (s : EWeaponState) (w : AWSWeapon) :
    (SetWeaponState.settled s w).CurrentState = s := rfl

theorem Burst_OnBurstStarted (hf : Env → AWSWeapon → Outcome) (e : Env)
    (hhf : ∀ w, BurstInvariant w → w.CurrentState = .EWS_Firing →
      (hf e w).Ensures BurstInvariant)
    (w : AWSWeapon) (h : BurstInvariant w) (hs : w.CurrentState = .EWS_Firing) :
    (OnBurstStarted hf e w).Ensures BurstInvariant := by
  unfold OnBurstStarted
  dsimp only
  refine Ensures_ite (fun _ => ?_) (fun _ => hhf w h hs)
  intro hn
  exact absurd hs hn

theorem Burst_SetWeaponState (hf : Env → AWSWeapon → Outcome) (e : Env)
    (hhf : ∀ w, BurstInvariant w → w.CurrentState = .EWS_Firing →
      (hf e w).Ensures BurstInvariant)
    (s : EWeaponState) (w : AWSWeapon) (h : BurstInvariant w) :
    (SetWeaponState hf e s w).Ensures BurstInvariant := by
  rw [SetWeaponState_eq]
  refine Ensures_ite (fun hc => ?_) (fun _ => Burst_settled s w h)
  exact Burst_OnBurstStarted hf e hhf _ (Burst_settled s w h) hc.2

theorem Burst_DetermineWeaponState (hf : Env → AWSWeapon → Outcome) (e : Env)
    (hhf : ∀ w, BurstInvariant w → w.CurrentState = .EWS_Firing →
      (hf e w).Ensures BurstInvariant)
    (w : AWSWeapon) (h : BurstInvariant w) :
    (DetermineWeaponState hf e w).Ensures BurstInvariant :=
  Burst_SetWeaponState hf e hhf _ w h

theorem Burst_scheduled (e : Env) (w : AWSWeapon) (h : BurstInvariant w) :
    BurstInvariant (StartReload.scheduled e w) := by
  unfold StartReload.scheduled
  dsimp only
  split_ifs <;> exact h

theorem Burst_StartReload (hf : Env → AWSWeapon → Outcome) (e : Env) (b : Bool)
    (w : AWSWeapon) (h : BurstInvariant w) :
    (StartReload hf e b w).Ensures BurstInvariant := by
  rw [StartReload_eq]
  refine Ensures_ite (fun _ => ?_) (fun _ => h)
  refine Ensures_andThen (Ensures_derefHolder (Burst_settled _ _ h)) ?_
  intro w2 h2
  exact Burst_scheduled e w2 h2

theorem Burst_StopReload (hf : Env → AWSWeapon → Outcome) (e : Env)
    (hhf : ∀ w, BurstInvariant w → w.CurrentState = .EWS_Firing →
      (hf e w).Ensures BurstInvariant)
    (w : AWSWeapon) (h : BurstInvariant w) :
    (StopReload hf e w).Ensures BurstInvariant := by
  unfold StopReload
  refine Ensures_ite (fun _ => ?_) (fun _ => h)
  exact Ensures_andThen (Burst_DetermineWeaponState hf e hhf _ h)
    (fun w1 h1 => Ensures_derefHolder h1)

theorem UseAmmo_CurrentState (e : Env) (w : AWSWeapon) :
    (UseAmmo e w).Ensures (fun w1 => w1.CurrentState = w.CurrentState) := by
  rw [UseAmmo_eq]
  exact Ensures_derefHolder rfl

/-- The body of `HandleFiring` keeps the burst invariant when it runs in
`EWS_Firing` or for a holder that is not locally controlled. -/
theorem Burst_HandleFiring_body (hf : Env → AWSWeapon → Outcome) (e : Env) (w : AWSWeapon)
    (h : BurstInvariant w)
    (hs : w.CurrentState = .EWS_Firing ∨ e.Holder_IsLocallyControlled = false) :
    (HandleFiring.body hf e w).Ensures BurstInvariant := by
  unfold HandleFiring.body
  refine Ensures_andThen (P := BurstInvariant) ?_ ?_
  · refine Ensures_ite (fun _ => ?_) (fun _ => ?_)
    · refine Ensures_ite (fun h2 => ?_) (fun _ => h)
      have hl : e.Holder_IsLocallyControlled = true := by
        simp only [Bool.and_eq_true] at h2; exact h2.2
      have hF : w.CurrentState = .EWS_Firing := by
        rcases hs with hs | hs
        · exact hs
        · rw [hl] at hs; exact absurd hs (by decide)
      refine Ensures_andThen (UseAmmo_CurrentState e w) ?_
      intro w1 hw1 hn
      exact absurd (hw1.trans hF) hn
    · refine Ensures_ite (fun _ => ?_) (fun _ => ?_)
      · exact Burst_StartReload hf e false w h
      · refine Ensures_ite (fun _ => ?_) (fun _ => ?_)
        · exact Ensures_ite (fun _ => Burst_OnBurstFinished w) (fun _ => h)
        · exact Burst_OnBurstFinished w
  · intro w1 hw1
    refine Ensures_andThen (P := BurstInvariant) ?_ ?_
    · refine Ensures_ite (fun _ => ?_) (fun _ => hw1)
      refine Ensures_andThen (P := BurstInvariant) ?_ ?_
      · exact Ensures_ite (fun _ => Burst_StartReload hf e false w1 hw1) (fun _ => hw1)
      · intro w2 hw2
        dsimp only
        refine Ensures_ite (fun hb => ?_) (fun _ => hw2)
        intro hn
        simp only [decide_eq_true_eq] at hb
        exact absurd hb.1 hn
    · intro w4 hw4
      exact hw4

theorem Burst_HandleFiring (n : Nat) (e : Env) (w : AWSWeapon) (h : BurstInvariant w)
    (hs : w.CurrentState = .EWS_Firing ∨ e.Holder_IsLocallyControlled = false) :
    (HandleFiring (n + 1) e w).Ensures BurstInvariant :=
  Burst_HandleFiring_body _ e w h hs

theorem Burst_HandleReFiring (n : Nat) (e : Env) (w : AWSWeapon) (h : BurstInvariant w)
    (hs : w.CurrentState = .EWS_Firing ∨ e.Holder_IsLocallyControlled = false) :
    (HandleReFiring (n + 1) e w).Ensures BurstInvariant := by
  unfold HandleReFiring
  dsimp only
  split_ifs
  · exact Burst_HandleFiring n e _ h hs
  · exact Burst_HandleFiring n e _ h hs

theorem Burst_StartFire (n : Nat) (e : Env) (w : AWSWeapon) (h : BurstInvariant w) :
    (StartFire (n + 1) e w).Ensures BurstInvariant := by
  unfold StartFire
  refine Ensures_ite (fun _ => ?_) (fun _ => h)
  exact Burst_DetermineWeaponState _ e
    (fun w hw hs => Burst_HandleFiring n e w hw (Or.inl hs)) _ h

theorem Burst_StopFire (n : Nat) (e : Env) (w : AWSWeapon) (h : BurstInvariant w) :
    (StopFire (n + 1) e w).Ensures BurstInvariant := by
  unfold StopFire
  refine Ensures_ite (fun _ => ?_) (fun _ => h)
  exact Burst_DetermineWeaponState _ e
    (fun w hw hs => Burst_HandleFiring n e w hw (Or.inl hs)) _ h

theorem Burst_OnEquipFinished (n : Nat) (e : Env) (w : AWSWeapon) (h : BurstInvariant w) :
    (OnEquipFinished (n + 1) e w).Ensures BurstInvariant := by
  unfold OnEquipFinished
  refine Ensures_andThen (P := BurstInvariant) ?_ ?_
  · exact Burst_DetermineWeaponState _ e
      (fun w hw hs => Burst_HandleFiring n e w hw (Or.inl hs)) _ h
  · intro w1 h1
    refine Ensures_ite (fun _ => ?_) (fun _ => h1)
    exact Ensures_ite (fun _ => Burst_StartReload _ e false w1 h1) (fun _ => h1)

theorem Burst_OnEquip (n : Nat) (e : Env) (l : Bool) (w : AWSWeapon) (h : BurstInvariant w) :
    (OnEquip (n + 1) e l w).Ensures BurstInvariant := by
  unfold OnEquip
  refine Ensures_ite (fun _ => h) (fun _ => ?_)
  refine Ensures_andThen (P := BurstInvariant) ?_ ?_
  · exact Burst_DetermineWeaponState _ e
      (fun w hw hs => Burst_HandleFiring n e w hw (Or.inl hs)) _ h
  · intro w1 h1
    refine Ensures_andThen (P := BurstInvariant) ?_ (fun w2 h2 => Ensures_derefHolder h2)
    refine Ensures_ite (fun _ => ?_) (fun _ => Burst_OnEquipFinished n e w1 h1)
    exact h1

theorem Burst_OnUnEquip (n : Nat) (e : Env) (w : AWSWeapon) (h : BurstInvariant w) :
    (OnUnEquip (n + 1) e w).Ensures BurstInvariant := by
  unfold OnUnEquip
  refine Ensures_andThen (P := BurstInvariant) ?_ ?_
  · exact Burst_StopFire n e _ h
  · intro w1 h1
    refine Ensures_andThen (P := BurstInvariant) ?_ ?_
    · refine Ensures_ite (fun _ => ?_) (fun _ => h1)
      refine Ensures_andThen (Ensures_derefHolder h1) ?_
      intro w2 h2
      exact h2
    · intro w3 h3
      refine Ensures_andThen (P := BurstInvariant) ?_ ?_
      · refine Ensures_ite (fun _ => ?_) (fun _ => h3)
        refine Ensures_andThen (Ensures_derefHolder h3) ?_
        intro w4 h4
        exact h4
      · intro w5 h5
        refine Ensures_andThen (Ensures_derefHolder h5) ?_
        intro w6 h6
        exact Burst_DetermineWeaponState _ e
          (fun w hw hs => Burst_HandleFiring n e w hw (Or.inl hs)) _ h6

theorem Burst_OnLeaveInventory (n : Nat) (e : Env) (w : AWSWeapon) (h : BurstInvariant w) :
    (OnLeaveInventory (n + 1) e w).Ensures BurstInvariant := by
  unfold OnLeaveInventory
  refine Ensures_andThen (P := BurstInvariant) ?_ ?_
  · exact Ensures_ite (fun _ => Burst_OnUnEquip n e w h) (fun _ => h)
  · intro w1 h1
    refine Ensures_ite (fun _ => ?_) (fun _ => h1)
    exact h1

theorem Burst_FireTimerExpired (n : Nat) (e : Env) (w : AWSWeapon) (h : BurstInvariant w) :
    (FireTimerExpired (n + 1) e w).Ensures BurstInvariant := by
  have hF : w.TimerHandle_HandleFiring ≠ none → w.CurrentState = .EWS_Firing := by
    intro ht
    by_contra hs
    exact ht (h hs).2
  unfold FireTimerExpired
  split
  · exact h
  · next d hd =>
    have hs := hF (by rw [hd]; simp)
    exact Burst_HandleFiring n e _ (fun hn => absurd hs hn) (Or.inl hs)
  · next d hd =>
    have hs := hF (by rw [hd]; simp)
    exact Burst_HandleReFiring n e _ (fun hn => absurd hs hn) (Or.inl hs)

theorem Burst_StopReloadTimerExpired (n : Nat) (e : Env) (w : AWSWeapon)
    (h : BurstInvariant w) : (StopReloadTimerExpired (n + 1) e w).Ensures BurstInvariant := by
  unfold StopReloadTimerExpired
  split
  · exact h
  · exact Burst_StopReload _ e (fun w hw hs => Burst_HandleFiring n e w hw (Or.inl hs)) _ h

theorem Burst_ReloadWeapon (e : Env) (w : AWSWeapon) (h : BurstInvariant w) :
    (ReloadWeapon e w).Ensures BurstInvariant := by
  rw [ReloadWeapon_eq]
  exact Ensures_derefHolder h

theorem Burst_ReloadWeaponTimerExpired (e : Env) (w : AWSWeapon) (h : BurstInvariant w) :
    (ReloadWeaponTimerExpired e w).Ensures BurstInvariant := by
  unfold ReloadWeaponTimerExpired
  split
  · exact h
  · exact Burst_ReloadWeapon e _ h

theorem Burst_EquipTimerExpired (n : Nat) (e : Env) (w : AWSWeapon) (h : BurstInvariant w) :
    (EquipTimerExpired (n + 1) e w).Ensures BurstInvariant := by
  unfold EquipTimerExpired
  split
  · exact h
  · exact Burst_OnEquipFinished n e _ h

theorem Burst_GiveAmmo (hf : Env → AWSWeapon → Outcome) (e : Env) (a : Int) (w : AWSWeapon)
    (h : BurstInvariant w) : (GiveAmmo hf e a w).Ensures BurstInvariant := by
  unfold GiveAmmo
  refine Ensures_andThen (P := BurstInvariant) ?_ (fun w2 h2 => Ensures_derefHolder h2)
  refine Ensures_ite (fun _ => ?_) (fun _ => h)
  unfold ClientStartReload ClientStartReload_Implementation
  exact Ensures_ite (fun _ => Burst_StartReload hf e false _ h) (fun _ => h)

/-- Where the holder is not locally controlled and the shot condition holds,
`HandleFiring` only records the time. -/
theorem HandleFiring_notLocal_shoots (hf : Env → AWSWeapon → Outcome) (e : Env)
    (w : AWSWeapon) (hl : e.Holder_IsLocallyControlled = false)
    (hs : HandleFiring.shoots e w = true) :
    HandleFiring.body hf e w = .ok { w with LastFireTime := e.TimeSeconds } := by
  unfold HandleFiring.shoots at hs
  unfold HandleFiring.body
  simp only [hs, hl, Bool.and_false, if_true, Outcome.andThen]
  rfl

theorem Burst_ServerHandleFiring (n : Nat) (e : Env) (w : AWSWeapon) (h : BurstInvariant w)
    (hl : e.Holder_IsLocallyControlled = false)
    (hsf : (0 < w.CurrentAmmoInClip ∧ CanFire e w = true) → w.CurrentState = .EWS_Firing) :
    (ServerHandleFiring_Implementation (n + 1) e w).Ensures BurstInvariant := by
  unfold ServerHandleFiring_Implementation
  by_cases hb : (decide (w.CurrentAmmoInClip > 0) && CanFire e w) = true
  · have hs : w.CurrentState = .EWS_Firing := by
      apply hsf
      simpa using hb
    have hsh : HandleFiring.shoots e w = true := by
      simp only [Bool.and_eq_true] at hb
      simp [HandleFiring.shoots, hb.1, hb.2]
    have hH : HandleFiring (n + 1) e w = .ok { w with LastFireTime := e.TimeSeconds } :=
      HandleFiring_notLocal_shoots _ e w hl hsh
    rw [hH]
    simp only [Outcome.andThen, hb, if_true]
    refine Ensures_andThen
      (UseAmmo_CurrentState e { w with LastFireTime := e.TimeSeconds }) ?_
    intro w2 hw2 hn
    exact absurd (hw2.trans hs) hn
  · refine Ensures_andThen (Burst_HandleFiring n e w h (Or.inr hl)) ?_
    intro w1 h1
    simp only [hb]
    exact h1

/-- Every admitted operation keeps the burst invariant. -/
theorem Burst_Op_run (n : Nat) (e : Env) (op : Op) (w : AWSWeapon) (h : BurstInvariant w)
    (hadm : admServerShotInFiring op e w) :
    (Op.run (n + 1) e op w).Ensures BurstInvariant := by
  have hhf : ∀ w, BurstInvariant w → w.CurrentState = .EWS_Firing →
      (HandleFiring (n + 1) e w).Ensures BurstInvariant :=
    fun w hw hs => Burst_HandleFiring n e w hw (Or.inl hs)
  cases op with
  | StartFire => exact Burst_StartFire n e w h
  | StopFire => exact Burst_StopFire n e w h
  | StartReload b => exact Burst_StartReload _ e b w h
  | StopReload => exact Burst_StopReload _ e hhf w h
  | ReloadWeapon => exact Burst_ReloadWeapon e w h
  | GiveAmmo a => exact Burst_GiveAmmo _ e a w h
  | OnEquip l => exact Burst_OnEquip n e l w h
  | OnEquipFinished => exact Burst_OnEquipFinished n e w h
  | OnUnEquip => exact Burst_OnUnEquip n e w h
  | OnEnterInventory => exact h
  | OnLeaveInventory => exact Burst_OnLeaveInventory n e w h
  | FireTimer => exact Burst_FireTimerExpired n e w h
  | StopReloadTimer => exact Burst_StopReloadTimerExpired n e w h
  | ReloadWeaponTimer => exact Burst_ReloadWeaponTimerExpired e w h
  | EquipTimer => exact Burst_EquipTimerExpired n e w h
  | ServerHandleFiring => exact Burst_ServerHandleFiring n e w h hadm.1 hadm.2

theorem Burst_reach (cfg : FWeaponConfig) (bCatchup : Bool) (w : AWSWeapon)
    (hr : Reach admServerShotInFiring cfg bCatchup w) : BurstInvariant w := by
  induction hr with
  | ctor => intro _; exact ⟨le_refl _, rfl⟩
  | spawn =>
    intro _
    simp only [PostInitializeComponents, AWSWeapon.ctor]
    split_ifs <;> exact ⟨le_refl _, rfl⟩
  | step w w1 op e n _ hadm hrun ih =>
    exact Ensures_of_eq_ok (Burst_Op_run n e op w ih hadm) hrun

/-! ## Fuel, and the scenario traces -/

/-- With one unit of fuel or more, no operation runs out of fuel. -/
theorem Op_run_fuelled (n : Nat) (e : Env) (op : Op) (w : AWSWeapon) :
    (Op.run (n + 1) e op w).Ensures (fun _ => True) := by
  have hP : LedgerProperty (fun _ => True) := fun _ _ _ _ => trivial
  have hU : ∀ w : AWSWeapon, (UseAmmo e w).Ensures (fun _ => True) := by
    intro w; rw [UseAmmo_eq]; exact Ensures_derefHolder trivial
  refine Ledger_Op_run hP n e op w trivial (fun _ w _ _ => hU w) ?_ (fun _ _ => trivial) ?_
  · intro w _
    rw [ReloadWeapon_eq]; exact Ensures_derefHolder trivial
  · intro _
    unfold ServerHandleFiring_Implementation
    refine Ensures_andThen (Ledger_HandleFiring hP n e (fun _ w _ _ => hU w) w trivial) ?_
    intro w1 _
    refine Ensures_ite (fun _ => ?_) (fun _ => trivial)
    exact Ensures_andThen (hU w1) (fun _ _ => trivial)

/-- More fuel than one unit changes nothing. -/
theorem Op_run_fuel (n : Nat) (e : Env) (op : Op) (w : AWSWeapon) :
    Op.run (n + 1) e op w = Op.run 1 e op w := by
  have h : HandleFiring (n + 1) = HandleFiring 1 := by
    rw [HandleFiring_succ n, HandleFiring_succ 0]
  cases op <;>
    simp only [Op.run, StartFire, StopFire, OnEquip, OnEquipFinished, OnUnEquip,
      OnLeaveInventory, FireTimerExpired, StopReloadTimerExpired, EquipTimerExpired,
      ServerHandleFiring_Implementation, HandleReFiring, h]

theorem Scenario_run_enter (e : Env) :
    Op.run 1 e .OnEnterInventory Scenario.spawned = .ok (OnEnterInventory Scenario.spawned) :=
  rfl

theorem Scenario_run_equip :
    Op.run 1 Scenario.serverEnv (.OnEquip false) (OnEnterInventory Scenario.spawned) =
      .ok Scenario.equipped := by rfl

theorem Scenario_run_fire :
    Op.run 1 Scenario.hostEnv .StartFire Scenario.equipped = .ok Scenario.firing := by
  norm_num [Op.run, StartFire, DetermineWeaponState, DetermineWeaponState.NewState,
    SetWeaponState, OnBurstStarted, HandleFiring, HandleFiring.body, UseAmmo, CanFire,
    CanReload, HasInfiniteAmmo, HasInfiniteClip, derefHolder, Outcome.andThen,
    Scenario.equipped, Scenario.firing, Scenario.spawned, Scenario.hostEnv,
    Scenario.serverEnv, Scenario.config, OnEnterInventory, SetOwningComponent,
    PostInitializeComponents, wrapInt32, AWSWeapon.ctor, SetTimer, SMALL_NUMBER]
  decide

theorem Scenario_run_server_shot :
    Op.run 1 Scenario.serverEnv .ServerHandleFiring Scenario.equipped =
      .ok Scenario.idleAfterServerShot := by rfl

/-- The equipped scenario weapon is reachable when entering the inventory and
equipping are admitted. -/
theorem Scenario_reach_equipped (adm : Op → Env → AWSWeapon → Prop)
    (h1 : adm .OnEnterInventory Scenario.serverEnv Scenario.spawned)
    (h2 : adm (.OnEquip false) Scenario.serverEnv (OnEnterInventory Scenario.spawned)) :
    Reach adm Scenario.config true Scenario.equipped :=
  Reach.step _ _ (.OnEquip false) Scenario.serverEnv 0
    (Reach.step _ _ .OnEnterInventory Scenario.serverEnv 0 Reach.spawn h1
      (Scenario_run_enter _)) h2 Scenario_run_equip

/-- The firing scenario weapon is reachable when, in addition, `StartFire` on
the listen server is admitted. -/
theorem Scenario_reach_firing (adm : Op → Env → AWSWeapon → Prop)
    (h1 : adm .OnEnterInventory Scenario.serverEnv Scenario.spawned)
    (h2 : adm (.OnEquip false) Scenario.serverEnv (OnEnterInventory Scenario.spawned))
    (h3 : adm .StartFire Scenario.hostEnv Scenario.equipped) :
    Reach adm Scenario.config true Scenario.firing :=
  Reach.step _ _ .StartFire Scenario.hostEnv 0 (Scenario_reach_equipped adm h1 h2) h3
    Scenario_run_fire

theorem Scenario_run_twoRound_equip :
    Op.run 1 Scenario.hostEnv (.OnEquip false)
        (OnEnterInventory
          (PostInitializeComponents (AWSWeapon.ctor Scenario.twoRoundConfig true))) =
      .ok Scenario.twoRoundEquipped := by rfl

theorem Scenario_run_twoRound_fire :
    Op.run 1 Scenario.hostEnv .StartFire Scenario.twoRoundEquipped =
      .ok Scenario.twoRoundFiring := by
  norm_num [Op.run, StartFire, DetermineWeaponState, DetermineWeaponState.NewState,
    SetWeaponState, OnBurstStarted, HandleFiring, HandleFiring.body, UseAmmo, CanFire,
    CanReload, HasInfiniteAmmo, HasInfiniteClip, derefHolder, Outcome.andThen,
    Scenario.twoRoundEquipped, Scenario.twoRoundFiring, Scenario.twoRoundConfig,
    Scenario.hostEnv, Scenario.serverEnv, Scenario.config, OnEnterInventory,
    SetOwningComponent, PostInitializeComponents, wrapInt32, AWSWeapon.ctor, SetTimer,
    SMALL_NUMBER]
  decide

theorem Scenario_run_twoRound_message :
    Op.run 1 Scenario.hostEnv .ServerHandleFiring Scenario.twoRoundFiring =
      .ok Scenario.twoRoundReloading := by
  norm_num [Op.run, ServerHandleFiring_Implementation, StartReload, OnBurstFinished,
    ClearTimer, DetermineWeaponState, DetermineWeaponState.NewState,
    SetWeaponState, OnBurstStarted, HandleFiring, HandleFiring.body, UseAmmo, CanFire,
    CanReload, HasInfiniteAmmo, HasInfiniteClip, derefHolder, Outcome.andThen,
    Scenario.twoRoundEquipped, Scenario.twoRoundFiring, Scenario.twoRoundReloading,
    Scenario.twoRoundConfig, Scenario.hostEnv, Scenario.serverEnv, Scenario.config,
    OnEnterInventory, SetOwningComponent, PostInitializeComponents, wrapInt32,
    AWSWeapon.ctor, SetTimer, SMALL_NUMBER,
    (by decide : ¬ (EWeaponState.EWS_Reloading = EWeaponState.EWS_Firing)),
    (by decide : ¬ (EWeaponState.EWS_Firing = EWeaponState.EWS_Reloading))]

/-- On the listen server, for a weapon with clips of two rounds: after
`StartFire`, a `ServerHandleFiring` message executed in `EWS_Firing` for the
locally controlled holder ends in `EWS_Reloading`. -/
theorem Scenario_reach_twoRoundReloading :
    Reach admAll Scenario.twoRoundConfig true Scenario.twoRoundReloading :=
  Reach.step _ _ .ServerHandleFiring Scenario.hostEnv 0
    (Reach.step _ _ .StartFire Scenario.hostEnv 0
      (Reach.step _ _ (.OnEquip false) Scenario.hostEnv 0
        (Reach.step _ _ .OnEnterInventory Scenario.hostEnv 0 Reach.spawn trivial (by rfl))
        trivial Scenario_run_twoRound_equip)
      trivial Scenario_run_twoRound_fire)
    trivial Scenario_run_twoRound_message

/-- On the authoritative replica of a remote player's weapon: a
`ServerHandleFiring` message that arrives while the holder may not fire is
executed in `EWS_Idle` and changes nothing; after `StartFire` the next message
is executed in `EWS_Firing` and consumes a round. -/
theorem Scenario_reach_serverFiring (adm : Op → Env → AWSWeapon → Prop)
    (h1 : adm .OnEnterInventory Scenario.serverEnv Scenario.spawned)
    (h2 : adm (.OnEquip false) Scenario.serverEnv (OnEnterInventory Scenario.spawned))
    (h3 : adm .ServerHandleFiring Scenario.serverNoFireEnv Scenario.equipped)
    (h4 : adm .StartFire Scenario.serverEnv Scenario.equipped)
    (h5 : adm .ServerHandleFiring Scenario.serverEnv
      { Scenario.equipped with bWantsToFire := true, CurrentState := .EWS_Firing }) :
    Reach adm Scenario.config true Scenario.serverFiring :=
  Reach.step _ _ .ServerHandleFiring Scenario.serverEnv 0
    (Reach.step _ _ .StartFire Scenario.serverEnv 0
      (Reach.step _ _ .ServerHandleFiring Scenario.serverNoFireEnv 0
        (Scenario_reach_equipped adm h1 h2) h3 (by rfl)) h4 (by rfl)) h5 (by rfl)

/-! ## Invariants of the reachable states -/

/-- C2, amended: for a configuration without infinite flags whose counts are not
negative (`MaxAmmo` being an `int32` value) and whose seed
`InitialClips * AmmoPerClip` does not exceed `MaxAmmo`,
with a holder that reports no infinite flag, `GiveAmmo` called with amounts that
are not negative and `ServerHandleFiring` executed where it is delivered, every
reachable state has `0 ≤ CurrentAmmoInClip ≤ AmmoPerClip` and
`0 ≤ CurrentAmmo ≤ MaxAmmo`. -/
theorem C2_ammo_bounds_amended (cfg : FWeaponConfig) (bCatchup : Bool) (hwf : cfg.WellFormed)
    (hfit : cfg.InitialClips * cfg.AmmoPerClip ≤ cfg.MaxAmmo)
    (hia : cfg.bInfiniteAmmo = false) (hic : cfg.bInfiniteClip = false) (w : AWSWeapon)
    (hr : Reach admNoInfiniteGiveNonneg cfg bCatchup w) :
    AmmoInBounds cfg w := by
  obtain ⟨_, h2, h3, h4, h5⟩ := AmmoBounds_reach cfg bCatchup hwf hfit hia hic w hr
  exact ⟨h2, h3, by omega, h5⟩

/-- C2 as stated fails.  With three clips of 30 rounds and `MaxAmmo = 50` the
spawned weapon holds 90 rounds, more than `MaxAmmo`.  With the scenario
configuration, `GiveAmmo(-100)` on the spawned weapon with a holder returns and
leaves `CurrentAmmo = -10`. -/
theorem C2_ammo_bounds_counterexample :
    (Scenario.smallMaxConfig.WellFormed ∧
      Scenario.smallMaxConfig.bInfiniteAmmo = false ∧
      Scenario.smallMaxConfig.bInfiniteClip = false ∧
      Reach admNoInfinite Scenario.smallMaxConfig true
        (PostInitializeComponents (AWSWeapon.ctor Scenario.smallMaxConfig true)) ∧
      ¬ AmmoInBounds Scenario.smallMaxConfig
        (PostInitializeComponents (AWSWeapon.ctor Scenario.smallMaxConfig true))) ∧
    (Scenario.config.WellFormed ∧
      Scenario.config.bInfiniteAmmo = false ∧ Scenario.config.bInfiniteClip = false ∧
      Reach admNoInfinite Scenario.config true
        { OnEnterInventory Scenario.spawned with CurrentAmmo := -10 } ∧
      ¬ AmmoInBounds Scenario.config
        { OnEnterInventory Scenario.spawned with CurrentAmmo := -10 }) := by
  refine ⟨⟨⟨by decide, by decide, by decide⟩, rfl, rfl, Reach.spawn, ?_⟩,
    ⟨⟨by decide, by decide, by decide⟩, rfl, rfl, ?_, ?_⟩⟩
  · intro h
    have h4 : (90 : Int) ≤ 50 := h.2.2.2
    omega
  · have h1 : Reach admNoInfinite Scenario.config true (OnEnterInventory Scenario.spawned) :=
      Reach.step Scenario.spawned _ .OnEnterInventory Scenario.serverEnv 0 Reach.spawn
        ⟨rfl, rfl⟩ (Scenario_run_enter _)
    exact Reach.step _ _ (.GiveAmmo (-100)) Scenario.serverEnv 0 h1 ⟨rfl, rfl⟩ (by rfl)
  · intro h
    have h3 : (0 : Int) ≤ -10 := h.2.2.1
    omega

/-- C2 at the scenario weapon after its first shot: 29 rounds in a clip of 30,
89 rounds of at most 90. -/
theorem C2_ammo_bounds_amended_witness : AmmoInBounds Scenario.config Scenario.firing :=
  C2_ammo_bounds_amended Scenario.config true ⟨by decide, by decide, by decide⟩
    (by decide) rfl rfl Scenario.firing
    (Scenario_reach_firing _ ⟨rfl, rfl⟩ ⟨rfl, rfl⟩ ⟨rfl, rfl⟩)

/-- A `ServerHandleFiring` message that consumes ammo outside `EWS_Firing`, for a
holder that is not locally controlled and a burst counter that is not
negative, returns with a positive burst counter outside `EWS_Firing`. -/
theorem ServerHandleFiring_outside_firing (n : Nat) (e : Env) (w : AWSWeapon)
    (hl : e.Holder_IsLocallyControlled = false) (hb : 0 ≤ w.BurstCounter)
    (hc : 0 < w.CurrentAmmoInClip ∧ CanFire e w = true)
    (hs : w.CurrentState ≠ .EWS_Firing) :
    ∃ w1, ServerHandleFiring_Implementation (n + 1) e w = .ok w1 ∧
      0 < w1.BurstCounter ∧ w1.CurrentState ≠ .EWS_Firing := by
  have hh : w.WeaponComponent = true := CanFire_holder e w hc.2
  have hbs : (decide (w.CurrentAmmoInClip > 0) && CanFire e w) = true := by
    simp [hc.1, hc.2]
  have hsh : HandleFiring.shoots e w = true := by
    simp [HandleFiring.shoots, hc.1, hc.2]
  have hH : HandleFiring (n + 1) e w = .ok { w with LastFireTime := e.TimeSeconds } :=
    HandleFiring_notLocal_shoots _ e w hl hsh
  obtain ⟨u, hU, _, _, hus, hub, _⟩ :=
    UseAmmo_returns e { w with LastFireTime := e.TimeSeconds } hh
  refine ⟨{ u with BurstCounter := u.BurstCounter + 1 }, ?_, ?_, ?_⟩
  · unfold ServerHandleFiring_Implementation
    rw [hH]
    show (if (decide (w.CurrentAmmoInClip > 0) && CanFire e w) = true then
      (UseAmmo e { w with LastFireTime := e.TimeSeconds }).andThen
        (fun w2 => Outcome.ok { w2 with BurstCounter := w2.BurstCounter + 1 })
      else Outcome.ok { w with LastFireTime := e.TimeSeconds }) = _
    rw [if_pos hbs, hU]
    rfl
  · show 0 < u.BurstCounter + 1
    rw [hub]
    show 0 < w.BurstCounter + 1
    omega
  · show u.CurrentState ≠ .EWS_Firing
    rw [hus]
    exact hs

/-- C4, amended: in every state reachable from the constructor's state through
the operations, where each inbound `ServerHandleFiring` is executed for a
holder that is not locally controlled and, when it finds
`CurrentAmmoInClip > 0` and `CanFire()` true on entry, while the replica is in
`EWS_Firing`, `BurstCounter > 0` implies `CurrentState = EWS_Firing`; so does a
pending refire callback.  The condition on the message is needed: executed in
such a state outside `EWS_Firing`, with a burst counter that is not negative,
a message that finds `CurrentAmmoInClip > 0` and `CanFire()` true returns with
`BurstCounter > 0` outside `EWS_Firing`. -/
theorem C4_burst_implies_firing_amended (cfg : FWeaponConfig) (bCatchup : Bool)
    (w : AWSWeapon) (hr : Reach admServerShotInFiring cfg bCatchup w) :
    (0 < w.BurstCounter → w.CurrentState = .EWS_Firing) ∧
    (w.TimerHandle_HandleFiring ≠ none → w.CurrentState = .EWS_Firing) ∧
    (∀ (n : Nat) (e : Env), e.Holder_IsLocallyControlled = false → 0 ≤ w.BurstCounter →
      (0 < w.CurrentAmmoInClip ∧ CanFire e w = true) → w.CurrentState ≠ .EWS_Firing →
      ∃ w1, ServerHandleFiring_Implementation (n + 1) e w = .ok w1 ∧
        0 < w1.BurstCounter ∧ w1.CurrentState ≠ .EWS_Firing) := by
  have h := Burst_reach cfg bCatchup w hr
  refine ⟨?_, ?_, fun n e => ServerHandleFiring_outside_firing n e w⟩
  · intro hb
    by_contra hs
    have := (h hs).1
    omega
  · intro ht
    by_contra hs
    exact ht (h hs).2

/-- C4 as stated fails.  The scenario weapon is spawned, taken by its holder and
equipped; it is in `EWS_Idle` when a `ServerHandleFiring` message is executed
on the authoritative replica.  `CanFire()` holds in `EWS_Idle`, so a round is
consumed and `BurstCounter` becomes 1 while `CurrentState` stays `EWS_Idle`.
And for a locally controlled holder the state on entry does not help: with one
round left in a clip of two, a message executed in `EWS_Firing` on the listen
server fires the last round, starts the reload, and then counts a shot:
`BurstCounter` is 1 in `EWS_Reloading`. -/
theorem C4_burst_implies_firing_counterexample :
    (Reach admAll Scenario.config true Scenario.idleAfterServerShot ∧
      0 < Scenario.idleAfterServerShot.BurstCounter ∧
      Scenario.idleAfterServerShot.CurrentState = .EWS_Idle ∧
      ¬ (0 < Scenario.idleAfterServerShot.BurstCounter →
        Scenario.idleAfterServerShot.CurrentState = .EWS_Firing)) ∧
    (Reach admAll Scenario.twoRoundConfig true Scenario.twoRoundReloading ∧
      Scenario.hostEnv.Holder_IsLocallyControlled = true ∧
      Scenario.twoRoundFiring.CurrentState = .EWS_Firing ∧
      Op.run 1 Scenario.hostEnv .ServerHandleFiring Scenario.twoRoundFiring =
        .ok Scenario.twoRoundReloading ∧
      0 < Scenario.twoRoundReloading.BurstCounter ∧
      Scenario.twoRoundReloading.CurrentState = .EWS_Reloading ∧
      ¬ (0 < Scenario.twoRoundReloading.BurstCounter →
        Scenario.twoRoundReloading.CurrentState = .EWS_Firing)) := by
  refine ⟨⟨?_, by decide, rfl, ?_⟩,
    ⟨Scenario_reach_twoRoundReloading, rfl, rfl, Scenario_run_twoRound_message, by decide,
      rfl, ?_⟩⟩
  · exact Reach.step _ _ .ServerHandleFiring Scenario.serverEnv 0
      (Scenario_reach_equipped _ trivial trivial) trivial Scenario_run_server_shot
  · intro h
    exact absurd (h (by decide)) (by decide)
  · intro h
    exact absurd (h (by decide)) (by decide)

/-- C4 on the authoritative replica of a remote player's weapon: a message that
arrives while the holder may not fire is executed in `EWS_Idle` and consumes
nothing; after `StartFire`, a message executed in `EWS_Firing` consumes a
round; the burst counter is then 1 and the weapon is in `EWS_Firing`. -/
theorem C4_burst_implies_firing_amended_witness :
    0 < Scenario.serverFiring.BurstCounter ∧
    Scenario.equipped.CurrentState = .EWS_Idle ∧
    (0 < Scenario.serverFiring.BurstCounter →
      Scenario.serverFiring.CurrentState = .EWS_Firing) ∧
    (Scenario.serverFiring.TimerHandle_HandleFiring ≠ none →
      Scenario.serverFiring.CurrentState = .EWS_Firing) :=
  have h := C4_burst_implies_firing_amended Scenario.config true Scenario.serverFiring
    (Scenario_reach_serverFiring _ trivial trivial
      ⟨rfl, fun h => absurd h.2 (by decide)⟩ trivial ⟨rfl, fun _ => rfl⟩)
  ⟨by decide, rfl, h.1, h.2.1⟩

/-! ## Concrete checks -/

/-- Why `ServerHandleFiring` is tied to a holder that is not locally controlled:
on a locally controlled replica `HandleFiring` already consumes a round, so the
message consumes two.  With one round left the counts end at -1. -/
theorem ServerHandleFiring_locallyControlled :
    ServerHandleFiring_Implementation 1 Scenario.hostEnv
      { Scenario.equipped with CurrentAmmoInClip := 1, CurrentAmmo := 1 } =
    .ok { Scenario.equipped with
      CurrentAmmoInClip := -1, CurrentAmmo := -1, BurstCounter := 2 } := by
  rfl

/-- C1 at the equipped scenario weapon with `bWantsToFire` set and a holder that
permits firing: the selected state is `EWS_Firing`. -/
theorem C1_DetermineWeaponState_selects_witness :
    DetermineWeaponState.NewState Scenario.hostEnv
      { Scenario.equipped with bWantsToFire := true } = EWeaponState.EWS_Firing :=
  ((C1_DetermineWeaponState_selects (HandleFiring 1) Scenario.hostEnv
    { Scenario.equipped with bWantsToFire := true }).2).trans (by rfl)

/-- C5 at the scenario of the specification: an empty clip and 10 rounds give a
clip of `min 30 10`. -/
theorem C5_ReloadWeapon_effect_witness :
    (ReloadWeapon Scenario.serverEnv
      { Scenario.equipped with
        CurrentAmmoInClip := 0, CurrentAmmo := 10 }).state.CurrentAmmoInClip = min 30 10 :=
  (C5_ReloadWeapon_effect Scenario.serverEnv
    { Scenario.equipped with CurrentAmmoInClip := 0, CurrentAmmo := 10 }).2.2.2.2.1
    rfl rfl rfl (by decide)

/-- C7 at the equipped scenario weapon: both counts drop by one. -/
theorem C7_UseAmmo_effect_witness :
    (UseAmmo Scenario.serverEnv Scenario.equipped).state.CurrentAmmoInClip = 30 - 1 ∧
    (UseAmmo Scenario.serverEnv Scenario.equipped).state.CurrentAmmo = 90 - 1 :=
  ⟨(C7_UseAmmo_effect Scenario.serverEnv Scenario.equipped).2.1.2 rfl,
   (C7_UseAmmo_effect Scenario.serverEnv Scenario.equipped).2.2.2.1.2 ⟨rfl, rfl⟩⟩

/-- C8 at the scenario of the specification: an empty clip, 10 rounds, an idle
weapon and a holder that permits the reload. -/
theorem C8_CanReload_iff_witness :
    CanReload Scenario.serverEnv
      { Scenario.equipped with CurrentAmmoInClip := 0, CurrentAmmo := 10 } = true :=
  (C8_CanReload_iff Scenario.serverEnv
    { Scenario.equipped with CurrentAmmoInClip := 0, CurrentAmmo := 10 }).2
    ⟨fun _ => rfl, by decide, Or.inl (by decide), Or.inl rfl⟩

/-! ## State changes -/

/-- C19: from `EWS_Firing` to any other state, `SetWeaponState` returns with
`CurrentState` the target, `BurstCounter = 0`, `bRefiring` false,
`TimerIntervalAdjustment = 0` and no refire callback pending, every other field
as it was; from `EWS_Firing` to `EWS_Firing`, and between two states other than
`EWS_Firing`, it only assigns the state: neither burst start nor burst finish
runs, whatever `HandleFiring` would do. -/
theorem C19_SetWeaponState_burst (hf : Env → AWSWeapon → Outcome) (e : Env)
    (s : EWeaponState) (w : AWSWeapon) :
    (w.CurrentState = .EWS_Firing → s ≠ .EWS_Firing →
      SetWeaponState hf e s w =
        .ok { w with
          CurrentState := s
          BurstCounter := 0
          bRefiring := false
          TimerIntervalAdjustment := 0
          TimerHandle_HandleFiring := none }) ∧
    (w.CurrentState = .EWS_Firing → s = .EWS_Firing →
      SetWeaponState hf e s w = .ok { w with CurrentState := s }) ∧
    (w.CurrentState ≠ .EWS_Firing → s ≠ .EWS_Firing →
      SetWeaponState hf e s w = .ok { w with CurrentState := s }) := by
  refine ⟨?_, ?_, ?_⟩
  · intro h1 h2
    simp [SetWeaponState, h1, h2, OnBurstFinished, ClearTimer]
  · intro h1 h2
    simp [SetWeaponState, h1, h2]
  · intro h1 h2
    simp [SetWeaponState, h1, h2]

/-- C19 at the firing scenario weapon: going to `EWS_Idle` finishes the burst. -/
theorem C19_SetWeaponState_burst_witness :
    SetWeaponState (HandleFiring 1) Scenario.hostEnv .EWS_Idle Scenario.firing =
      .ok { Scenario.firing with
        CurrentState := .EWS_Idle
        BurstCounter := 0
        bRefiring := false
        TimerIntervalAdjustment := 0
        TimerHandle_HandleFiring := none } :=
  (C19_SetWeaponState_burst (HandleFiring 1) Scenario.hostEnv .EWS_Idle Scenario.firing).1
    rfl (by decide)

/-- With the weapon equipped, in `EWS_Reloading` and no reload pending,
`DetermineWeaponState` selects `EWS_Idle`. -/
theorem NewState_afterReload (e : Env) (w : AWSWeapon) (hq : w.bIsEquipped = true)
    (hs : w.CurrentState = .EWS_Reloading) (hp : w.bPendingReload = false) :
    DetermineWeaponState.NewState e w = .EWS_Idle := by
  simp [DetermineWeaponState.NewState, hq, hp, CanFire, hs]

/-- C20: for an equipped weapon in `EWS_Reloading`, whatever `bWantsToFire`, the
holder's answers and the ammo counts are, `StopReload` ends with `bPendingReload`
false and `CurrentState = EWS_Idle` and every other field as it was, so no shot
is fired; with a holder it returns. -/
theorem C20_StopReload_ends_idle (hf : Env → AWSWeapon → Outcome) (e : Env) (w : AWSWeapon)
    (hq : w.bIsEquipped = true) (hs : w.CurrentState = .EWS_Reloading) :
    (StopReload hf e w).state =
      { w with bPendingReload := false, CurrentState := .EWS_Idle } ∧
    (StopReload hf e w).state.CurrentState ≠ .EWS_Firing ∧
    (w.WeaponComponent = true →
      StopReload hf e w = .ok { w with bPendingReload := false, CurrentState := .EWS_Idle }) := by
  have hN : DetermineWeaponState.NewState e { w with bPendingReload := false } = .EWS_Idle :=
    NewState_afterReload e _ hq hs rfl
  have hD : DetermineWeaponState hf e { w with bPendingReload := false } =
      .ok { w with bPendingReload := false, CurrentState := .EWS_Idle } := by
    unfold DetermineWeaponState
    rw [hN]
    simp [SetWeaponState, hs]
  have hS : StopReload hf e w =
      derefHolder { w with bPendingReload := false, CurrentState := .EWS_Idle } := by
    unfold StopReload
    rw [if_pos hs, hD]
    rfl
  rw [hS, derefHolder_state]
  refine ⟨rfl, by simp, fun hh => derefHolder_ok _ hh⟩

/-- C20 at the scenario weapon while it reloads with the trigger held. -/
theorem C20_StopReload_ends_idle_witness :
    StopReload (HandleFiring 1) Scenario.hostEnv
      { Scenario.equipped with
        bWantsToFire := true, bPendingReload := true, CurrentState := .EWS_Reloading } =
    .ok { Scenario.equipped with
        bWantsToFire := true, bPendingReload := false, CurrentState := .EWS_Idle } :=
  (C20_StopReload_ends_idle (HandleFiring 1) Scenario.hostEnv
    { Scenario.equipped with
      bWantsToFire := true, bPendingReload := true, CurrentState := .EWS_Reloading }
    rfl rfl).2.2 rfl

/-! ## Timing of the burst start and of the reload -/

/-- Entering `EWS_Firing` from another state assigns the state and starts the
burst. -/
theorem SetWeaponState_enter (hf : Env → AWSWeapon → Outcome) (e : Env) (w : AWSWeapon)
    (h : w.CurrentState ≠ .EWS_Firing) :
    SetWeaponState hf e .EWS_Firing w =
      OnBurstStarted hf e { w with CurrentState := .EWS_Firing } := by
  unfold SetWeaponState
  simp only [h, ne_eq, not_false_eq_true, not_true_eq_false, and_false, and_self, if_false,
    if_true]

/-- When its guard fails, `OnBurstStarted` is `HandleFiring`. -/
theorem OnBurstStarted_immediate (hf : Env → AWSWeapon → Outcome) (e : Env) (w : AWSWeapon)
    (h : ¬ (w.LastFireTime > 0 ∧ w.WeaponConfig.TimeBetweenShots > 0 ∧
      float32 (w.LastFireTime + w.WeaponConfig.TimeBetweenShots) > e.TimeSeconds)) :
    OnBurstStarted hf e w = hf e w := by
  unfold OnBurstStarted
  exact if_neg h

/-- C12, amended: with `TimeBetweenShots > 0` and a recorded shot time
`LastFireTime > 0`, a burst started at a time `now` below the `float` sum
`LastFireTime + TimeBetweenShots` fires no shot: `OnBurstStarted` only schedules
`HandleFiring` after exactly the `float` difference of that sum and `now`, and
so does `SetWeaponState` when it enters `EWS_Firing` from another state; the
ammo counts and `BurstCounter` are as they were. -/
theorem C12_burst_start_deferred_amended (hf : Env → AWSWeapon → Outcome) (e : Env)
    (w : AWSWeapon) (hL : 0 < w.LastFireTime) (hT : 0 < w.WeaponConfig.TimeBetweenShots)
    (hnow : e.TimeSeconds < float32 (w.LastFireTime + w.WeaponConfig.TimeBetweenShots)) :
    OnBurstStarted hf e w =
      .ok { w with
        TimerHandle_HandleFiring :=
          some (FireCallback.HandleFiring,
            float32 (float32 (w.LastFireTime + w.WeaponConfig.TimeBetweenShots) -
              e.TimeSeconds)) } ∧
    (w.CurrentState ≠ .EWS_Firing →
      SetWeaponState hf e .EWS_Firing w =
        .ok { w with
          CurrentState := .EWS_Firing
          TimerHandle_HandleFiring :=
            some (FireCallback.HandleFiring,
              float32 (float32 (w.LastFireTime + w.WeaponConfig.TimeBetweenShots) -
                e.TimeSeconds)) }) := by
  constructor
  · unfold OnBurstStarted
    simp only [gt_iff_lt, hL, hT, hnow, and_self, if_true, SetTimer]
  · intro hs
    unfold SetWeaponState OnBurstStarted
    simp only [gt_iff_lt, hL, hT, hnow, hs, and_self, if_true, SetTimer, ne_eq,
      not_false_eq_true, not_true_eq_false, and_false, if_false]

/-- C12 with a shot recorded at `t = 1`, `TimeBetweenShots = 0.125` and a burst
started at `t = 1.0625`, all of them `float` values: the shot is deferred by
0.0625, to `t = 1.125`. -/
theorem C12_burst_start_deferred_amended_witness :
    OnBurstStarted (HandleFiring 1) (Scenario.hostEnvAt (17 / 16)) Scenario.shotAtOne =
      .ok { Scenario.shotAtOne with
        TimerHandle_HandleFiring := some (FireCallback.HandleFiring, 1 / 16) } ∧
    ((1 : ℚ) / 16) + 17 / 16 = 1 + 1 / 8 := by
  have hT : Scenario.shotAtOne.WeaponConfig.TimeBetweenShots = 1 / 8 := rfl
  have hL : Scenario.shotAtOne.LastFireTime = 1 := rfl
  have hG : (Scenario.hostEnvAt (17 / 16)).TimeSeconds = 17 / 16 := rfl
  have h := (C12_burst_start_deferred_amended (HandleFiring 1) (Scenario.hostEnvAt (17 / 16))
    Scenario.shotAtOne (by rw [hL]; norm_num) (by rw [hT]; norm_num)
    (by rw [hL, hT, hG, float32_nine_eighths]; norm_num)).1
  rw [hL, hT, hG, float32_nine_eighths, float32_sixteenth] at h
  exact ⟨h, by norm_num⟩

/-- C12 as stated fails in two ways.  At `LastFireTime = 0`, the scenario of the
specification: with `TimeBetweenShots = 0.1`, a shot recorded at `t = 0` and a
burst started at `t = 0.05`, entering `EWS_Firing` fires at once; a round is
consumed, `BurstCounter` becomes 1, and the callback that is scheduled is the
next `HandleReFiring`.  And where the `float` sum is rounded down to `now`: with
`TimeBetweenShots = 1/64`, a shot recorded at `t = 262144` and a burst started
at `t = 262144`, the sum `262144 + 1/64` is stored as 262144, and entering
`EWS_Firing` fires at once. -/
theorem C12_burst_start_deferred_counterexample :
    (Scenario.equipped.LastFireTime ≤ (Scenario.hostEnvAt (1 / 20)).TimeSeconds ∧
      (Scenario.hostEnvAt (1 / 20)).TimeSeconds <
        Scenario.equipped.LastFireTime + Scenario.equipped.WeaponConfig.TimeBetweenShots ∧
      0 < Scenario.equipped.WeaponConfig.TimeBetweenShots ∧
      Scenario.equipped.CurrentState ≠ .EWS_Firing ∧
      SetWeaponState (HandleFiring 1) (Scenario.hostEnvAt (1 / 20)) .EWS_Firing
          Scenario.equipped =
        .ok { Scenario.equipped with
          CurrentState := .EWS_Firing
          CurrentAmmo := 89
          CurrentAmmoInClip := 29
          BurstCounter := 1
          bRefiring := true
          LastFireTime := 1 / 20
          TimerHandle_HandleFiring :=
            some (FireCallback.HandleReFiring, 1 / 10) }) ∧
    (Scenario.shotLate.LastFireTime ≤ (Scenario.hostEnvAt 262144).TimeSeconds ∧
      (Scenario.hostEnvAt 262144).TimeSeconds <
        Scenario.shotLate.LastFireTime + Scenario.shotLate.WeaponConfig.TimeBetweenShots ∧
      0 < Scenario.shotLate.WeaponConfig.TimeBetweenShots ∧
      0 < Scenario.shotLate.LastFireTime ∧
      Scenario.shotLate.CurrentState ≠ .EWS_Firing ∧
      SetWeaponState (HandleFiring 1) (Scenario.hostEnvAt 262144) .EWS_Firing
          Scenario.shotLate =
        .ok { Scenario.shotLate with
          CurrentState := .EWS_Firing
          CurrentAmmo := 89
          CurrentAmmoInClip := 29
          BurstCounter := 1
          bRefiring := true
          TimerHandle_HandleFiring :=
            some (FireCallback.HandleReFiring, 1 / 64) }) := by
  refine ⟨⟨?_, ?_, ?_, by decide, ?_⟩, ⟨?_, ?_, ?_, ?_, by decide, ?_⟩⟩
  · norm_num [Scenario.equipped, OnEnterInventory, SetOwningComponent,
      Scenario.spawned, PostInitializeComponents, AWSWeapon.ctor, Scenario.config,
      Scenario.hostEnvAt, Scenario.hostEnv, Scenario.serverEnv]
  · norm_num [Scenario.equipped, OnEnterInventory, SetOwningComponent,
      Scenario.spawned, PostInitializeComponents, AWSWeapon.ctor, Scenario.config,
      Scenario.hostEnvAt, Scenario.hostEnv, Scenario.serverEnv]
  · norm_num [Scenario.equipped, OnEnterInventory, SetOwningComponent,
      Scenario.spawned, PostInitializeComponents, AWSWeapon.ctor, Scenario.config]
  · norm_num [SetWeaponState, OnBurstStarted, HandleFiring, HandleFiring.body, UseAmmo,
      CanFire, CanReload, HasInfiniteAmmo, HasInfiniteClip, derefHolder, Outcome.andThen,
      Scenario.equipped, Scenario.spawned, Scenario.hostEnvAt, Scenario.hostEnv,
      Scenario.serverEnv, Scenario.config, OnEnterInventory, SetOwningComponent,
      PostInitializeComponents, wrapInt32, AWSWeapon.ctor, SetTimer, SMALL_NUMBER]
    decide
  · norm_num [Scenario.shotLate, Scenario.hostEnvAt]
  · norm_num [Scenario.shotLate, Scenario.sixtyFourthConfig, Scenario.hostEnvAt]
  · norm_num [Scenario.shotLate, Scenario.sixtyFourthConfig]
  · norm_num [Scenario.shotLate]
  · have hg : ¬ (({ Scenario.shotLate with CurrentState := EWeaponState.EWS_Firing } :
          AWSWeapon).LastFireTime > 0 ∧
        ({ Scenario.shotLate with CurrentState := EWeaponState.EWS_Firing } :
          AWSWeapon).WeaponConfig.TimeBetweenShots > 0 ∧
        float32 (({ Scenario.shotLate with CurrentState := EWeaponState.EWS_Firing } :
            AWSWeapon).LastFireTime +
          ({ Scenario.shotLate with CurrentState := EWeaponState.EWS_Firing } :
            AWSWeapon).WeaponConfig.TimeBetweenShots) >
          (Scenario.hostEnvAt 262144).TimeSeconds) := by
      rintro ⟨_, _, h3⟩
      have h4 : float32 (262144 + 1 / 64) > 262144 := h3
      rw [float32_late_sum] at h4
      exact lt_irrefl _ h4
    rw [SetWeaponState_enter _ _ _ (by decide), OnBurstStarted_immediate _ _ _ hg]
    norm_num [HandleFiring, HandleFiring.body, UseAmmo,
      CanFire, CanReload, HasInfiniteAmmo, HasInfiniteClip, derefHolder, Outcome.andThen,
      Scenario.shotLate, Scenario.sixtyFourthConfig,
      Scenario.equipped, Scenario.spawned, Scenario.hostEnvAt, Scenario.hostEnv,
      Scenario.serverEnv, Scenario.config, OnEnterInventory, SetOwningComponent,
      PostInitializeComponents, wrapInt32, AWSWeapon.ctor, SetTimer, SMALL_NUMBER]

/-- The state after `StartReload` took effect for a weapon with a holder. -/
theorem StartReload_takes_effect (hf : Env → AWSWeapon → Outcome) (e : Env) (b : Bool)
    (w : AWSWeapon) (hh : w.WeaponComponent = true) (hc : (b || CanReload e w) = true) :
    StartReload hf e b w =
      .ok (StartReload.scheduled e (SetWeaponState.settled
        (DetermineWeaponState.NewState e { w with bPendingReload := true })
        { w with bPendingReload := true })) := by
  rw [StartReload_eq, if_pos hc, derefHolder_ok]
  · rfl
  · rw [settled_WeaponComponent]; exact hh

theorem settled_WeaponConfig (s : EWeaponState) (w : AWSWeapon) :
    (SetWeaponState.settled s w).WeaponConfig = w.WeaponConfig :=
  (SameLedger_settled s w).1

theorem scheduled_StopReload (e : Env) (w : AWSWeapon) :
    (StartReload.scheduled e w).TimerHandle_StopReload = some (StartReload.duration e w) := by
  unfold StartReload.scheduled StartReload.duration
  dsimp only
  split_ifs <;> rfl

theorem scheduled_ReloadWeapon (e : Env) (w : AWSWeapon) (ha : e.bAuthority = true) :
    (StartReload.scheduled e w).TimerHandle_ReloadWeapon =
      some (max FLOAT_0_1 (float32 (StartReload.duration e w - FLOAT_0_1))) := by
  unfold StartReload.scheduled StartReload.duration
  dsimp only
  simp only [ha, if_true]
  split_ifs <;> rfl

theorem duration_settled (e : Env) (s : EWeaponState) (w : AWSWeapon) :
    StartReload.duration e (SetWeaponState.settled s w) = StartReload.duration e w := by
  unfold StartReload.duration
  rw [settled_WeaponConfig]

/-- C13, amended: when `StartReload` takes effect with authority for a weapon
with a holder, the `StopReload` callback is scheduled after the reload duration
`d` and the `ReloadWeapon` callback after `max 0.1f (d - 0.1f)`, the difference
being a `float`; that delay is strictly smaller than `d` exactly when
`d > 0.1f` and the `float` difference `d - 0.1f` is below `d`, which is so for
every `d` with `0.1f < d < 2097152`. -/
theorem C13_reload_before_stop_amended (hf : Env → AWSWeapon → Outcome) (e : Env) (b : Bool)
    (w : AWSWeapon) (hh : w.WeaponComponent = true) (ha : e.bAuthority = true)
    (hc : (b || CanReload e w) = true) :
    ∃ w1, StartReload hf e b w = .ok w1 ∧
      w1.TimerHandle_StopReload = some (StartReload.duration e w) ∧
      w1.TimerHandle_ReloadWeapon =
        some (max FLOAT_0_1 (float32 (StartReload.duration e w - FLOAT_0_1))) ∧
      (max FLOAT_0_1 (float32 (StartReload.duration e w - FLOAT_0_1)) <
          StartReload.duration e w ↔
        FLOAT_0_1 < StartReload.duration e w ∧
          float32 (StartReload.duration e w - FLOAT_0_1) < StartReload.duration e w) ∧
      (FLOAT_0_1 < StartReload.duration e w → StartReload.duration e w < 2097152 →
        max FLOAT_0_1 (float32 (StartReload.duration e w - FLOAT_0_1)) <
          StartReload.duration e w) := by
  refine ⟨_, StartReload_takes_effect hf e b w hh hc, ?_, ?_, max_lt_iff, ?_⟩
  · rw [scheduled_StopReload, duration_settled]; rfl
  · rw [scheduled_ReloadWeapon _ _ ha, duration_settled]; rfl
  · intro h1 h2
    exact max_lt h1 (float32_sub_tenth_lt _ h1 h2)

/-- C13 at the scenario weapon with an empty clip and 10 rounds: the fallback
duration is 2 seconds, and the ammo is applied before the reload stops. -/
theorem C13_reload_before_stop_amended_witness :
    StartReload.duration Scenario.hostEnv Scenario.emptyClip = 2 ∧
    ∃ w1, StartReload (HandleFiring 1) Scenario.hostEnv false Scenario.emptyClip = .ok w1 ∧
      w1.TimerHandle_StopReload =
        some (StartReload.duration Scenario.hostEnv Scenario.emptyClip) ∧
      w1.TimerHandle_ReloadWeapon =
        some (max FLOAT_0_1
          (float32 (StartReload.duration Scenario.hostEnv Scenario.emptyClip - FLOAT_0_1))) ∧
      (max FLOAT_0_1
            (float32 (StartReload.duration Scenario.hostEnv Scenario.emptyClip - FLOAT_0_1)) <
          StartReload.duration Scenario.hostEnv Scenario.emptyClip ↔
        FLOAT_0_1 < StartReload.duration Scenario.hostEnv Scenario.emptyClip ∧
          float32 (StartReload.duration Scenario.hostEnv Scenario.emptyClip - FLOAT_0_1) <
            StartReload.duration Scenario.hostEnv Scenario.emptyClip) ∧
      (FLOAT_0_1 < StartReload.duration Scenario.hostEnv Scenario.emptyClip →
        StartReload.duration Scenario.hostEnv Scenario.emptyClip < 2097152 →
        max FLOAT_0_1
            (float32 (StartReload.duration Scenario.hostEnv Scenario.emptyClip - FLOAT_0_1)) <
          StartReload.duration Scenario.hostEnv Scenario.emptyClip) :=
  ⟨by rfl,
   C13_reload_before_stop_amended (HandleFiring 1) Scenario.hostEnv false Scenario.emptyClip
    rfl rfl (by rfl)⟩

/-- C13 as stated fails in two ways.  For a reload animation of 0.05 seconds
`StartReload` takes effect with authority, the `StopReload` callback is
scheduled after 0.05 seconds and the `ReloadWeapon` callback after
`max 0.1f (0.05 - 0.1f) = 0.1f`, which is later.  For a reload animation of
2097152.25 seconds the `float` difference `2097152.25 - 0.1f` is 2097152.25:
both callbacks are scheduled after the same delay. -/
theorem C13_reload_before_stop_counterexample :
    ((0 : ℚ) < 1 / 20 ∧
      StartReload (HandleFiring 1) { Scenario.hostEnv with ReloadAnimDuration := 1 / 20 } false
          Scenario.emptyClip =
        .ok { Scenario.emptyClip with
          bPendingReload := true
          CurrentState := .EWS_Reloading
          TimerHandle_StopReload := some (1 / 20)
          TimerHandle_ReloadWeapon := some FLOAT_0_1 } ∧
      ¬ (FLOAT_0_1 < 1 / 20)) ∧
    ((0 : ℚ) < 8388609 / 4 ∧
      StartReload (HandleFiring 1)
          { Scenario.hostEnv with ReloadAnimDuration := 8388609 / 4 } false
          Scenario.emptyClip =
        .ok { Scenario.emptyClip with
          bPendingReload := true
          CurrentState := .EWS_Reloading
          TimerHandle_StopReload := some (8388609 / 4)
          TimerHandle_ReloadWeapon := some (8388609 / 4) }) := by
  have h1 : max FLOAT_0_1 (float32 (1 / 20 - FLOAT_0_1)) = FLOAT_0_1 :=
    max_eq_left ((float32_nonpos _ (by norm_num [FLOAT_0_1])).trans
      (by norm_num [FLOAT_0_1]))
  have h2 : max FLOAT_0_1 (float32 (8388609 / 4 - FLOAT_0_1)) = 8388609 / 4 := by
    rw [float32_long_reload]
    exact max_eq_right (by norm_num [FLOAT_0_1])
  refine ⟨⟨by norm_num, ?_, by norm_num [FLOAT_0_1]⟩, ⟨by norm_num, ?_⟩⟩
  · rw [StartReload_takes_effect _ _ _ _ rfl (by rfl)]
    norm_num [h1, StartReload.scheduled, SetWeaponState.settled, DetermineWeaponState.NewState,
      CanReload, HasInfiniteClip, Scenario.emptyClip, Scenario.equipped, Scenario.spawned,
      Scenario.hostEnv, Scenario.serverEnv, Scenario.config, OnEnterInventory,
      SetOwningComponent, PostInitializeComponents, wrapInt32, AWSWeapon.ctor, SetTimer,
      (by decide : EWeaponState.EWS_Idle ≠ EWeaponState.EWS_Firing)]
  · rw [StartReload_takes_effect _ _ _ _ rfl (by rfl)]
    norm_num [h2, StartReload.scheduled, SetWeaponState.settled, DetermineWeaponState.NewState,
      CanReload, HasInfiniteClip, Scenario.emptyClip, Scenario.equipped, Scenario.spawned,
      Scenario.hostEnv, Scenario.serverEnv, Scenario.config, OnEnterInventory,
      SetOwningComponent, PostInitializeComponents, wrapInt32, AWSWeapon.ctor, SetTimer,
      (by decide : EWeaponState.EWS_Idle ≠ EWeaponState.EWS_Firing)]

/-! ## Fields the call cycle leaves alone, and normal return -/

theorem Yields_andThen {h : Bool} {P Q : AWSWeapon → Prop} {o : Outcome}
    {f : AWSWeapon → Outcome} (ho : o.Yields h P) (hf : ∀ w, P w → (f w).Yields h Q) :
    (o.andThen f).Yields h Q := by
  cases o with
  | ok w => exact hf w ho
  | nullHolder w => exact ho
  | outOfFuel w => exact ho

theorem Yields_mono {h : Bool} {P Q : AWSWeapon → Prop} {o : Outcome}
    (ho : o.Yields h P) (hPQ : ∀ w, P w → Q w) : o.Yields h Q := by
  cases o with
  | ok w => exact hPQ w ho
  | nullHolder w => exact ho
  | outOfFuel w => exact ho

theorem Yields_ite {h : Bool} {P : AWSWeapon → Prop} {c : Prop} [Decidable c] {a b : Outcome}
    (ha : c → a.Yields h P) (hb : ¬ c → b.Yields h P) : (if c then a else b).Yields h P := by
  split_ifs with hc
  · exact ha hc
  · exact hb hc

theorem Yields_derefHolder {P : AWSWeapon → Prop} {w : AWSWeapon} (h : P w) :
    (derefHolder w).Yields w.WeaponComponent P := by
  unfold derefHolder
  split_ifs with hc
  · exact h
  · simpa using hc

/-- With a holder, an operation that yields `P` returns a state that satisfies
`P`. -/
theorem Yields_returns {P : AWSWeapon → Prop} {o : Outcome} (ho : o.Yields true P) :
    ∃ w, o = .ok w ∧ P w := by
  cases o with
  | ok w => exact ⟨w, rfl, ho⟩
  | nullHolder w => exact absurd (show true = false from ho) (by decide)
  | outOfFuel w => exact absurd ho id

theorem Yields_of_eq_ok {h : Bool} {P : AWSWeapon → Prop} {o : Outcome} {w : AWSWeapon}
    (ho : o.Yields h P) (hw : o = .ok w) : P w := by
  subst hw; exact ho

theorem Stable_refl (w : AWSWeapon) : Stable w w := ⟨rfl, rfl, rfl, rfl, rfl, rfl⟩

theorem Stable_trans {a b c : AWSWeapon} (h1 : Stable a b) (h2 : Stable b c) : Stable a c :=
  ⟨h2.1.trans h1.1, h2.2.1.trans h1.2.1, h2.2.2.1.trans h1.2.2.1,
    h2.2.2.2.1.trans h1.2.2.2.1, h2.2.2.2.2.1.trans h1.2.2.2.2.1,
    h2.2.2.2.2.2.trans h1.2.2.2.2.2⟩

/-- Sequencing for `Stable`: the holder of the intermediate state is the holder
of the first. -/
theorem Stable_andThen {w : AWSWeapon} {o : Outcome} {f : AWSWeapon → Outcome}
    (ho : o.Yields w.WeaponComponent (Stable w))
    (hf : ∀ w1, Stable w w1 → (f w1).Yields w1.WeaponComponent (Stable w1)) :
    (o.andThen f).Yields w.WeaponComponent (Stable w) := by
  refine Yields_andThen ho ?_
  intro w1 h1
  have h2 := hf w1 h1
  rw [h1.2.2.1] at h2
  exact Yields_mono h2 (fun _ h3 => Stable_trans h1 h3)

theorem Stable_settled (s : EWeaponState) (w : AWSWeapon) :
    Stable w (SetWeaponState.settled s w) := by
  unfold SetWeaponState.settled
  split_ifs <;> exact ⟨rfl, rfl, rfl, rfl, rfl, rfl⟩

theorem Stable_scheduled (e : Env) (w : AWSWeapon) : Stable w (StartReload.scheduled e w) := by
  unfold StartReload.scheduled
  dsimp only
  split_ifs <;> exact ⟨rfl, rfl, rfl, rfl, rfl, rfl⟩

theorem Stable_StartReload (hf : Env → AWSWeapon → Outcome) (e : Env) (b : Bool)
    (w : AWSWeapon) : (StartReload hf e b w).Yields w.WeaponComponent (Stable w) := by
  rw [StartReload_eq]
  refine Yields_ite (fun _ => ?_) (fun _ => Stable_refl w)
  have h1 : Stable w (SetWeaponState.settled
      (DetermineWeaponState.NewState e { w with bPendingReload := true })
      { w with bPendingReload := true }) :=
    Stable_trans (b := { w with bPendingReload := true }) ⟨rfl, rfl, rfl, rfl, rfl, rfl⟩
      (Stable_settled _ _)
  have h2 := Yields_derefHolder (P := Stable w) h1
  rw [h1.2.2.1] at h2
  refine Yields_andThen h2 ?_
  intro w2 hw2
  exact Stable_trans hw2 (Stable_scheduled e w2)

theorem Stable_OnBurstStarted (hf : Env → AWSWeapon → Outcome) (e : Env)
    (hhf : ∀ w, (hf e w).Yields w.WeaponComponent (Stable w)) (w : AWSWeapon) :
    (OnBurstStarted hf e w).Yields w.WeaponComponent (Stable w) := by
  unfold OnBurstStarted
  dsimp only
  exact Yields_ite (fun _ => ⟨rfl, rfl, rfl, rfl, rfl, rfl⟩) (fun _ => hhf w)

theorem Stable_SetWeaponState (hf : Env → AWSWeapon → Outcome) (e : Env)
    (hhf : ∀ w, (hf e w).Yields w.WeaponComponent (Stable w)) (s : EWeaponState)
    (w : AWSWeapon) : (SetWeaponState hf e s w).Yields w.WeaponComponent (Stable w) := by
  rw [SetWeaponState_eq]
  refine Yields_ite (fun _ => ?_) (fun _ => Stable_settled s w)
  have h := Stable_OnBurstStarted hf e hhf (SetWeaponState.settled s w)
  rw [settled_WeaponComponent] at h
  exact Yields_mono h (fun _ h3 => Stable_trans (Stable_settled s w) h3)

theorem Stable_DetermineWeaponState (hf : Env → AWSWeapon → Outcome) (e : Env)
    (hhf : ∀ w, (hf e w).Yields w.WeaponComponent (Stable w)) (w : AWSWeapon) :
    (DetermineWeaponState hf e w).Yields w.WeaponComponent (Stable w) :=
  Stable_SetWeaponState hf e hhf _ w

theorem Stable_UseAmmo (e : Env) (w : AWSWeapon) :
    (UseAmmo e w).Yields w.WeaponComponent (Stable w) := by
  rw [UseAmmo_eq]
  exact Yields_derefHolder (w := { w with
    CurrentAmmoInClip :=
      if HasInfiniteAmmo e w = true then w.CurrentAmmoInClip else w.CurrentAmmoInClip - 1
    CurrentAmmo :=
      if HasInfiniteAmmo e w = true ∨ HasInfiniteClip e w = true then w.CurrentAmmo
      else w.CurrentAmmo - 1 }) ⟨rfl, rfl, rfl, rfl, rfl, rfl⟩

theorem Stable_HandleFiring_body (hf : Env → AWSWeapon → Outcome) (e : Env) (w : AWSWeapon) :
    (HandleFiring.body hf e w).Yields w.WeaponComponent (Stable w) := by
  unfold HandleFiring.body
  refine Stable_andThen ?_ ?_
  · refine Yields_ite (fun _ => ?_) (fun _ => ?_)
    · refine Yields_ite (fun _ => ?_) (fun _ => Stable_refl w)
      refine Stable_andThen (Stable_UseAmmo e w) ?_
      intro w1 _
      exact ⟨rfl, rfl, rfl, rfl, rfl, rfl⟩
    · refine Yields_ite (fun _ => Stable_StartReload hf e false w) (fun _ => ?_)
      refine Yields_ite (fun _ => ?_) (fun _ => ⟨rfl, rfl, rfl, rfl, rfl, rfl⟩)
      exact Yields_ite (fun _ => ⟨rfl, rfl, rfl, rfl, rfl, rfl⟩) (fun _ => Stable_refl w)
  · intro w1 _
    refine Stable_andThen ?_ ?_
    · refine Yields_ite (fun _ => ?_) (fun _ => Stable_refl w1)
      refine Stable_andThen (w := w1) ?_ ?_
      · exact Yields_ite (fun _ => Stable_StartReload hf e false w1) (fun _ => Stable_refl w1)
      · intro w2 _
        dsimp only
        exact Yields_ite (fun _ => ⟨rfl, rfl, rfl, rfl, rfl, rfl⟩)
          (fun _ => ⟨rfl, rfl, rfl, rfl, rfl, rfl⟩)
    · intro w4 _
      exact ⟨rfl, rfl, rfl, rfl, rfl, rfl⟩

theorem Stable_HandleFiring (n : Nat) (e : Env) (w : AWSWeapon) :
    (HandleFiring (n + 1) e w).Yields w.WeaponComponent (Stable w) :=
  Stable_HandleFiring_body _ e w

/-! ## Repeated `StartFire`, and unequipping during a reload -/

theorem Yields_StartFire (n : Nat) (e : Env) (w : AWSWeapon) :
    (StartFire (n + 1) e w).Yields w.WeaponComponent (fun w1 => w1.bWantsToFire = true) := by
  unfold StartFire
  refine Yields_ite (fun _ => ?_) (fun h => ?_)
  · exact Yields_mono
      (Stable_DetermineWeaponState _ e (fun w => Stable_HandleFiring n e w)
        { w with bWantsToFire := true })
      (fun _ h => h.2.2.2.2.1)
  · show w.bWantsToFire = true
    simpa using h

/-- C11: calling `StartFire` twice with no operation in between leaves exactly
what one call leaves, whatever the answers at the second call are: the second
call changes no field, so it fires no shot and schedules no callback.  After
the first call `bWantsToFire` is set, and with a holder the call returns. -/
theorem C11_StartFire_twice (n : Nat) (e e1 : Env) (w : AWSWeapon) :
    (StartFire (n + 1) e w).andThen (StartFire (n + 1) e1) = StartFire (n + 1) e w ∧
    (∀ w1, StartFire (n + 1) e w = .ok w1 →
      w1.bWantsToFire = true ∧ StartFire (n + 1) e1 w1 = .ok w1) ∧
    (w.WeaponComponent = true → ∃ w1, StartFire (n + 1) e w = .ok w1) := by
  have hY := Yields_StartFire n e w
  have hsecond : ∀ w1 : AWSWeapon, w1.bWantsToFire = true →
      StartFire (n + 1) e1 w1 = .ok w1 := by
    intro w1 h1
    simp [StartFire, h1]
  refine ⟨?_, ?_, ?_⟩
  · cases ho : StartFire (n + 1) e w with
    | ok w1 =>
      rw [ho] at hY
      exact hsecond w1 hY
    | nullHolder w1 => rfl
    | outOfFuel w1 => rfl
  · intro w1 h1
    have hw := Yields_of_eq_ok hY h1
    exact ⟨hw, hsecond w1 hw⟩
  · intro hh
    rw [hh] at hY
    obtain ⟨w1, h1, _⟩ := Yields_returns hY
    exact ⟨w1, h1⟩

theorem settled_eq (s : EWeaponState) (w : AWSWeapon) :
    SetWeaponState.settled s w =
      { w with
        CurrentState := s
        BurstCounter :=
          if w.CurrentState = .EWS_Firing ∧ s ≠ .EWS_Firing then 0 else w.BurstCounter
        bRefiring :=
          if w.CurrentState = .EWS_Firing ∧ s ≠ .EWS_Firing then false else w.bRefiring
        TimerIntervalAdjustment :=
          if w.CurrentState = .EWS_Firing ∧ s ≠ .EWS_Firing then 0
          else w.TimerIntervalAdjustment
        TimerHandle_HandleFiring :=
          if w.CurrentState = .EWS_Firing ∧ s ≠ .EWS_Firing then none
          else w.TimerHandle_HandleFiring } := by
  unfold SetWeaponState.settled
  split_ifs <;> rfl

/-- When `DetermineWeaponState` selects `EWS_Firing` only for a weapon that is
already firing, it starts no burst and returns the settled state. -/
theorem DetermineWeaponState_quiet (hf : Env → AWSWeapon → Outcome) (e : Env) (w : AWSWeapon)
    (h : DetermineWeaponState.NewState e w = .EWS_Firing → w.CurrentState = .EWS_Firing) :
    DetermineWeaponState hf e w =
      .ok (SetWeaponState.settled (DetermineWeaponState.NewState e w) w) := by
  unfold DetermineWeaponState
  rw [SetWeaponState_eq, if_neg]
  rintro ⟨h1, h2⟩
  exact h1 (h h2)

theorem NewState_notWants (e : Env) (w : AWSWeapon) (hw : w.bWantsToFire = false)
    (hs : DetermineWeaponState.NewState e w = .EWS_Firing) : w.CurrentState = .EWS_Firing := by
  unfold DetermineWeaponState.NewState at hs
  rw [hw] at hs
  cases h1 : w.bIsEquipped <;> cases h2 : w.bPendingEquip <;> cases h3 : w.bPendingReload <;>
    cases h4 : CanReload e w <;> simp [h1, h2, h3, h4] at hs <;> exact hs

theorem NewState_notEquipped (e : Env) (w : AWSWeapon) (hq : w.bIsEquipped = false) :
    DetermineWeaponState.NewState e w =
      if w.bPendingEquip = true then .EWS_Equipping else .EWS_Idle := by
  simp [DetermineWeaponState.NewState, hq]

theorem StartReload_yields (hf : Env → AWSWeapon → Outcome) (e : Env) (b : Bool)
    (w : AWSWeapon) :
    (StartReload hf e b w).Yields w.WeaponComponent
      (fun w1 => SameLedger w w1 ∧ Stable w w1) := by
  rw [StartReload_eq]
  refine Yields_ite (fun _ => ?_) (fun _ => ⟨SameLedger_refl w, Stable_refl w⟩)
  have h1 : Stable w (SetWeaponState.settled
      (DetermineWeaponState.NewState e { w with bPendingReload := true })
      { w with bPendingReload := true }) :=
    Stable_trans (b := { w with bPendingReload := true }) ⟨rfl, rfl, rfl, rfl, rfl, rfl⟩
      (Stable_settled _ _)
  have h0 : SameLedger w (SetWeaponState.settled
      (DetermineWeaponState.NewState e { w with bPendingReload := true })
      { w with bPendingReload := true }) :=
    SameLedger_trans (b := { w with bPendingReload := true }) ⟨rfl, rfl, rfl⟩
      (SameLedger_settled _ _)
  have h2 := Yields_derefHolder (P := fun w1 => SameLedger w w1 ∧ Stable w w1) ⟨h0, h1⟩
  rw [h1.2.2.1] at h2
  refine Yields_andThen h2 ?_
  intro w2 hw2
  exact ⟨SameLedger_trans hw2.1 (SameLedger_scheduled e w2),
    Stable_trans hw2.2 (Stable_scheduled e w2)⟩

/-- With `bWantsToFire` clear, `OnEquipFinished` leaves the ammo counts, the
flag and the holder as they were, and with a holder it returns. -/
theorem OnEquipFinished_notWants (n : Nat) (e : Env) (w : AWSWeapon)
    (hw : w.bWantsToFire = false) :
    (OnEquipFinished n e w).Yields w.WeaponComponent
      (fun w1 => SameLedger w w1 ∧ w1.bWantsToFire = false ∧
        w1.WeaponComponent = w.WeaponComponent) := by
  have hD := DetermineWeaponState_quiet (HandleFiring n) e
    { w with bIsEquipped := true, bPendingEquip := false } (NewState_notWants e _ hw)
  have hS := Stable_settled
    (DetermineWeaponState.NewState e { w with bIsEquipped := true, bPendingEquip := false })
    { w with bIsEquipped := true, bPendingEquip := false }
  have hL := SameLedger_settled
    (DetermineWeaponState.NewState e { w with bIsEquipped := true, bPendingEquip := false })
    { w with bIsEquipped := true, bPendingEquip := false }
  unfold OnEquipFinished
  rw [hD]
  generalize SetWeaponState.settled
    (DetermineWeaponState.NewState e { w with bIsEquipped := true, bPendingEquip := false })
    { w with bIsEquipped := true, bPendingEquip := false } = w1 at hS hL
  have hc : w1.WeaponComponent = w.WeaponComponent := hS.2.2.1
  have hw1 : w1.bWantsToFire = false := hS.2.2.2.2.1.trans hw
  have hL1 : SameLedger w w1 := hL
  show Outcome.Yields w.WeaponComponent _
    (if w1.WeaponComponent = true then
      if (e.Holder_IsLocallyControlled && decide (w1.CurrentAmmoInClip ≤ 0) &&
          CanReload e w1) = true then StartReload (HandleFiring n) e false w1
      else Outcome.ok w1
    else Outcome.ok w1)
  refine Yields_ite (fun _ => ?_) (fun _ => ⟨hL1, hw1, hc⟩)
  refine Yields_ite (fun _ => ?_) (fun _ => ⟨hL1, hw1, hc⟩)
  have hR := StartReload_yields (HandleFiring n) e false w1
  rw [hc] at hR
  exact Yields_mono hR (fun w2 h2 =>
    ⟨SameLedger_trans hL1 h2.1, h2.2.2.2.2.2.1.trans hw1, h2.2.2.2.1.trans hc⟩)

/-- With `bWantsToFire` clear, `OnEquip` leaves the ammo counts, the flag and the
holder as they were, and with a holder it returns. -/
theorem OnEquip_notWants (n : Nat) (e : Env) (l : Bool) (w : AWSWeapon)
    (hw : w.bWantsToFire = false) :
    (OnEquip n e l w).Yields w.WeaponComponent
      (fun w1 => SameLedger w w1 ∧ w1.bWantsToFire = false ∧
        w1.WeaponComponent = w.WeaponComponent) := by
  have hD := DetermineWeaponState_quiet (HandleFiring n) e
    { w with bPendingEquip := true } (NewState_notWants e _ hw)
  have hS := Stable_settled
    (DetermineWeaponState.NewState e { w with bPendingEquip := true })
    { w with bPendingEquip := true }
  have hL := SameLedger_settled
    (DetermineWeaponState.NewState e { w with bPendingEquip := true })
    { w with bPendingEquip := true }
  unfold OnEquip
  refine Yields_ite (fun _ => ⟨SameLedger_refl w, hw, rfl⟩) (fun _ => ?_)
  rw [hD]
  generalize SetWeaponState.settled
    (DetermineWeaponState.NewState e { w with bPendingEquip := true })
    { w with bPendingEquip := true } = w1 at hS hL
  have hc : w1.WeaponComponent = w.WeaponComponent := hS.2.2.1
  have hw1 : w1.bWantsToFire = false := hS.2.2.2.2.1.trans hw
  have hL1 : SameLedger w w1 := hL
  simp only [Outcome.andThen]
  refine Yields_andThen (P := fun w2 => SameLedger w w2 ∧ w2.bWantsToFire = false ∧
    w2.WeaponComponent = w.WeaponComponent) ?_ ?_
  · refine Yields_ite (fun _ => ⟨hL1, hw1, hc⟩) (fun _ => ?_)
    have hF := OnEquipFinished_notWants n e w1 hw1
    rw [hc] at hF
    exact Yields_mono hF (fun w2 h2 =>
      ⟨SameLedger_trans hL1 h2.1, h2.2.1, h2.2.2⟩)
  · intro w2 h2
    have := Yields_derefHolder (P := fun w3 => SameLedger w w3 ∧ w3.bWantsToFire = false ∧
      w3.WeaponComponent = w.WeaponComponent) h2
    rw [h2.2.2] at this
    exact this

/-- With a holder and a reload pending, `OnUnEquip` in closed form: the burst,
if any, is finished, the state is `EWS_Idle`, the four flags are clear and the
reload and equip callbacks are cancelled. -/
theorem OnUnEquip_pendingReload (n : Nat) (e : Env) (w : AWSWeapon)
    (hh : w.WeaponComponent = true) (hp : w.bPendingReload = true) :
    OnUnEquip n e w =
      .ok { SetWeaponState.settled .EWS_Idle w with
        bIsEquipped := false
        bWantsToFire := false
        bPendingReload := false
        bPendingEquip := false
        TimerHandle_StopReload := none
        TimerHandle_ReloadWeapon := none
        TimerHandle_OnEquipFinished :=
          if w.bPendingEquip = true then none else w.TimerHandle_OnEquipFinished } := by
  rcases w with ⟨cfg, ca, wc, eq, wf, pr, pe, rf, st, am, cl, bc, lf, ti, es, ed, t1, t2, t3, t4⟩
  simp only at hh hp
  subst hh hp
  cases wf <;> cases pe <;> cases st <;>
    simp [OnUnEquip, StopFire, DetermineWeaponState, DetermineWeaponState.NewState,
      SetWeaponState, SetWeaponState.settled, Outcome.andThen, derefHolder, OnBurstFinished,
      ClearTimer]

/-- What `OnUnEquip` leaves for a weapon with a holder and a reload pending. -/
theorem OnUnEquip_pendingReload_leaves (n : Nat) (e : Env) (w : AWSWeapon)
    (hh : w.WeaponComponent = true) (hp : w.bPendingReload = true) :
    ∃ w1, OnUnEquip n e w = .ok w1 ∧
      w1.WeaponComponent = true ∧
      w1.bIsEquipped = false ∧ w1.bWantsToFire = false ∧ w1.bPendingReload = false ∧
      w1.bPendingEquip = false ∧ w1.CurrentState = .EWS_Idle ∧
      w1.TimerHandle_StopReload = none ∧ w1.TimerHandle_ReloadWeapon = none ∧
      SameLedger w w1 := by
  refine ⟨_, OnUnEquip_pendingReload n e w hh hp, ?_, rfl, rfl, rfl, rfl, rfl, rfl, rfl, ?_⟩
  · show (SetWeaponState.settled .EWS_Idle w).WeaponComponent = true
    rw [settled_WeaponComponent]; exact hh
  · exact SameLedger_settled .EWS_Idle w

/-- C14: for a weapon with a holder and a reload pending, `OnUnEquip` returns
with `bIsEquipped`, `bWantsToFire`, `bPendingReload` and `bPendingEquip` all
false, `CurrentState = EWS_Idle`, neither the `StopReload` nor the
`ReloadWeapon` callback pending (so the expiry of the `ReloadWeapon` timer
changes nothing), and the ammo counts as they were; a following `OnEquip`
returns with the same ammo counts, and so does the `OnEquipFinished` after
it. -/
theorem C14_unequip_cancels_reload (n : Nat) (e e1 e2 : Env) (l : Bool) (w : AWSWeapon)
    (hh : w.WeaponComponent = true) (hp : w.bPendingReload = true) :
    ∃ w1, OnUnEquip (n + 1) e w = .ok w1 ∧
      w1.bIsEquipped = false ∧ w1.bWantsToFire = false ∧ w1.bPendingReload = false ∧
      w1.bPendingEquip = false ∧ w1.CurrentState = .EWS_Idle ∧
      w1.TimerHandle_StopReload = none ∧ w1.TimerHandle_ReloadWeapon = none ∧
      ReloadWeaponTimerExpired e1 w1 = .ok w1 ∧
      w1.CurrentAmmo = w.CurrentAmmo ∧ w1.CurrentAmmoInClip = w.CurrentAmmoInClip ∧
      ∃ w2, OnEquip (n + 1) e1 l w1 = .ok w2 ∧
        w2.CurrentAmmo = w.CurrentAmmo ∧ w2.CurrentAmmoInClip = w.CurrentAmmoInClip ∧
        ∃ w3, OnEquipFinished (n + 1) e2 w2 = .ok w3 ∧
          w3.CurrentAmmo = w.CurrentAmmo ∧ w3.CurrentAmmoInClip = w.CurrentAmmoInClip := by
  obtain ⟨w1, h1, hc1, hq, hw, hpr, hpe, hs, ht1, ht2, hL1⟩ :=
    OnUnEquip_pendingReload_leaves (n + 1) e w hh hp
  have hE := OnEquip_notWants (n + 1) e1 l w1 hw
  rw [hc1] at hE
  obtain ⟨w2, h2, hL2, hw2, hc2⟩ := Yields_returns hE
  have hF := OnEquipFinished_notWants (n + 1) e2 w2 hw2
  rw [hc2] at hF
  obtain ⟨w3, h3, hL3, _, _⟩ := Yields_returns hF
  have hL12 := SameLedger_trans hL1 hL2
  have hL13 := SameLedger_trans hL12 hL3
  refine ⟨w1, h1, hq, hw, hpr, hpe, hs, ht1, ht2, ?_, hL1.2.1, hL1.2.2,
    w2, h2, hL12.2.1, hL12.2.2, w3, h3, hL13.2.1, hL13.2.2⟩
  simp [ReloadWeaponTimerExpired, ht2]

/-- C14 at the scenario weapon while it reloads an empty clip. -/
theorem C14_unequip_cancels_reload_witness :
    ∃ w1, OnUnEquip 1 Scenario.hostEnv
        (StartReload.scheduled Scenario.hostEnv
          { Scenario.emptyClip with bPendingReload := true, CurrentState := .EWS_Reloading })
        = .ok w1 ∧
      w1.bIsEquipped = false ∧ w1.bWantsToFire = false ∧ w1.bPendingReload = false ∧
      w1.bPendingEquip = false ∧ w1.CurrentState = .EWS_Idle ∧
      w1.TimerHandle_StopReload = none ∧ w1.TimerHandle_ReloadWeapon = none ∧
      ReloadWeaponTimerExpired Scenario.hostEnv w1 = .ok w1 ∧
      w1.CurrentAmmo = 10 ∧ w1.CurrentAmmoInClip = 0 ∧
      ∃ w2, OnEquip 1 Scenario.hostEnv true w1 = .ok w2 ∧
        w2.CurrentAmmo = 10 ∧ w2.CurrentAmmoInClip = 0 ∧
        ∃ w3, OnEquipFinished 1 Scenario.hostEnv w2 = .ok w3 ∧
          w3.CurrentAmmo = 10 ∧ w3.CurrentAmmoInClip = 0 :=
  C14_unequip_cancels_reload 0 Scenario.hostEnv Scenario.hostEnv Scenario.hostEnv true
    (StartReload.scheduled Scenario.hostEnv
      { Scenario.emptyClip with bPendingReload := true, CurrentState := .EWS_Reloading })
    (by rfl) (by rfl)

/-! ## The authoritative shot and the client's prediction -/

/-- Where the holder is not locally controlled, `HandleFiring` does one of three
things and records the time: nothing when the shot condition holds, a reload
when it may reload, the end of the burst otherwise. -/
theorem HandleFiring_body_notLocal (hf : Env → AWSWeapon → Outcome) (e : Env) (w : AWSWeapon)
    (hl : e.Holder_IsLocallyControlled = false) :
    HandleFiring.body hf e w =
      (if HandleFiring.shoots e w = true then Outcome.ok w
        else if CanReload e w = true then StartReload hf e false w
        else Outcome.ok (OnBurstFinished w)).andThen
      fun w1 => .ok { w1 with LastFireTime := e.TimeSeconds } := by
  unfold HandleFiring.body HandleFiring.shoots
  simp only [hl, Bool.and_false, Bool.false_eq_true, if_false]
  rfl

theorem scheduled_BurstCounter (e : Env) (w : AWSWeapon) :
    (StartReload.scheduled e w).BurstCounter = w.BurstCounter := by
  unfold StartReload.scheduled
  dsimp only
  split_ifs <;> rfl

/-- With a holder, `StartReload` returns with the same ammo counts and with a
burst counter that is the old one or 0. -/
theorem StartReload_returns_burst (hf : Env → AWSWeapon → Outcome) (e : Env) (b : Bool)
    (w : AWSWeapon) (hh : w.WeaponComponent = true) :
    ∃ w1, StartReload hf e b w = .ok w1 ∧ SameLedger w w1 ∧
      (w1.BurstCounter = w.BurstCounter ∨ w1.BurstCounter = 0) := by
  by_cases hc : (b || CanReload e w) = true
  · refine ⟨_, StartReload_takes_effect hf e b w hh hc, ?_, ?_⟩
    · exact SameLedger_trans
        (SameLedger_trans (b := { w with bPendingReload := true }) ⟨rfl, rfl, rfl⟩
          (SameLedger_settled _ _)) (SameLedger_scheduled e _)
    · rw [scheduled_BurstCounter, settled_eq]
      dsimp only
      split_ifs
      · exact Or.inr rfl
      · exact Or.inl rfl
  · refine ⟨w, ?_, SameLedger_refl w, Or.inl rfl⟩
    rw [StartReload_eq, if_neg hc]

/-- With a holder and no infinite flag in effect, `UseAmmo` returns with both
counts lowered by one. -/
theorem UseAmmo_noInfinite (e : Env) (w : AWSWeapon) (hh : w.WeaponComponent = true)
    (hIA : HasInfiniteAmmo e w = false) (hIC : HasInfiniteClip e w = false) :
    UseAmmo e w =
      .ok { w with
        CurrentAmmoInClip := w.CurrentAmmoInClip - 1
        CurrentAmmo := w.CurrentAmmo - 1 } := by
  rw [UseAmmo_eq]
  simp only [hIA, hIC, Bool.false_eq_true, or_self, if_false]
  exact derefHolder_ok _ hh

/-- C15: on a replica whose holder is present and not locally controlled, with
no infinite flag in effect, `ServerHandleFiring` returns, and it decides from
the state on entry: if `CurrentAmmoInClip > 0` and `CanFire()` hold,
`CurrentAmmoInClip` and `CurrentAmmo` each drop by exactly 1 and `BurstCounter`
rises by exactly 1; otherwise both ammo counts are as they were and
`BurstCounter` is the old one or 0, hence not raised. -/
theorem C15_ServerHandleFiring_decides (n : Nat) (e : Env) (w : AWSWeapon)
    (hh : w.WeaponComponent = true) (hl : e.Holder_IsLocallyControlled = false)
    (hia : w.WeaponConfig.bInfiniteAmmo = false) (hic : w.WeaponConfig.bInfiniteClip = false)
    (hea : e.Holder_HasInfiniteAmmo = false) (hec : e.Holder_HasInfiniteClip = false) :
    ∃ w1, ServerHandleFiring_Implementation (n + 1) e w = .ok w1 ∧
      ((0 < w.CurrentAmmoInClip ∧ CanFire e w = true) →
        w1.CurrentAmmoInClip = w.CurrentAmmoInClip - 1 ∧
        w1.CurrentAmmo = w.CurrentAmmo - 1 ∧
        w1.BurstCounter = w.BurstCounter + 1) ∧
      (¬ (0 < w.CurrentAmmoInClip ∧ CanFire e w = true) →
        w1.CurrentAmmoInClip = w.CurrentAmmoInClip ∧
        w1.CurrentAmmo = w.CurrentAmmo ∧
        (w1.BurstCounter = w.BurstCounter ∨ w1.BurstCounter = 0) ∧
        (0 ≤ w.BurstCounter → w1.BurstCounter ≤ w.BurstCounter)) := by
  have hIA : HasInfiniteAmmo e w = false := by simp [HasInfiniteAmmo, hia, hea]
  have hIC : HasInfiniteClip e w = false := by simp [HasInfiniteClip, hic, hec]
  have hsh : HandleFiring.shoots e w = (decide (w.CurrentAmmoInClip > 0) && CanFire e w) := by
    simp [HandleFiring.shoots, hIA, hIC]
  unfold ServerHandleFiring_Implementation
  by_cases hb : (decide (w.CurrentAmmoInClip > 0) && CanFire e w) = true
  · have hcond : 0 < w.CurrentAmmoInClip ∧ CanFire e w = true := by
      simpa using hb
    have hH : HandleFiring (n + 1) e w = .ok { w with LastFireTime := e.TimeSeconds } :=
      HandleFiring_notLocal_shoots _ e w hl (hsh.trans hb)
    have hU := UseAmmo_noInfinite e { w with LastFireTime := e.TimeSeconds } hh hIA hIC
    refine ⟨{ w with
      LastFireTime := e.TimeSeconds
      CurrentAmmoInClip := w.CurrentAmmoInClip - 1
      CurrentAmmo := w.CurrentAmmo - 1
      BurstCounter := w.BurstCounter + 1 }, ?_, fun _ => ⟨rfl, rfl, rfl⟩,
      fun hn => absurd hcond hn⟩
    rw [hH]
    show (if (decide (w.CurrentAmmoInClip > 0) && CanFire e w) = true then
      (UseAmmo e { w with LastFireTime := e.TimeSeconds }).andThen
        (fun w2 => Outcome.ok { w2 with BurstCounter := w2.BurstCounter + 1 })
      else Outcome.ok { w with LastFireTime := e.TimeSeconds }) = _
    rw [if_pos hb, hU]
    rfl
  · have hcond : ¬ (0 < w.CurrentAmmoInClip ∧ CanFire e w = true) := by
      simpa using hb
    have hns : ¬ (HandleFiring.shoots e w = true) := by rw [hsh]; exact hb
    have hH : ∃ w1, HandleFiring (n + 1) e w = .ok w1 ∧ SameLedger w w1 ∧
        (w1.BurstCounter = w.BurstCounter ∨ w1.BurstCounter = 0) := by
      show ∃ w1, HandleFiring.body (HandleFiring n) e w = .ok w1 ∧ _
      rw [HandleFiring_body_notLocal _ e w hl, if_neg hns]
      by_cases hr : CanReload e w = true
      · rw [if_pos hr]
        obtain ⟨w1, h1, hL, hB⟩ := StartReload_returns_burst (HandleFiring n) e false w hh
        rw [h1]
        exact ⟨_, rfl, hL, hB⟩
      · rw [if_neg hr]
        exact ⟨_, rfl, ⟨rfl, rfl, rfl⟩, Or.inr rfl⟩
    obtain ⟨w1, h1, hL, hB⟩ := hH
    rw [h1]
    simp only [Outcome.andThen, hb]
    refine ⟨w1, rfl, fun hc => absurd hc hcond, fun _ => ⟨hL.2.2, hL.2.1, hB, fun h0 => ?_⟩⟩
    rcases hB with hB | hB <;> omega

/-- C16, the defect: a weapon with an infinite clip fires with an empty clip,
the holder answering the same on both sides.  On the locally controlled replica
without authority `HandleFiring` takes the shot, because its condition accepts
an infinite clip, and `UseAmmo` lowers `CurrentAmmoInClip` to -1.  On the
authoritative replica `ServerHandleFiring` consumes nothing, because
`bShouldUpdateAmmo` asks for `CurrentAmmoInClip > 0` only: the clip stays at 0.
The prediction does not match the authority. -/
theorem C16_prediction_diverges :
    (Scenario.clientEnv.Holder_CanFire = Scenario.serverEnv.Holder_CanFire ∧
      Scenario.clientEnv.Holder_CanReload = Scenario.serverEnv.Holder_CanReload ∧
      Scenario.clientEnv.Holder_HasInfiniteAmmo = Scenario.serverEnv.Holder_HasInfiniteAmmo ∧
      Scenario.clientEnv.Holder_HasInfiniteClip = Scenario.serverEnv.Holder_HasInfiniteClip) ∧
    (Scenario.clientEnv.Holder_IsLocallyControlled = true ∧
      Scenario.clientEnv.bAuthority = false ∧
      Scenario.serverEnv.Holder_IsLocallyControlled = false ∧
      Scenario.serverEnv.bAuthority = true) ∧
    (∃ wc, HandleFiring 1 Scenario.clientEnv Scenario.infiniteClipEmpty = .ok wc ∧
      wc.CurrentAmmoInClip = -1 ∧ wc.CurrentAmmo = 10) ∧
    (∃ ws, ServerHandleFiring_Implementation 1 Scenario.serverEnv
        Scenario.infiniteClipEmpty = .ok ws ∧
      ws.CurrentAmmoInClip = 0 ∧ ws.CurrentAmmo = 10) := by
  refine ⟨⟨rfl, rfl, rfl, rfl⟩, ⟨rfl, rfl, rfl, rfl⟩, ?_, ?_⟩
  · refine ⟨{ Scenario.infiniteClipEmpty with
      CurrentAmmoInClip := -1
      bPendingReload := true
      CurrentState := .EWS_Reloading
      TimerHandle_StopReload := some 2 }, ?_, rfl, rfl⟩
    rfl
  · exact ⟨{ Scenario.infiniteClipEmpty with LastFireTime := 0 }, by rfl, rfl, rfl⟩

/-! ## The end of equipping -/

theorem scheduled_bPendingReload (e : Env) (w : AWSWeapon) :
    (StartReload.scheduled e w).bPendingReload = w.bPendingReload := by
  unfold StartReload.scheduled
  dsimp only
  split_ifs <;> rfl

theorem settled_bPendingReload (s : EWeaponState) (w : AWSWeapon) :
    (SetWeaponState.settled s w).bPendingReload = w.bPendingReload := by
  rw [settled_eq]

theorem duration_congr (e : Env) (w w1 : AWSWeapon) (h : w1.WeaponConfig = w.WeaponConfig) :
    StartReload.duration e w1 = StartReload.duration e w := by
  unfold StartReload.duration
  rw [h]

theorem Yields_holder {b : Bool} {P : AWSWeapon → Prop} {o : Outcome} (hb : b = true)
    (h : o.Yields b P) : o.Yields true P := by
  subst hb
  exact h

/-- C17, amended: for a weapon with a holder, `OnEquipFinished` sets
`bIsEquipped`, clears `bPendingEquip` and re-evaluates the state; if the holder
is locally controlled and afterwards the clip is empty and `CanReload()` holds,
it starts a reload: it returns with `bPendingReload` set and the `StopReload`
callback scheduled after the reload duration; otherwise it does nothing more
and returns the re-evaluated state, whatever the re-evaluation itself
started. -/
theorem C17_equip_finished_amended (n : Nat) (e : Env) (w : AWSWeapon)
    (hh : w.WeaponComponent = true) :
    ∃ w1, DetermineWeaponState (HandleFiring (n + 1)) e
        { w with bIsEquipped := true, bPendingEquip := false } = .ok w1 ∧
      w1.bIsEquipped = true ∧ w1.bPendingEquip = false ∧
      ((e.Holder_IsLocallyControlled = true ∧ w1.CurrentAmmoInClip ≤ 0 ∧
          CanReload e w1 = true) →
        ∃ w2, OnEquipFinished (n + 1) e w = .ok w2 ∧
          w2.bIsEquipped = true ∧ w2.bPendingEquip = false ∧
          w2.bPendingReload = true ∧
          w2.TimerHandle_StopReload = some (StartReload.duration e w)) ∧
      (¬ (e.Holder_IsLocallyControlled = true ∧ w1.CurrentAmmoInClip ≤ 0 ∧
          CanReload e w1 = true) →
        OnEquipFinished (n + 1) e w = .ok w1) := by
  have hY := Stable_DetermineWeaponState (HandleFiring (n + 1)) e
    (fun w => Stable_HandleFiring n e w) { w with bIsEquipped := true, bPendingEquip := false }
  have hY1 : Outcome.Yields true
      (Stable { w with bIsEquipped := true, bPendingEquip := false })
      (DetermineWeaponState (HandleFiring (n + 1)) e
        { w with bIsEquipped := true, bPendingEquip := false }) := Yields_holder hh hY
  obtain ⟨w1, h1, hS⟩ := Yields_returns hY1
  have hc1 : w1.WeaponComponent = true := hS.2.2.1.trans hh
  have hE : OnEquipFinished (n + 1) e w =
      if (e.Holder_IsLocallyControlled && decide (w1.CurrentAmmoInClip ≤ 0) &&
          CanReload e w1) = true then StartReload (HandleFiring (n + 1)) e false w1
      else .ok w1 := by
    unfold OnEquipFinished
    rw [h1]
    show (if w1.WeaponComponent = true then _ else _) = _
    rw [if_pos hc1]
  have hiff : (e.Holder_IsLocallyControlled && decide (w1.CurrentAmmoInClip ≤ 0) &&
      CanReload e w1) = true ↔
      (e.Holder_IsLocallyControlled = true ∧ w1.CurrentAmmoInClip ≤ 0 ∧
        CanReload e w1 = true) := by
    simp [and_assoc]
  refine ⟨w1, h1, hS.2.2.2.1, hS.2.2.2.2.2, ?_, ?_⟩
  · intro hc
    rw [hE, if_pos (hiff.2 hc)]
    have hT := StartReload_takes_effect (HandleFiring (n + 1)) e false w1 hc1
      (by simp [hc.2.2])
    refine ⟨_, hT, ?_, ?_, ?_, ?_⟩
    · have := Stable_trans (Stable_settled
        (DetermineWeaponState.NewState e { w1 with bPendingReload := true })
        { w1 with bPendingReload := true }) (Stable_scheduled e _)
      exact this.2.2.2.1.trans hS.2.2.2.1
    · have := Stable_trans (Stable_settled
        (DetermineWeaponState.NewState e { w1 with bPendingReload := true })
        { w1 with bPendingReload := true }) (Stable_scheduled e _)
      exact this.2.2.2.2.2.trans hS.2.2.2.2.2
    · rw [scheduled_bPendingReload, settled_bPendingReload]
    · rw [scheduled_StopReload, duration_settled]
      exact congrArg some (duration_congr e w w1 hS.1)
  · intro hc
    rw [hE, if_neg (fun h => hc (hiff.1 h))]

/-- C17 as stated fails where the holder is not locally controlled: on the
authoritative replica of a remote player's weapon with an empty clip and 10
rounds, `OnEquipFinished` returns the equipped, idle weapon; the clip is empty
and `CanReload()` holds, yet no reload is started: `bPendingReload` is false
and no `StopReload` callback is scheduled. -/
theorem C17_equip_finished_counterexample :
    Scenario.emptyClipEquipping.WeaponComponent = true ∧
    OnEquipFinished 1 Scenario.serverEnv Scenario.emptyClipEquipping =
      .ok Scenario.emptyClip ∧
    Scenario.emptyClip.bIsEquipped = true ∧
    Scenario.emptyClip.CurrentAmmoInClip ≤ 0 ∧
    CanReload Scenario.serverEnv Scenario.emptyClip = true ∧
    Scenario.emptyClip.bPendingReload = false ∧
    Scenario.emptyClip.TimerHandle_StopReload = none := by
  refine ⟨rfl, by rfl, rfl, by decide, by rfl, rfl, rfl⟩

/-- C17 on the listen server, for the weapon of its own player with an empty
clip and 10 rounds: the reload starts, with the fallback duration. -/
theorem C17_equip_finished_amended_witness :
    ∃ w1, DetermineWeaponState (HandleFiring 1) Scenario.hostEnv
        { Scenario.emptyClipEquipping with bIsEquipped := true, bPendingEquip := false } =
        .ok w1 ∧
      w1.bIsEquipped = true ∧ w1.bPendingEquip = false ∧
      ((Scenario.hostEnv.Holder_IsLocallyControlled = true ∧ w1.CurrentAmmoInClip ≤ 0 ∧
          CanReload Scenario.hostEnv w1 = true) →
        ∃ w2, OnEquipFinished 1 Scenario.hostEnv Scenario.emptyClipEquipping = .ok w2 ∧
          w2.bIsEquipped = true ∧ w2.bPendingEquip = false ∧
          w2.bPendingReload = true ∧
          w2.TimerHandle_StopReload =
            some (StartReload.duration Scenario.hostEnv Scenario.emptyClipEquipping)) ∧
      (¬ (Scenario.hostEnv.Holder_IsLocallyControlled = true ∧ w1.CurrentAmmoInClip ≤ 0 ∧
          CanReload Scenario.hostEnv w1 = true) →
        OnEquipFinished 1 Scenario.hostEnv Scenario.emptyClipEquipping = .ok w1) :=
  C17_equip_finished_amended 0 Scenario.hostEnv Scenario.emptyClipEquipping rfl

/-- C15 on the authoritative replica of a remote player's weapon, equipped with
30 of 90 rounds: the shot is accepted. -/
theorem C15_ServerHandleFiring_decides_witness :
    ∃ w1, ServerHandleFiring_Implementation 1 Scenario.serverEnv Scenario.equipped = .ok w1 ∧
      ((0 < Scenario.equipped.CurrentAmmoInClip ∧
          CanFire Scenario.serverEnv Scenario.equipped = true) →
        w1.CurrentAmmoInClip = Scenario.equipped.CurrentAmmoInClip - 1 ∧
        w1.CurrentAmmo = Scenario.equipped.CurrentAmmo - 1 ∧
        w1.BurstCounter = Scenario.equipped.BurstCounter + 1) ∧
      (¬ (0 < Scenario.equipped.CurrentAmmoInClip ∧
          CanFire Scenario.serverEnv Scenario.equipped = true) →
        w1.CurrentAmmoInClip = Scenario.equipped.CurrentAmmoInClip ∧
        w1.CurrentAmmo = Scenario.equipped.CurrentAmmo ∧
        (w1.BurstCounter = Scenario.equipped.BurstCounter ∨ w1.BurstCounter = 0) ∧
        (0 ≤ Scenario.equipped.BurstCounter →
          w1.BurstCounter ≤ Scenario.equipped.BurstCounter)) :=
  C15_ServerHandleFiring_decides 0 Scenario.serverEnv Scenario.equipped rfl rfl rfl rfl rfl rfl

/-! ## The refire timer -/

/-- The end of the locally controlled part of `HandleFiring` in closed form. -/
theorem HandleFiring_refire_eq (w2 : AWSWeapon) :
    (if ({ w2 with
          bRefiring :=
            decide (w2.CurrentState = EWeaponState.EWS_Firing ∧
              w2.WeaponConfig.TimeBetweenShots > 0) } : AWSWeapon).bRefiring = true then
        Outcome.ok { w2 with
          bRefiring :=
            decide (w2.CurrentState = EWeaponState.EWS_Firing ∧
              w2.WeaponConfig.TimeBetweenShots > 0)
          TimerHandle_HandleFiring :=
            SetTimer (FireCallback.HandleReFiring,
              max (w2.WeaponConfig.TimeBetweenShots + w2.TimerIntervalAdjustment) SMALL_NUMBER)
          TimerIntervalAdjustment := 0 }
      else
        Outcome.ok { w2 with
          bRefiring :=
            decide (w2.CurrentState = EWeaponState.EWS_Firing ∧
              w2.WeaponConfig.TimeBetweenShots > 0) }) =
      Outcome.ok (HandleFiring.refire w2) := by
  unfold HandleFiring.refire
  by_cases h : w2.CurrentState = EWeaponState.EWS_Firing ∧ w2.WeaponConfig.TimeBetweenShots > 0
  · simp only [h, and_self, decide_True, if_true]
  · simp only [h, decide_False, Bool.false_eq_true, if_false]

theorem refire_CurrentState (w : AWSWeapon) :
    (HandleFiring.refire w).CurrentState = w.CurrentState := by
  unfold HandleFiring.refire
  split_ifs <;> rfl

theorem refire_BurstCounter (w : AWSWeapon) :
    (HandleFiring.refire w).BurstCounter = w.BurstCounter := by
  unfold HandleFiring.refire
  split_ifs <;> rfl

/-- In `EWS_Firing` with a positive `TimeBetweenShots`, the refire timer is
scheduled and the adjustment is reset. -/
theorem refire_firing (w : AWSWeapon) (hs : w.CurrentState = .EWS_Firing)
    (ht : 0 < w.WeaponConfig.TimeBetweenShots) :
    (HandleFiring.refire w).TimerHandle_HandleFiring =
        some (FireCallback.HandleReFiring,
          max (w.WeaponConfig.TimeBetweenShots + w.TimerIntervalAdjustment) SMALL_NUMBER) ∧
      (HandleFiring.refire w).TimerIntervalAdjustment = 0 := by
  unfold HandleFiring.refire
  rw [if_pos ⟨hs, ht⟩]
  exact ⟨rfl, rfl⟩

theorem andThen_ok (w : AWSWeapon) (f : AWSWeapon → Outcome) :
    (Outcome.ok w).andThen f = f w := rfl

/-- For a locally controlled holder, when the shot condition holds, `HandleFiring`
uses the ammo, counts the shot, starts a reload if the clip is then empty and a
reload is allowed, sets up the refire timer and records the time. -/
theorem HandleFiring_body_local_shot (hf : Env → AWSWeapon → Outcome) (e : Env) (w u : AWSWeapon)
    (hl : e.Holder_IsLocallyControlled = true) (hh : w.WeaponComponent = true)
    (hs : HandleFiring.shoots e w = true)
    (hU : UseAmmo e w = .ok u) (hu : u.WeaponComponent = true) :
    HandleFiring.body hf e w =
      ((if (decide (u.CurrentAmmoInClip ≤ 0) &&
            CanReload e { u with BurstCounter := u.BurstCounter + 1 }) = true then
          StartReload hf e false { u with BurstCounter := u.BurstCounter + 1 }
        else .ok { u with BurstCounter := u.BurstCounter + 1 }).andThen fun w2 =>
        .ok (HandleFiring.refire w2)).andThen fun w4 =>
        .ok { w4 with LastFireTime := e.TimeSeconds } := by
  have hwl : (w.WeaponComponent && e.Holder_IsLocallyControlled) = true := by
    rw [hh, hl]; rfl
  have hul : (u.WeaponComponent && e.Holder_IsLocallyControlled) = true := by
    rw [hu, hl]; rfl
  have hR : (fun w2 => Outcome.ok (HandleFiring.refire w2)) = _ :=
    funext fun w2 => (HandleFiring_refire_eq w2).symm
  rw [hR]
  unfold HandleFiring.shoots at hs
  unfold HandleFiring.body
  dsimp only
  rw [if_pos hs, if_pos hwl, hU, andThen_ok, andThen_ok]
  dsimp only
  rw [if_pos hul]

theorem scheduled_CurrentState (e : Env) (w : AWSWeapon) :
    (StartReload.scheduled e w).CurrentState = w.CurrentState := by
  unfold StartReload.scheduled
  dsimp only
  split_ifs <;> rfl

/-- With a pending reload that is allowed, `DetermineWeaponState` never selects
`EWS_Firing`. -/
theorem NewState_reload_allowed (e : Env) (w : AWSWeapon) (hc : CanReload e w = true) :
    DetermineWeaponState.NewState e { w with bPendingReload := true } ≠ .EWS_Firing := by
  have hc1 : CanReload e { w with bPendingReload := true } = true := hc
  unfold DetermineWeaponState.NewState
  rw [hc1]
  by_cases hq : w.bIsEquipped = true
  · rw [if_pos hq, if_pos rfl, if_neg (by decide)]
    decide
  · rw [if_neg hq]
    split_ifs <;> decide

/-- A reload that is allowed for a weapon with a holder leaves it out of
`EWS_Firing`. -/
theorem StartReload_leaves_firing (hf : Env → AWSWeapon → Outcome) (e : Env) (w : AWSWeapon)
    (hh : w.WeaponComponent = true) (hc : CanReload e w = true) :
    ∃ w2, StartReload hf e false w = .ok w2 ∧ w2.CurrentState ≠ .EWS_Firing := by
  refine ⟨_, StartReload_takes_effect hf e false w hh (by simp [hc]), ?_⟩
  rw [scheduled_CurrentState, settled_CurrentState]
  exact NewState_reload_allowed e w hc

/-- C18, amended: for a locally controlled weapon with catch-up enabled and
`TimeBetweenShots > 0`, when `HandleReFiring` runs at time `now` with
`TimerIntervalAdjustment = a`, the clip has ammo and `CanFire()` holds, it
returns with `LastFireTime = now`; if the weapon is in `EWS_Firing` afterwards,
the shot was counted, the next `HandleReFiring` is scheduled after exactly
`max (TimeBetweenShots + a - max 0 ((now - LastFireTime) - TimeBetweenShots)) SMALL_NUMBER`
and `TimerIntervalAdjustment = 0`; with `a = 0` that delay never exceeds
`max TimeBetweenShots SMALL_NUMBER`, and never exceeds `TimeBetweenShots` when
`TimeBetweenShots` is at least `SMALL_NUMBER`. -/
theorem C18_refire_delay_amended (n : Nat) (e : Env) (w : AWSWeapon)
    (hl : e.Holder_IsLocallyControlled = true)
    (hc : w.bAllowAutomaticWeaponCatchup = true)
    (ht : 0 < w.WeaponConfig.TimeBetweenShots)
    (ha : 0 < w.CurrentAmmoInClip) (hcf : CanFire e w = true) :
    ∃ w1, HandleReFiring (n + 1) e w = .ok w1 ∧
      w1.LastFireTime = e.TimeSeconds ∧
      (w1.CurrentState = .EWS_Firing →
        w1.BurstCounter = w.BurstCounter + 1 ∧
        w1.TimerHandle_HandleFiring =
          some (FireCallback.HandleReFiring,
            max (w.WeaponConfig.TimeBetweenShots + w.TimerIntervalAdjustment -
              HandleReFiring.slack e w) SMALL_NUMBER) ∧
        w1.TimerIntervalAdjustment = 0 ∧
        (w.TimerIntervalAdjustment = 0 →
          max (w.WeaponConfig.TimeBetweenShots + w.TimerIntervalAdjustment -
              HandleReFiring.slack e w) SMALL_NUMBER ≤
            max w.WeaponConfig.TimeBetweenShots SMALL_NUMBER ∧
          (SMALL_NUMBER ≤ w.WeaponConfig.TimeBetweenShots →
            max (w.WeaponConfig.TimeBetweenShots + w.TimerIntervalAdjustment -
                HandleReFiring.slack e w) SMALL_NUMBER ≤
              w.WeaponConfig.TimeBetweenShots))) := by
  have hh : w.WeaponComponent = true := CanFire_holder e w hcf
  have hR : HandleReFiring (n + 1) e w =
      HandleFiring.body (HandleFiring n) e
        { w with TimerIntervalAdjustment :=
          w.TimerIntervalAdjustment - HandleReFiring.slack e w } := by
    unfold HandleReFiring
    dsimp only
    rw [if_pos hc]
    rfl
  have hs : HandleFiring.shoots e
      { w with TimerIntervalAdjustment :=
        w.TimerIntervalAdjustment - HandleReFiring.slack e w } = true := by
    have h1 : CanFire e { w with TimerIntervalAdjustment :=
        w.TimerIntervalAdjustment - HandleReFiring.slack e w } = true := hcf
    unfold HandleFiring.shoots
    rw [h1]
    simp [ha]
  obtain ⟨u, hU, huc, hucfg, hus, hub, hut⟩ := UseAmmo_returns e
    { w with TimerIntervalAdjustment :=
      w.TimerIntervalAdjustment - HandleReFiring.slack e w } hh
  rw [hR, HandleFiring_body_local_shot (HandleFiring n) e
    { w with TimerIntervalAdjustment :=
      w.TimerIntervalAdjustment - HandleReFiring.slack e w } u hl hh hs hU huc]
  by_cases hr : (decide (u.CurrentAmmoInClip ≤ 0) &&
      CanReload e { u with BurstCounter := u.BurstCounter + 1 }) = true
  · rw [if_pos hr]
    obtain ⟨w2, h2, hne⟩ := StartReload_leaves_firing (HandleFiring n) e
      { u with BurstCounter := u.BurstCounter + 1 } huc
      (by simp only [Bool.and_eq_true] at hr; exact hr.2)
    rw [h2]
    refine ⟨_, rfl, rfl, fun h => absurd ((refire_CurrentState w2).symm.trans h) hne⟩
  · rw [if_neg hr]
    refine ⟨_, rfl, rfl, fun h => ?_⟩
    have hst : ({ u with BurstCounter := u.BurstCounter + 1 } : AWSWeapon).CurrentState =
        .EWS_Firing := (refire_CurrentState _).symm.trans h
    have htb : 0 < ({ u with BurstCounter := u.BurstCounter + 1 } :
        AWSWeapon).WeaponConfig.TimeBetweenShots := by
      show 0 < u.WeaponConfig.TimeBetweenShots
      rw [hucfg]; exact ht
    obtain ⟨hF1, hF2⟩ := refire_firing _ hst htb
    have hsl : 0 ≤ HandleReFiring.slack e w := le_max_left _ _
    refine ⟨?_, ?_, hF2, fun h0 => ⟨?_, fun hsm => ?_⟩⟩
    · show (HandleFiring.refire { u with BurstCounter := u.BurstCounter + 1 }).BurstCounter = _
      rw [refire_BurstCounter]
      show u.BurstCounter + 1 = _
      rw [hub]
    · show (HandleFiring.refire
        { u with BurstCounter := u.BurstCounter + 1 }).TimerHandle_HandleFiring = _
      rw [hF1]
      show some (FireCallback.HandleReFiring,
        max (u.WeaponConfig.TimeBetweenShots + u.TimerIntervalAdjustment) SMALL_NUMBER) = _
      rw [hucfg, hut]
      show some (FireCallback.HandleReFiring,
        max (w.WeaponConfig.TimeBetweenShots +
          (w.TimerIntervalAdjustment - HandleReFiring.slack e w)) SMALL_NUMBER) = _
      rw [add_sub_assoc]
    · rw [h0]
      exact max_le_max (by linarith) le_rfl
    · rw [h0]
      exact max_le (by linarith) hsm

/-- C18 for the scenario weapon in its burst on the listen server, with the
refire callback running at `t = 0.15` after a shot at `t = 0`: the slack is
0.05 and the next callback is scheduled after 0.05. -/
theorem C18_refire_delay_amended_witness :
    HandleReFiring.slack (Scenario.hostEnvAt (3 / 20)) Scenario.firing = 1 / 20 ∧
    ∃ w1, HandleReFiring 1 (Scenario.hostEnvAt (3 / 20)) Scenario.firing = .ok w1 ∧
      w1.LastFireTime = (Scenario.hostEnvAt (3 / 20)).TimeSeconds ∧
      (w1.CurrentState = .EWS_Firing →
        w1.BurstCounter = Scenario.firing.BurstCounter + 1 ∧
        w1.TimerHandle_HandleFiring =
          some (FireCallback.HandleReFiring,
            max (Scenario.firing.WeaponConfig.TimeBetweenShots +
              Scenario.firing.TimerIntervalAdjustment -
              HandleReFiring.slack (Scenario.hostEnvAt (3 / 20)) Scenario.firing)
              SMALL_NUMBER) ∧
        w1.TimerIntervalAdjustment = 0 ∧
        (Scenario.firing.TimerIntervalAdjustment = 0 →
          max (Scenario.firing.WeaponConfig.TimeBetweenShots +
              Scenario.firing.TimerIntervalAdjustment -
              HandleReFiring.slack (Scenario.hostEnvAt (3 / 20)) Scenario.firing)
              SMALL_NUMBER ≤
            max Scenario.firing.WeaponConfig.TimeBetweenShots SMALL_NUMBER ∧
          (SMALL_NUMBER ≤ Scenario.firing.WeaponConfig.TimeBetweenShots →
            max (Scenario.firing.WeaponConfig.TimeBetweenShots +
                Scenario.firing.TimerIntervalAdjustment -
                HandleReFiring.slack (Scenario.hostEnvAt (3 / 20)) Scenario.firing)
                SMALL_NUMBER ≤
              Scenario.firing.WeaponConfig.TimeBetweenShots))) :=
  ⟨by norm_num [HandleReFiring.slack, Scenario.hostEnvAt, Scenario.hostEnv, Scenario.serverEnv,
      Scenario.firing, Scenario.equipped, Scenario.spawned, Scenario.config, OnEnterInventory,
      SetOwningComponent, PostInitializeComponents, wrapInt32, AWSWeapon.ctor],
   C18_refire_delay_amended 0 (Scenario.hostEnvAt (3 / 20)) Scenario.firing rfl rfl
    (by norm_num [Scenario.firing, Scenario.equipped, Scenario.spawned, Scenario.config,
      OnEnterInventory, SetOwningComponent, PostInitializeComponents, wrapInt32, AWSWeapon.ctor])
    (by decide) (by rfl)⟩

/-- C18 as stated fails for a `TimeBetweenShots` below `SMALL_NUMBER`: with
`TimeBetweenShots = 1e-9`, `a = 0`, the last shot at `t = 0` and `HandleReFiring`
at `t = 0` on the listen server, the shot is fired, the weapon stays in
`EWS_Firing`, and the next `HandleReFiring` is scheduled after
`SMALL_NUMBER = 1e-8`, which exceeds `TimeBetweenShots`. -/
theorem C18_refire_delay_counterexample :
    Scenario.hostEnv.Holder_IsLocallyControlled = true ∧
    ({ Scenario.firing with WeaponConfig := Scenario.tinyIntervalConfig } :
      AWSWeapon).bAllowAutomaticWeaponCatchup = true ∧
    0 < Scenario.tinyIntervalConfig.TimeBetweenShots ∧
    ({ Scenario.firing with WeaponConfig := Scenario.tinyIntervalConfig } :
      AWSWeapon).TimerIntervalAdjustment = 0 ∧
    0 < ({ Scenario.firing with WeaponConfig := Scenario.tinyIntervalConfig } :
      AWSWeapon).CurrentAmmoInClip ∧
    CanFire Scenario.hostEnv
      { Scenario.firing with WeaponConfig := Scenario.tinyIntervalConfig } = true ∧
    HandleReFiring 1 Scenario.hostEnv
        { Scenario.firing with WeaponConfig := Scenario.tinyIntervalConfig } =
      .ok { Scenario.firing with
        WeaponConfig := Scenario.tinyIntervalConfig
        CurrentAmmo := 88
        CurrentAmmoInClip := 28
        BurstCounter := 2
        TimerHandle_HandleFiring := some (FireCallback.HandleReFiring, 1 / 100000000) } ∧
    ¬ ((1 : ℚ) / 100000000 ≤ Scenario.tinyIntervalConfig.TimeBetweenShots) := by
  refine ⟨rfl, rfl, ?_, rfl, by decide, by rfl, ?_, ?_⟩
  · norm_num [Scenario.tinyIntervalConfig, Scenario.config]
  · norm_num [HandleReFiring, HandleFiring, HandleFiring.body, UseAmmo, CanFire,
      CanReload, HasInfiniteAmmo, HasInfiniteClip, derefHolder, Outcome.andThen,
      Scenario.equipped, Scenario.firing, Scenario.spawned, Scenario.hostEnv,
      Scenario.serverEnv, Scenario.config, Scenario.tinyIntervalConfig, OnEnterInventory,
      SetOwningComponent, PostInitializeComponents, wrapInt32, AWSWeapon.ctor, SetTimer, SMALL_NUMBER]
  · norm_num [Scenario.tinyIntervalConfig, Scenario.config]

/-! ## `ReloadWeapon` applied twice -/

/-- The fields after `ReloadWeapon`, in closed form. -/
theorem ReloadWeapon_state (e : Env) (w : AWSWeapon) :
    (ReloadWeapon e w).state =
      { w with
        CurrentAmmoInClip :=
          if HasInfiniteClip e w = true then max w.CurrentAmmoInClip w.WeaponConfig.AmmoPerClip
          else max w.CurrentAmmoInClip (min w.WeaponConfig.AmmoPerClip w.CurrentAmmo)
        CurrentAmmo :=
          if HasInfiniteClip e w = true then
            max (max w.CurrentAmmoInClip w.WeaponConfig.AmmoPerClip) w.CurrentAmmo
          else w.CurrentAmmo } := by
  rw [ReloadWeapon_eq, derefHolder_state]

/-- With the same infinite-clip answer of the holder, `ReloadWeapon` leaves the
fields it produced as they are. -/
theorem ReloadWeapon_state_fixed (e e1 : Env) (w : AWSWeapon)
    (h : e1.Holder_HasInfiniteClip = e.Holder_HasInfiniteClip) :
    (ReloadWeapon e1 (ReloadWeapon e w).state).state = (ReloadWeapon e w).state := by
  rw [ReloadWeapon_state e w, ReloadWeapon_state e1]
  rcases w with ⟨⟨apc, ma, ic, tbs, nard, ia, icl⟩, ca, wc, eq, wf, pr, pe, rf, st, am, cl, bc,
    lf, ti, es, ed, t1, t2, t3, t4⟩
  simp only [HasInfiniteClip, h]
  by_cases hc : (icl || wc && e.Holder_HasInfiniteClip) = true
  · simp only [hc, if_true]
    congr 1 <;> omega
  · simp only [hc, Bool.false_eq_true, if_false]
    rw [max_eq_left (le_max_right _ _)]

/-- C21: for every state and a fixed infinite-clip answer of the holder,
`ReloadWeapon` is idempotent and monotone on the ammo counts: the fields after
two applications are the fields after one, in particular `CurrentAmmoInClip`
and `CurrentAmmo`; as an outcome, `ReloadWeapon` followed by `ReloadWeapon` is
`ReloadWeapon`, and with a holder both calls return; and one application lowers
neither `CurrentAmmoInClip` nor `CurrentAmmo`. -/
theorem C21_ReloadWeapon_idempotent_monotone (e e1 : Env) (w : AWSWeapon)
    (h : e1.Holder_HasInfiniteClip = e.Holder_HasInfiniteClip) :
    (ReloadWeapon e1 (ReloadWeapon e w).state).state.CurrentAmmoInClip =
        (ReloadWeapon e w).state.CurrentAmmoInClip ∧
    (ReloadWeapon e1 (ReloadWeapon e w).state).state.CurrentAmmo =
        (ReloadWeapon e w).state.CurrentAmmo ∧
    (ReloadWeapon e1 (ReloadWeapon e w).state).state = (ReloadWeapon e w).state ∧
    (ReloadWeapon e w).andThen (ReloadWeapon e1) = ReloadWeapon e w ∧
    (w.WeaponComponent = true →
      ∃ w1, ReloadWeapon e w = .ok w1 ∧ ReloadWeapon e1 w1 = .ok w1) ∧
    w.CurrentAmmoInClip ≤ (ReloadWeapon e w).state.CurrentAmmoInClip ∧
    w.CurrentAmmo ≤ (ReloadWeapon e w).state.CurrentAmmo := by
  have hfix := ReloadWeapon_state_fixed e e1 w h
  have hwc : (ReloadWeapon e w).state.WeaponComponent = w.WeaponComponent := by
    rw [ReloadWeapon_state]
  have hret : ∀ (e2 : Env) (w2 : AWSWeapon), w2.WeaponComponent = true →
      ReloadWeapon e2 w2 = .ok (ReloadWeapon e2 w2).state := by
    intro e2 w2 h2
    rw [ReloadWeapon_state, ReloadWeapon_eq]
    exact derefHolder_ok _ h2
  refine ⟨congrArg AWSWeapon.CurrentAmmoInClip hfix, congrArg AWSWeapon.CurrentAmmo hfix,
    hfix, ?_, ?_, ?_, ?_⟩
  · cases hw : w.WeaponComponent
    · have hnw : ¬ (w.WeaponComponent = true) := by rw [hw]; decide
      have hn : ReloadWeapon e w = .nullHolder (ReloadWeapon e w).state := by
        rw [ReloadWeapon_state, ReloadWeapon_eq]
        unfold derefHolder
        exact if_neg hnw
      rw [hn]
      rfl
    · have h1 := hret e w hw
      have h2 := hret e1 (ReloadWeapon e w).state (hwc.trans hw)
      rw [hfix] at h2
      rw [h1]
      show ReloadWeapon e1 (ReloadWeapon e w).state = _
      exact h2
  · intro hw
    have h2 := hret e1 (ReloadWeapon e w).state (hwc.trans hw)
    rw [hfix] at h2
    exact ⟨_, hret e w hw, h2⟩
  · rw [ReloadWeapon_state]
    show w.CurrentAmmoInClip ≤ (if HasInfiniteClip e w = true then _ else _)
    split_ifs
    · exact le_max_left _ _
    · exact le_max_left _ _
  · rw [ReloadWeapon_state]
    show w.CurrentAmmo ≤ (if HasInfiniteClip e w = true then _ else _)
    split_ifs
    · exact le_max_right _ _
    · exact le_rfl

/-- C21 for the scenario weapon with an empty clip and 10 rounds, reloaded on
the dedicated server and again on the listen server: 10 rounds in the clip
after one application and after two. -/
theorem C21_ReloadWeapon_idempotent_monotone_witness :
    (ReloadWeapon Scenario.serverEnv Scenario.emptyClip).state.CurrentAmmoInClip = 10 ∧
    (ReloadWeapon Scenario.hostEnv
        (ReloadWeapon Scenario.serverEnv Scenario.emptyClip).state).state.CurrentAmmoInClip =
      (ReloadWeapon Scenario.serverEnv Scenario.emptyClip).state.CurrentAmmoInClip ∧
    (ReloadWeapon Scenario.hostEnv
        (ReloadWeapon Scenario.serverEnv Scenario.emptyClip).state).state.CurrentAmmo =
      (ReloadWeapon Scenario.serverEnv Scenario.emptyClip).state.CurrentAmmo ∧
    (ReloadWeapon Scenario.hostEnv
        (ReloadWeapon Scenario.serverEnv Scenario.emptyClip).state).state =
      (ReloadWeapon Scenario.serverEnv Scenario.emptyClip).state ∧
    (ReloadWeapon Scenario.serverEnv Scenario.emptyClip).andThen
        (ReloadWeapon Scenario.hostEnv) =
      ReloadWeapon Scenario.serverEnv Scenario.emptyClip ∧
    (Scenario.emptyClip.WeaponComponent = true →
      ∃ w1, ReloadWeapon Scenario.serverEnv Scenario.emptyClip = .ok w1 ∧
        ReloadWeapon Scenario.hostEnv w1 = .ok w1) ∧
    Scenario.emptyClip.CurrentAmmoInClip ≤
      (ReloadWeapon Scenario.serverEnv Scenario.emptyClip).state.CurrentAmmoInClip ∧
    Scenario.emptyClip.CurrentAmmo ≤
      (ReloadWeapon Scenario.serverEnv Scenario.emptyClip).state.CurrentAmmo :=
  ⟨by decide,
   C21_ReloadWeapon_idempotent_monotone Scenario.serverEnv Scenario.hostEnv Scenario.emptyClip rfl⟩

end WeaponSystem
